import Mathlib

/-!
# VanDaemon LED dimmer firmware: channel store, command gateway, debouncer

A shallow embedding of `src/hw/LEDDimmer/firmware` (pwm_control.cpp,
mqtt_client.cpp, button_handler.cpp, config.h) and theorems about it.

Conventions of the embedding

* The firmware keeps its state in file-level statics.  They are gathered in
  the record `Device` (channel store and MQTT gateway) and `Buttons`
  (debouncer); every C function becomes a function on that record.
* `uint8_t` / `uint32_t` values are natural numbers; wrap-around is written
  out with `% 256` and `% 2 ^ 32` where the C arithmetic can wrap.
* Build-time macros that vary between builds (`NUM_CHANNELS`,
  `ENABLE_TRANSITIONS`, `BOARD_VARIANT`) are the fields of `Build`.
* Hardware and library effects are recorded in logs inside the state, newest
  entry first: `ledcWrites` (PWM duty writes), `published`, `subscribed`,
  `connectCalls` (MQTT transport calls).
* What the environment decides (clock readings, pin levels, whether a
  connection attempt succeeds, the JSON library) is an explicit argument.
-/

namespace VanDaemon

/-! ## config.h -/

/-- Build-time configuration: the macros of config.h that differ between builds. -/
structure Build where
  NUM_CHANNELS : Nat
  ENABLE_TRANSITIONS : Bool
  BOARD_VARIANT : String
  deriving DecidableEq, Repr

/-- The check of config.h lines 26-28: a build has 4 or 8 channels. -/
def Build.Valid (b : Build) : Prop := b.NUM_CHANNELS = 4 ∨ b.NUM_CHANNELS = 8

instance (b : Build) : Decidable b.Valid := by
  unfold Build.Valid
  infer_instance

/-- The 8-channel build with the defaults of config.h. -/
def build8 : Build := { NUM_CHANNELS := 8, ENABLE_TRANSITIONS := true, BOARD_VARIANT := "8CH" }

/-- The 4-channel build. -/
def build4 : Build := { NUM_CHANNELS := 4, ENABLE_TRANSITIONS := true, BOARD_VARIANT := "4CH" }

/-- An 8-channel build with ENABLE_TRANSITIONS commented out. -/
def build8Direct : Build := { NUM_CHANNELS := 8, ENABLE_TRANSITIONS := false, BOARD_VARIANT := "8CH" }

def PWM_PINS : List Nat := [25, 26, 27, 14, 4, 5, 18, 19]

def MQTT_RETAIN : Bool := true
def MQTT_RECONNECT_MS : Nat := 5000
def MQTT_BASE_TOPIC : String := "vandaemon/leddimmer"
def STATUS_READY : Nat := 0x001000
def STATUS_ERROR : Nat := 0x100000
def STATUS_MQTT_CONN : Nat := 0x001010
def DEBOUNCE_MS : Nat := 50
def STATE_PUBLISH_MS : Nat := 5000
def HEARTBEAT_MS : Nat := 30000
def PREFS_DEVICE_ID : String := "deviceId"
def PREFS_DEVICE_NAME : String := "deviceName"
def PREFS_MQTT_BROKER : String := "mqttBroker"
def PREFS_MQTT_USER : String := "mqttUser"
def PREFS_MQTT_PASS : String := "mqttPass"
def PREFS_CHANNEL_BASE : String := "ch"
def FIRMWARE_VERSION : String := "1.0.0"

/-- Number of values of a `uint32_t`, the type of `millis()`. -/
def UINT32 : Nat := 2 ^ 32

/-- Reading of the millisecond clock at real time `t`: `millis()` is a `uint32_t`. -/
def millis (t : Nat) : Nat := t % UINT32

/-- Unsigned 32-bit subtraction `a - b` as C computes it on `uint32_t`. -/
def sub32 (a b : Nat) : Nat := (a % UINT32 + UINT32 - b % UINT32) % UINT32

/-! ## Preferences (NVS key-value store) -/

/-- Modelled from the spec: an entry of the Preferences (NVS) library, which is
not part of the repository.  A stored entry carries its type: `putUChar` and
`putString` entries. -/
inductive PrefValue where
  | uchar (v : Nat)
  | str (s : String)
  deriving DecidableEq, Repr

/-- Modelled from the spec: the Preferences (NVS) library, which is not part
of the repository, as the "namespaced key-value store" of spec section 6.
The namespace "leddimmer" is an association list, newest entry first; `begin`
and `end` do nothing to it, and every `put` succeeds. -/
abbrev Nvs := List (String × PrefValue)

def Nvs.isKey (p : Nvs) (key : String) : Bool := (p.lookup key).isSome

def Nvs.putUChar (p : Nvs) (key : String) (v : Nat) : Nvs := (key, PrefValue.uchar v) :: p

def Nvs.getUChar (p : Nvs) (key : String) (dflt : Nat) : Nat :=
  match p.lookup key with
  | some (PrefValue.uchar v) => v
  | _ => dflt

def Nvs.putString (p : Nvs) (key : String) (v : String) : Nvs := (key, PrefValue.str v) :: p

def Nvs.getString (p : Nvs) (key : String) (dflt : String) : String :=
  match p.lookup key with
  | some (PrefValue.str v) => v
  | _ => dflt

/-! ## Device state -/

/-- One `mqttClient.publish(topic, payload, retained)` call. -/
structure Publication where
  topic : String
  payload : String
  retained : Bool
  deriving DecidableEq, Repr

/-- One `mqttClient.connect(...)` call: client id, optional credentials, last will. -/
structure ConnectCall where
  clientId : String
  credentials : Option (String × String)
  willTopic : String
  willMessage : String
  deriving DecidableEq, Repr

/-- The file-level statics of pwm_control.cpp and mqtt_client.cpp, with the
effect logs of the hardware and of the MQTT transport. -/
structure Device where
  channelValues : List Nat
  ledcWrites : List (Nat × Nat)
  nvs : Nvs
  deviceId : String
  deviceName : String
  mqttBroker : String
  mqttUser : String
  mqttPass : String
  lastReconnectAttempt : Nat
  lastStatePublish : Nat
  lastHeartbeat : Nat
  topicStatus : String
  topicConfig : String
  topicHeartbeat : String
  topicChannelCmd : List String
  topicChannelState : List String
  topicAllCmd : String
  connected : Bool
  published : List Publication
  subscribed : List String
  connectCalls : List ConnectCall
  statusColor : Nat
  deriving DecidableEq, Repr

/-- State at power-on: the static initialisers of the two files, an empty
transport log, and whatever the flash holds in `nvs`. -/
def Device.boot (b : Build) (nvs : Nvs) : Device :=
  { channelValues := List.replicate b.NUM_CHANNELS 0
    ledcWrites := []
    nvs := nvs
    deviceId := ""
    deviceName := ""
    mqttBroker := ""
    mqttUser := ""
    mqttPass := ""
    lastReconnectAttempt := 0
    lastStatePublish := 0
    lastHeartbeat := 0
    topicStatus := ""
    topicConfig := ""
    topicHeartbeat := ""
    topicChannelCmd := List.replicate b.NUM_CHANNELS ""
    topicChannelState := List.replicate b.NUM_CHANNELS ""
    topicAllCmd := ""
    connected := false
    published := []
    subscribed := []
    connectCalls := []
    statusColor := 0 }

/-- The arrays of the state have `NUM_CHANNELS` cells and the channel cells hold bytes. -/
def Device.WF (b : Build) (s : Device) : Prop :=
  s.channelValues.length = b.NUM_CHANNELS ∧
  (∀ v ∈ s.channelValues, v < 256) ∧
  s.topicChannelCmd.length = b.NUM_CHANNELS ∧
  s.topicChannelState.length = b.NUM_CHANNELS

instance (b : Build) (s : Device) : Decidable (s.WF b) := by
  unfold Device.WF
  infer_instance

/-! ## pwm_control.cpp -/

/-- The statement `ledcWrite(PWM_PINS[channel], value)`. -/
def ledcWrite (pin value : Nat) (s : Device) : Device :=
  { s with ledcWrites := (pin, value) :: s.ledcWrites }

def pwm_setChannel (b : Build) (channel value : Nat) (s : Device) : Device :=
  if channel ≥ b.NUM_CHANNELS then s
  else
    ledcWrite (PWM_PINS.getD channel 0) value
      { s with channelValues := s.channelValues.set channel value }

def pwm_setAllChannels (b : Build) (value : Nat) (s : Device) : Device :=
  (List.range b.NUM_CHANNELS).foldl (fun s i => pwm_setChannel b i value s) s

def pwm_getChannel (b : Build) (channel : Nat) (s : Device) : Nat :=
  if channel ≥ b.NUM_CHANNELS then 0 else s.channelValues.getD channel 0

/-- The `while (currentValue != targetValue)` loop of pwm_setChannelSmooth.
`currentValue` is a `uint8_t`, so `currentValue += step` wraps modulo 256.
The first argument bounds the number of iterations; `none` means the bound
was reached with the loop still running. -/
def pwm_setChannelSmooth.loop (channel targetValue : Nat) (step : Int) :
    Nat → Nat → Device → Option Device
  | 0, _, _ => none
  | fuel + 1, currentValue, s =>
    if currentValue != targetValue then
      let currentValue := (((currentValue : Int) + step) % 256).toNat
      let s := ledcWrite (PWM_PINS.getD channel 0) currentValue s
      pwm_setChannelSmooth.loop channel targetValue step fuel currentValue
        { s with channelValues := s.channelValues.set channel currentValue }
    else some s

def pwm_setChannelSmooth (b : Build) (channel targetValue : Nat) (s : Device) : Option Device :=
  if channel ≥ b.NUM_CHANNELS then some s
  else if b.ENABLE_TRANSITIONS then
    let currentValue := s.channelValues.getD channel 0
    if currentValue == targetValue then some s
    else
      let diff : Int := (targetValue : Int) - (currentValue : Int)
      let step : Int := if diff > 0 then 1 else -1
      pwm_setChannelSmooth.loop channel targetValue step 256 currentValue s
  else some (pwm_setChannel b channel targetValue s)

/-- The key built by `snprintf(key, sizeof(key), "%s%d", PREFS_CHANNEL_BASE, i)`;
the 8-byte buffer holds the whole text for every `uint8_t` index. -/
def channelKey (i : Nat) : String := PREFS_CHANNEL_BASE ++ toString i

/-- Body of the loop of pwm_saveState for index `i`. -/
def pwm_saveState.body (i : Nat) (s : Device) : Device :=
  { s with nvs := s.nvs.putUChar (channelKey i) (s.channelValues.getD i 0) }

def pwm_saveState (b : Build) (s : Device) : Device :=
  (List.range b.NUM_CHANNELS).foldl (fun s i => pwm_saveState.body i s) s

/-- Body of the loop of pwm_loadState for index `i`. -/
def pwm_loadState.body (b : Build) (i : Nat) (s : Device) : Device :=
  if s.nvs.isKey (channelKey i) then
    pwm_setChannel b i (s.nvs.getUChar (channelKey i) 0) s
  else s

def pwm_loadState (b : Build) (s : Device) : Device :=
  (List.range b.NUM_CHANNELS).foldl (fun s i => pwm_loadState.body b i s) s

/-- The function `pwm_init()`: every output is attached and driven to 0, then
the saved state is loaded.  `ledcAttach` only configures the pin and leaves
no trace in the state. -/
def pwm_init (b : Build) (s : Device) : Device :=
  pwm_loadState b
    ((List.range b.NUM_CHANNELS).foldl (fun s i => ledcWrite (PWM_PINS.getD i 0) 0 s) s)

/-- Channel memory as a restart leaves it: every cell 0, the flash untouched. -/
def Device.restart (b : Build) (s : Device) : Device :=
  { s with channelValues := List.replicate b.NUM_CHANNELS 0 }

/-! ## Library calls made by mqtt_client.cpp -/

/-- Modelled from the spec: C `isspace` in the "C" locale, part of the C
library and not of the repository; used by `atol`. -/
def isspace (c : Char) : Bool :=
  c == ' ' || c == '\t' || c == '\n' || c == Char.ofNat 11 || c == Char.ofNat 12 || c == '\r'

def LONG_MAX : Int := 2147483647

def LONG_MIN : Int := -2147483648

/-- Modelled from the spec: the digit loop of C `atol` (not part of the
repository): accumulate decimal digits until the first other character. -/
def atol.digits : List Char → Nat → Nat
  | [], acc => acc
  | c :: cs, acc =>
    if c.isDigit then atol.digits cs (acc * 10 + (c.toNat - 48)) else acc

/-- Modelled from the spec: the optional sign of C `atol` followed by its digit loop. -/
def atol.signed : List Char → Int
  | '-' :: r => - (atol.digits r 0 : Int)
  | '+' :: r => (atol.digits r 0 : Int)
  | r => (atol.digits r 0 : Int)

/-- Modelled from the spec: C `atol` on a 32-bit `long` (not part of the
repository), the "bare integer" parse of spec section 4.5 that yields 0 on a
malformed payload: leading white space, an optional sign, then decimal
digits; 0 when no digit follows.  Out-of-range values saturate, as newlib's
`strtol` does. -/
def atol (cs : List Char) : Int :=
  let v : Int := atol.signed (cs.dropWhile isspace)
  if v > LONG_MAX then LONG_MAX else if v < LONG_MIN then LONG_MIN else v

/-- Modelled from the spec: `String(message).toInt()` of the Arduino core (not
part of the repository), which returns `atol` of the text. -/
def String_toInt (message : String) : Int := atol message.data

/-- The text of the NUL-terminated buffer `message` that the callback fills
with `memcpy(message, payload, length); message[length] = 0`: the payload up
to its first NUL byte. -/
def cString (payload : String) : String :=
  String.mk (payload.data.takeWhile (fun c => c != Char.ofNat 0))

/-- Modelled from the spec: the Arduino macro `constrain(amt, low, high)` (not
part of the repository), the clamp to `[low, high]` of spec section 4.5. -/
def constrain (amt low high : Int) : Int :=
  if amt < low then low else if amt > high then high else amt

/-- Conversion of an `int` argument to a `uint8_t` parameter. -/
def toUInt8 (v : Int) : Nat := (v % 256).toNat

/-- A parsed `JsonDocument`, seen through the two operations the callback
uses: `doc.containsKey(key)` and the conversion `int value = doc[key]`. -/
structure JsonDocument where
  containsKey : String → Bool
  asInt : String → Int

/-- A value stored in an outgoing JSON document. -/
inductive JsonField where
  | text (s : String)
  | number (n : Int)
  deriving DecidableEq, Repr

/-- The ArduinoJson library, which is not part of the repository, taken as a
parameter: `deserializeJson` (`none` is a `DeserializationError`) and
`serializeJson`. -/
structure JsonLibrary where
  deserializeJson : String → Option JsonDocument
  serializeJson : List (String × JsonField) → String

/-- A document has keys only when the text it was parsed from is a JSON
object, that is, when its first character after white space is an opening
brace (character 123). -/
def JsonLibrary.ObjectsOnly (lib : JsonLibrary) : Prop :=
  ∀ message doc, lib.deserializeJson message = some doc →
    ∀ key, doc.containsKey key = true →
      (message.data.dropWhile isspace).head? = some (Char.ofNat 123)

/-- A stand-in JSON library for concrete runs: it parses the one-member
objects `\x7b"brightness": n\x7d` for n = 0, 200 and 999 and rejects every other text. -/
def sampleJson : JsonLibrary :=
  { deserializeJson := fun message =>
      if message == "\x7b\"brightness\": 200\x7d" then
        some { containsKey := fun k => k == "brightness", asInt := fun _ => 200 }
      else if message == "\x7b\"brightness\": 999\x7d" then
        some { containsKey := fun k => k == "brightness", asInt := fun _ => 999 }
      else if message == "\x7b\"brightness\": 0\x7d" then
        some { containsKey := fun k => k == "brightness", asInt := fun _ => 0 }
      else none
    serializeJson := fun _ => "" }

/-! ## mqtt_client.cpp -/

def status_setColor (color : Nat) (s : Device) : Device := { s with statusColor := color }

/-- The call `mqttClient.publish(topic, payload, retained)`. -/
def publish (topic payload : String) (retained : Bool) (s : Device) : Device :=
  { s with published := { topic := topic, payload := payload, retained := retained } :: s.published }

/-- The call `mqttClient.subscribe(topic, MQTT_QOS)`. -/
def subscribe (topic : String) (s : Device) : Device :=
  { s with subscribed := topic :: s.subscribed }

/-- Body of the loop of buildTopics for index `i`. -/
def buildTopics.body (baseTopic : String) (i : Nat) (s : Device) : Device :=
  { s with
    topicChannelCmd := s.topicChannelCmd.set i (baseTopic ++ "/channel/" ++ toString i ++ "/set")
    topicChannelState :=
      s.topicChannelState.set i (baseTopic ++ "/channel/" ++ toString i ++ "/state") }

def buildTopics (b : Build) (s : Device) : Device :=
  let baseTopic := MQTT_BASE_TOPIC ++ "/" ++ s.deviceId
  let s := { s with
    topicStatus := baseTopic ++ "/status"
    topicConfig := baseTopic ++ "/config"
    topicHeartbeat := baseTopic ++ "/heartbeat"
    topicAllCmd := baseTopic ++ "/all/set" }
  (List.range b.NUM_CHANNELS).foldl (fun s i => buildTopics.body baseTopic i s) s

/-- The topic strings of the state are the ones buildTopics derives from its
device identifier, as they are from mqtt_init on. -/
def Device.TopicsBuilt (b : Build) (s : Device) : Prop := buildTopics b s = s

instance (b : Build) (s : Device) : Decidable (s.TopicsBuilt b) := by
  unfold Device.TopicsBuilt
  infer_instance

def mqtt_publishChannelState (b : Build) (channel value : Nat) (s : Device) : Device :=
  if !s.connected || channel ≥ b.NUM_CHANNELS then s
  else publish (s.topicChannelState.getD channel "") (toString value) MQTT_RETAIN s

def mqtt_publishAllStates (b : Build) (s : Device) : Device :=
  (List.range b.NUM_CHANNELS).foldl
    (fun s i => mqtt_publishChannelState b i (pwm_getChannel b i s) s) s

def mqtt_publishStatus (online : Bool) (s : Device) : Device :=
  if !s.connected then s
  else publish s.topicStatus (if online then "online" else "offline") MQTT_RETAIN s

def mqtt_publishConfig (b : Build) (lib : JsonLibrary) (s : Device) : Device :=
  if !s.connected then s
  else
    let payload := lib.serializeJson
      [("deviceId", JsonField.text s.deviceId),
       ("deviceName", JsonField.text s.deviceName),
       ("channels", JsonField.number b.NUM_CHANNELS),
       ("version", JsonField.text FIRMWARE_VERSION),
       ("variant", JsonField.text b.BOARD_VARIANT)]
    publish s.topicConfig payload MQTT_RETAIN s

/-- The heartbeat; `now`, `freeHeap` and `rssi` are what `millis()`,
`ESP.getFreeHeap()` and `WiFi.RSSI()` return. -/
def mqtt_publishHeartbeat (lib : JsonLibrary) (now : Nat) (freeHeap rssi : Int) (s : Device) :
    Device :=
  if !s.connected then s
  else
    let payload := lib.serializeJson
      [("uptime", JsonField.number (millis now / 1000 : Nat)),
       ("freeHeap", JsonField.number freeHeap),
       ("rssi", JsonField.number rssi)]
    publish s.topicHeartbeat payload false s

/-- Lines 134-147 of mqttCallback: the value a per-channel command applies. -/
def mqttCallback.value (lib : JsonLibrary) (message : String) : Int :=
  let value : Int :=
    match lib.deserializeJson message with
    | some doc =>
      if doc.containsKey "brightness" then doc.asInt "brightness"
      else String_toInt message
    | none => String_toInt message
  constrain value 0 255

/-- Lines 133-160 of mqttCallback: the body run for the channel `i` whose
command topic matched. -/
def mqttCallback.command (b : Build) (lib : JsonLibrary) (message : String) (i : Nat)
    (s : Device) : Option Device :=
  let value := mqttCallback.value lib message
  let applied :=
    if b.ENABLE_TRANSITIONS then pwm_setChannelSmooth b i (toUInt8 value) s
    else some (pwm_setChannel b i (toUInt8 value) s)
  applied.map (fun s => pwm_saveState b (mqtt_publishChannelState b i (toUInt8 value) s))

/-- The loop `for (uint8_t i = 0; i < NUM_CHANNELS; i++)` of mqttCallback with
its early `return`: the first argument counts the iterations left, the second
is `i`. -/
def mqttCallback.channels (b : Build) (lib : JsonLibrary) (topicStr message : String) :
    Nat → Nat → Device → Option Device
  | 0, _, s => some s
  | n + 1, i, s =>
    if topicStr == s.topicChannelCmd.getD i "" then mqttCallback.command b lib message i s
    else mqttCallback.channels b lib topicStr message n (i + 1) s

def mqttCallback (b : Build) (lib : JsonLibrary) (topic payload : String) (s : Device) :
    Option Device :=
  let message := cString payload
  let topicStr := topic
  if topicStr == s.topicAllCmd then
    let value := constrain (String_toInt message) 0 255
    some (mqtt_publishAllStates b (pwm_setAllChannels b (toUInt8 value) s))
  else mqttCallback.channels b lib topicStr message b.NUM_CHANNELS 0 s

/-- The function `reconnect()`; `connectResult` is what `mqttClient.connect` returns. -/
def reconnect (b : Build) (lib : JsonLibrary) (connectResult : Bool) (s : Device) :
    Bool × Device :=
  let s := status_setColor STATUS_MQTT_CONN s
  let call : ConnectCall :=
    { clientId := s.deviceId
      credentials := if s.mqttUser.isEmpty then none else some (s.mqttUser, s.mqttPass)
      willTopic := s.topicStatus
      willMessage := "offline" }
  let s := { s with connectCalls := call :: s.connectCalls, connected := connectResult }
  if connectResult then
    let s := status_setColor STATUS_READY s
    let s := mqtt_publishStatus true s
    let s := mqtt_publishConfig b lib s
    let s := (List.range b.NUM_CHANNELS).foldl
      (fun s i => subscribe (s.topicChannelCmd.getD i "") s) s
    let s := subscribe s.topicAllCmd s
    let s := mqtt_publishAllStates b s
    (true, s)
  else
    (false, status_setColor STATUS_ERROR s)

def mqtt_connect (b : Build) (lib : JsonLibrary) (connectResult : Bool) (s : Device) :
    Bool × Device :=
  reconnect b lib connectResult s

def mqtt_isConnected (s : Device) : Bool := s.connected

/-- What the environment supplies to one `mqtt_loop()` call: the clock
readings of lines 241, 242, 249, 250, 255, 256 and 322 in program order,
the result of the connection attempt, the messages `mqttClient.loop()`
delivers to the callback, whether the link is still up afterwards, and
the heartbeat telemetry. -/
structure LoopEnv where
  tCheck : Nat
  tStamp : Nat
  connectResult : Bool
  inbound : List (String × String)
  linkUp : Bool
  tStateCheck : Nat
  tStateStamp : Nat
  tBeatCheck : Nat
  tBeatStamp : Nat
  tUptime : Nat
  freeHeap : Int
  rssi : Int

/-- Delivery of the inbound messages, in order, to the callback. -/
def mqttClient_loop.deliver (b : Build) (lib : JsonLibrary) :
    List (String × String) → Device → Option Device
  | [], s => some s
  | m :: ms, s => (mqttCallback b lib m.1 m.2 s).bind (mqttClient_loop.deliver b lib ms)

/-- The call `mqttClient.loop()`: the callback runs on each delivered message,
and the transport may find the link down. -/
def mqttClient_loop (b : Build) (lib : JsonLibrary) (e : LoopEnv) (s : Device) : Option Device :=
  (mqttClient_loop.deliver b lib e.inbound s).map
    (fun s => { s with connected := s.connected && e.linkUp })

def mqtt_loop (b : Build) (lib : JsonLibrary) (e : LoopEnv) (s : Device) : Option Device :=
  if !s.connected then
    if sub32 (millis e.tCheck) s.lastReconnectAttempt ≥ MQTT_RECONNECT_MS then
      let s := { s with lastReconnectAttempt := millis e.tStamp }
      some (reconnect b lib e.connectResult s).2
    else some s
  else
    (mqttClient_loop b lib e s).map (fun s =>
      let s :=
        if sub32 (millis e.tStateCheck) s.lastStatePublish ≥ STATE_PUBLISH_MS then
          mqtt_publishAllStates b { s with lastStatePublish := millis e.tStateStamp }
        else s
      if sub32 (millis e.tBeatCheck) s.lastHeartbeat ≥ HEARTBEAT_MS then
        mqtt_publishHeartbeat lib e.tUptime e.freeHeap e.rssi
          { s with lastHeartbeat := millis e.tBeatStamp }
      else s)

/-- Modelled from the spec: `String(value, HEX)` of the Arduino core (not part
of the repository): lower-case hexadecimal digits, no padding. -/
def hexString (v : Nat) : String := String.mk (Nat.toDigits 16 v)

/-- The function `mqtt_init()`; `mac` is the hardware address that
`WiFi.macAddress` reports. -/
def mqtt_init (b : Build) (mac : List Nat) (s : Device) : Bool × Device :=
  let s := { s with deviceId := s.nvs.getString PREFS_DEVICE_ID "" }
  let s :=
    if s.deviceId.isEmpty then
      let deviceId := "leddimmer-" ++ hexString (mac.getD 3 0) ++ hexString (mac.getD 4 0)
        ++ hexString (mac.getD 5 0)
      { s with deviceId := deviceId, nvs := s.nvs.putString PREFS_DEVICE_ID deviceId }
    else s
  let s := { s with deviceName := s.nvs.getString PREFS_DEVICE_NAME s.deviceId }
  let s := { s with mqttBroker := s.nvs.getString PREFS_MQTT_BROKER "" }
  let s := { s with mqttUser := s.nvs.getString PREFS_MQTT_USER "" }
  let s := { s with mqttPass := s.nvs.getString PREFS_MQTT_PASS "" }
  if s.mqttBroker.isEmpty then (false, s)
  else (true, buildTopics b s)

/-- One step of the gateway as the application drives it: `mqtt_connect()`
called at real time `t`, one `mqtt_loop()` call, or the transport losing
the link at time `t`. -/
inductive GatewayOp where
  | connect (t : Nat) (connectResult : Bool)
  | loop (e : LoopEnv)
  | linkDown (t : Nat)

def GatewayOp.run (b : Build) (lib : JsonLibrary) (op : GatewayOp) (s : Device) : Option Device :=
  match op with
  | GatewayOp.connect _ r => some (mqtt_connect b lib r s).2
  | GatewayOp.loop e => mqtt_loop b lib e s
  | GatewayOp.linkDown _ => some { s with connected := false }

/-- Real time at which a step begins: for `mqtt_loop()` the reading of line 241. -/
def GatewayOp.tBegin (op : GatewayOp) : Nat :=
  match op with
  | GatewayOp.connect t _ => t
  | GatewayOp.loop e => e.tCheck
  | GatewayOp.linkDown t => t

/-- Real time at which a step issues its connection attempt, if it does: for
`mqtt_loop()` the reading of line 242, taken right before `reconnect()`. -/
def GatewayOp.tAttempt (op : GatewayOp) : Nat :=
  match op with
  | GatewayOp.connect t _ => t
  | GatewayOp.loop e => e.tStamp
  | GatewayOp.linkDown t => t

/-- A sequence of gateway steps, first step first; `none` when a step does not return. -/
def runGateway (b : Build) (lib : JsonLibrary) : List GatewayOp → Device → Option Device
  | [], s => some s
  | op :: ops, s => (op.run b lib s).bind (runGateway b lib ops)

/-- The step `op` taken in state `s` calls `mqttClient.connect`. -/
def issuesAttempt (b : Build) (lib : JsonLibrary) (op : GatewayOp) (s : Device) : Bool :=
  match op.run b lib s with
  | some s' => decide (s'.connectCalls.length > s.connectCalls.length)
  | none => false

/-- The clock of a sequence of gateway steps never goes backwards. -/
def GatewayClock (ops : List GatewayOp) : Prop :=
  (∀ op ∈ ops, op.tBegin ≤ op.tAttempt) ∧ ops.Pairwise (fun a c => a.tAttempt ≤ c.tBegin)

instance (ops : List GatewayOp) : Decidable (GatewayClock ops) := by
  unfold GatewayClock
  infer_instance

/-- The debounce-like stamp of the reconnect backoff: `lastReconnectAttempt`
is the clock reading taken at some real time between `lo` and `hi`. -/
def AttemptStamped (s : Device) (lo hi : Nat) : Prop :=
  ∃ l, lo ≤ l ∧ l ≤ hi ∧ s.lastReconnectAttempt = millis l

/-- The part of the gateway state that neither the channel store nor a
publication touches: `s'` agrees with `s` on the backoff stamp, the
connection log, the subscription log and the link state. -/
def CallbackFrame (s s' : Device) : Prop :=
  s'.lastReconnectAttempt = s.lastReconnectAttempt ∧ s'.connectCalls = s.connectCalls ∧
  s'.subscribed = s.subscribed ∧ s'.connected = s.connected

/-- Readings of an `mqtt_loop()` call at time `t` during which the clock does
not tick, no message arrives and the connection attempt, if any, fails. -/
def loopAt (t : Nat) : LoopEnv :=
  { tCheck := t, tStamp := t, connectResult := false, inbound := [], linkUp := true,
    tStateCheck := t, tStateStamp := t, tBeatCheck := t, tBeatStamp := t, tUptime := t,
    freeHeap := 0, rssi := 0 }

/-- The 8-channel device after `setup()` has run `pwm_init()` and `mqtt_init()`
with nothing but a broker address in flash: configured, not yet connected. -/
def configuredDevice : Device :=
  (mqtt_init build8 [0x24, 0x6f, 0x28, 0xa1, 0xb2, 0xc3]
    (pwm_init build8
      (Device.boot build8 [(PREFS_MQTT_BROKER, PrefValue.str "192.168.1.10")]))).2

/-- A connected 8-channel device right after mqtt_init and a successful
connect, for concrete runs: topics built for the identifier "leddimmer-a1b2c3". -/
def sampleDevice : Device :=
  buildTopics build8
    { Device.boot build8 [] with deviceId := "leddimmer-a1b2c3", connected := true }

/-! ## button_handler.cpp -/

/-- Pin level `HIGH`: the buttons are active low with a pull-up. -/
def HIGH : Bool := true

/-- Pin level `LOW`: the button is held down. -/
def LOW : Bool := false

/-- The file-level statics of button_handler.cpp. -/
structure Buttons where
  btn1Pressed : Bool
  btn2Pressed : Bool
  lastBtn1State : Bool
  lastBtn2State : Bool
  lastDebounceTime : Nat
  deriving DecidableEq, Repr

/-- The static initialisers of button_handler.cpp. -/
def Buttons.boot : Buttons :=
  { btn1Pressed := false, btn2Pressed := false, lastBtn1State := true, lastBtn2State := true,
    lastDebounceTime := 0 }

/-- What the environment supplies to one `button_update()` call: the clock
readings of lines 30, 41 and 50 in program order and the levels that
`digitalRead` returns for the two pins. -/
structure ButtonRead where
  tCheck : Nat
  tBtn1 : Nat
  tBtn2 : Nat
  pin1 : Bool
  pin2 : Bool
  deriving DecidableEq, Repr

def button_init (pin1 pin2 : Bool) (s : Buttons) : Buttons :=
  { s with lastBtn1State := pin1, lastBtn2State := pin2 }

def button_update (e : ButtonRead) (s : Buttons) : Buttons :=
  if sub32 (millis e.tCheck) s.lastDebounceTime < DEBOUNCE_MS then s
  else
    let currentBtn1 := e.pin1
    let currentBtn2 := e.pin2
    let s :=
      if s.lastBtn1State == HIGH && currentBtn1 == LOW then
        { s with btn1Pressed := true, lastDebounceTime := millis e.tBtn1 }
      else s
    let s :=
      if s.lastBtn2State == HIGH && currentBtn2 == LOW then
        { s with btn2Pressed := true, lastDebounceTime := millis e.tBtn2 }
      else s
    { s with lastBtn1State := currentBtn1, lastBtn2State := currentBtn2 }

def button_getButton1Pressed (s : Buttons) : Bool × Buttons :=
  if s.btn1Pressed then (true, { s with btn1Pressed := false })
  else (false, s)

def button_getButton2Pressed (s : Buttons) : Bool × Buttons :=
  if s.btn2Pressed then (true, { s with btn2Pressed := false })
  else (false, s)

/-- The call `button_update()` with readings `e` in state `s` is not cut
short by the debounce guard of line 30. -/
def sampled (e : ButtonRead) (s : Buttons) : Bool :=
  !decide (sub32 (millis e.tCheck) s.lastDebounceTime < DEBOUNCE_MS)

/-- The call `button_update()` with readings `e` in state `s` raises the
pressed flag of button 1: run from a cleared flag it leaves the flag set. -/
def raisesBtn1 (e : ButtonRead) (s : Buttons) : Bool :=
  (button_update e { s with btn1Pressed := false }).btn1Pressed

/-- The call `button_update()` with readings `e` in state `s` raises the
pressed flag of button 2. -/
def raisesBtn2 (e : ButtonRead) (s : Buttons) : Bool :=
  (button_update e { s with btn2Pressed := false }).btn2Pressed

/-- A sequence of `button_update()` calls, first call first. -/
def runUpdates (trace : List ButtonRead) (s : Buttons) : Buttons :=
  trace.foldl (fun s e => button_update e s) s

/-- The clock readings of a sequence of calls never go backwards: within a
call and from each call to every later one. -/
def ClockMonotonic (trace : List ButtonRead) : Prop :=
  (∀ e ∈ trace, e.tCheck ≤ e.tBtn1 ∧ e.tBtn1 ≤ e.tBtn2) ∧
  trace.Pairwise (fun a b => a.tBtn2 ≤ b.tCheck)

instance (trace : List ButtonRead) : Decidable (ClockMonotonic trace) := by
  unfold ClockMonotonic
  infer_instance

/-- One call into button_handler.cpp. -/
inductive ButtonOp where
  | update (e : ButtonRead)
  | get1
  | get2
  deriving DecidableEq, Repr

def ButtonOp.run (op : ButtonOp) (s : Buttons) : Buttons :=
  match op with
  | ButtonOp.update e => button_update e s
  | ButtonOp.get1 => (button_getButton1Pressed s).2
  | ButtonOp.get2 => (button_getButton2Pressed s).2

/-- A sequence of calls into button_handler.cpp, first call first. -/
def runOps (ops : List ButtonOp) (s : Buttons) : Buttons :=
  ops.foldl (fun s op => op.run s) s

/-- Readings of a `button_update()` call at time `t` (the clock does not
tick during the call) with the given pin levels. -/
def readAt (t : Nat) (pin1 pin2 : Bool) : ButtonRead :=
  { tCheck := t, tBtn1 := t, tBtn2 := t, pin1 := pin1, pin2 := pin2 }

/-- The debounce stamp of `s` is the clock reading taken at some real time
between `lo` and `hi`. -/
def Stamped (s : Buttons) (lo hi : Nat) : Prop :=
  ∃ l, lo ≤ l ∧ l ≤ hi ∧ s.lastDebounceTime = millis l

/-- Flash contents for concrete runs without a broker address: only a saved
value of channel 0. -/
def standaloneNvs : Nvs := [("ch0", PrefValue.uchar 200)]

/-- One step of a transition as the specification words it, to be compared
with the loop of pwm_setChannelSmooth: the stored value of `channel` moves by
exactly one unit towards `target`, and the new value is written to the
physical output and to memory. -/
def transitionStep (channel target : Nat) (s : Device) : Device :=
  let current := s.channelValues.getD channel 0
  let next := if current < target then current + 1 else current - 1
  { s with
    channelValues := s.channelValues.set channel next
    ledcWrites := (PWM_PINS.getD channel 0, next) :: s.ledcWrites }

/-- Distance between two byte values, `|t - c|`. -/
def distance (c t : Nat) : Nat := if c < t then t - c else c - t

/-- The value last written to the physical output of channel `i`: the newest
entry of the write log for the pin `PWM_PINS[i]`. -/
def lastWritten (i : Nat) (s : Device) : Option Nat :=
  s.ledcWrites.lookup (PWM_PINS.getD i 0)

/-- Store and outputs agree: the channel array has `NUM_CHANNELS` cells and
every cell holds the value last written to the output of its channel. -/
def OutputsAgree (b : Build) (s : Device) : Prop :=
  s.channelValues.length = b.NUM_CHANNELS ∧
  ∀ i < b.NUM_CHANNELS, lastWritten i s = some (s.channelValues.getD i 0)

/-- One call into the channel store. -/
inductive PwmOp where
  | setChannel (channel value : Nat)
  | setAllChannels (value : Nat)
  | setChannelSmooth (channel targetValue : Nat)
  | loadState
  | saveState
  deriving DecidableEq, Repr

def PwmOp.run (b : Build) (op : PwmOp) (s : Device) : Option Device :=
  match op with
  | PwmOp.setChannel channel value => some (pwm_setChannel b channel value s)
  | PwmOp.setAllChannels value => some (pwm_setAllChannels b value s)
  | PwmOp.setChannelSmooth channel targetValue => pwm_setChannelSmooth b channel targetValue s
  | PwmOp.loadState => some (pwm_loadState b s)
  | PwmOp.saveState => some (pwm_saveState b s)

/-- A sequence of calls into the channel store, first call first; `none` when
a call does not return. -/
def runPwm (b : Build) : List PwmOp → Device → Option Device
  | [], s => some s
  | op :: ops, s => (op.run b s).bind (runPwm b ops)

/-- The value arguments of the call are `uint8_t` values. -/
def PwmOp.Bytes (op : PwmOp) : Prop :=
  match op with
  | PwmOp.setChannel _ value => value < 256
  | PwmOp.setAllChannels value => value < 256
  | PwmOp.setChannelSmooth _ targetValue => targetValue < 256
  | PwmOp.loadState => True
  | PwmOp.saveState => True

instance (op : PwmOp) : Decidable op.Bytes := by
  unfold PwmOp.Bytes
  split <;> infer_instance

/-- A `putUChar` entry holds a `uint8_t` value. -/
def PrefValue.isByte (v : PrefValue) : Bool :=
  match v with
  | PrefValue.uchar n => decide (n < 256)
  | PrefValue.str _ => true

/-- Every `putUChar` entry of the store holds a byte. -/
def Nvs.Bytes (p : Nvs) : Prop := ∀ e ∈ p, e.2.isByte = true

instance (p : Nvs) : Decidable p.Bytes := by
  unfold Nvs.Bytes
  infer_instance

/-- The state is well formed and its store holds bytes: what every state
reached from power-on satisfies. -/
def ByteStore (b : Build) (s : Device) : Prop := s.WF b ∧ s.nvs.Bytes

/-! ## wifi_manager.cpp -/

def RECONNECT_INTERVAL : Nat := 30000

def STATUS_OFF : Nat := 0x000000

def STATUS_ACTIVE : Nat := 0x000010

def STATUS_WIFI_SETUP : Nat := 0x100010

/-- The file-level statics of wifi_manager.cpp, the colour of the status LED
(which wifi_maintain sets), and counters of the calls into the network layer
and into `delay`: `statusPolls` counts `WiFi.status()`, `reconnectCalls`
counts `WiFi.reconnect()`, `delays` lists the `delay(ms)` calls, newest
first, and `settingsResets` counts `wifiManager.resetSettings()`. -/
structure Wifi where
  wifiConnected : Bool
  lastReconnectAttempt : Nat
  statusColor : Nat
  statusPolls : Nat
  reconnectCalls : Nat
  delays : List Nat
  settingsResets : Nat
  deriving DecidableEq, Repr

/-- The static initialisers of wifi_manager.cpp. -/
def Wifi.boot : Wifi :=
  { wifiConnected := false, lastReconnectAttempt := 0, statusColor := 0, statusPolls := 0,
    reconnectCalls := 0, delays := [], settingsResets := 0 }

/-- What the environment supplies to one `wifi_maintain()` call: `status k` is
whether the `k`-th `WiFi.status()` of the call reports `WL_CONNECTED`, and
the clock readings of lines 112 and 120. -/
structure WifiEnv where
  status : Nat → Bool
  tCheck : Nat
  tStamp : Nat

/-- The function `wifi_isConnected()`; `up` is whether `WiFi.status()` reports
`WL_CONNECTED`. -/
def wifi_isConnected (up : Bool) (w : Wifi) : Bool × Wifi :=
  (up, { w with wifiConnected := up, statusPolls := w.statusPolls + 1 })

/-- The loop `for (int i = 0; i < 20; i++)` of wifi_maintain with its early
`return`, followed by the statement after the loop: the first argument counts
the iterations left, the second is `i`.  Iteration `i` makes poll `i + 1` of
the call. -/
def wifi_maintain.wait (e : WifiEnv) : Nat → Nat → Wifi → Wifi
  | 0, _, w => { w with statusColor := STATUS_ERROR }
  | n + 1, i, w =>
    let r := wifi_isConnected (e.status (i + 1)) w
    if r.1 then { r.2 with statusColor := STATUS_READY }
    else wifi_maintain.wait e n (i + 1) { r.2 with delays := 500 :: r.2.delays }

def wifi_maintain (e : WifiEnv) (w : Wifi) : Wifi :=
  let r := wifi_isConnected (e.status 0) w
  if !r.1 then
    if sub32 (millis e.tCheck) r.2.lastReconnectAttempt ≥ RECONNECT_INTERVAL then
      let w := { r.2 with statusColor := STATUS_WIFI_SETUP }
      let w := { w with reconnectCalls := w.reconnectCalls + 1 }
      let w := { w with lastReconnectAttempt := millis e.tStamp }
      wifi_maintain.wait e 20 0 w
    else r.2
  else r.2

/-- The function `wifi_resetCredentials()` up to the restart it ends with. -/
def wifi_resetCredentials (w : Wifi) : Wifi :=
  { w with settingsResets := w.settingsResets + 1, delays := 1000 :: w.delays }

/-! ## main.cpp -/

/-- The function `status_blink(color, times, delayMs)` of status_led.cpp: each
round shows the colour and then switches the LED off. -/
def status_blink (color times : Nat) (s : Device) : Device :=
  (List.range times).foldl (fun s _ => status_setColor STATUS_OFF (status_setColor color s)) s

/-- The loop `for (int val = 0; val <= 255; val += 5)` of the fade demo: the
52 values 0, 5, .., 255. -/
def loop.fadeUp (b : Build) (ch : Nat) (s : Device) : Device :=
  (List.range 52).foldl (fun s k => pwm_setChannel b ch (5 * k) s) s

/-- The loop `for (int val = 255; val >= 0; val -= 5)` of the fade demo: the
52 values 255, 250, .., 0. -/
def loop.fadeDown (b : Build) (ch : Nat) (s : Device) : Device :=
  (List.range 52).foldl (fun s k => pwm_setChannel b ch (255 - 5 * k) s) s

/-- Lines 99-130 of `loop()`: the body run when button 1 was pressed. -/
def loop.fadeDemo (b : Build) (s : Device) : Device :=
  let s := status_setColor STATUS_ACTIVE s
  let s := (List.range b.NUM_CHANNELS).foldl
    (fun s ch => loop.fadeDown b ch (loop.fadeUp b ch s)) s
  let s := if mqtt_isConnected s then mqtt_publishAllStates b s else s
  status_setColor STATUS_READY s

/-- The statics of main.cpp with those of the modules `loop()` drives.  The
two block-scope statics named `bothButtonsStart` are two variables: the one
declared in the branch taken while both buttons are down (line 154) and the
one declared in the `else` branch (line 176).  `restarted` records that
`ESP.restart()` was reached. -/
structure App where
  device : Device
  buttons : Buttons
  wifi : Wifi
  allOn : Bool
  bothButtonsStart : Nat
  bothButtonsStartElse : Nat
  restarted : Bool

/-- What the environment supplies to one iteration of `loop()`: the readings
of `button_update()`, `wifi_maintain()` and `mqtt_loop()`, the levels that
`button_isButton1Down()` and `button_isButton2Down()` find (true is down),
and the clock readings of lines 157 and 165. -/
structure LoopIn where
  buttonRead : ButtonRead
  wifiEnv : WifiEnv
  mqttEnv : LoopEnv
  btn1Down : Bool
  btn2Down : Bool
  tHoldStart : Nat
  tHoldCheck : Nat

/-- Lines 133-150 of `loop()`: the body run when button 2 was pressed. -/
def loop.toggleAll (b : Build) (app : App) : App :=
  let allOn := !app.allOn
  let value := if allOn then 128 else 0
  let s := pwm_setAllChannels b value app.device
  let s := pwm_saveState b s
  let s := if mqtt_isConnected s then mqtt_publishAllStates b s else s
  let s := status_setColor (if allOn then STATUS_ACTIVE else STATUS_READY) s
  { app with allOn := allOn, device := s }

/-- Lines 152-178 of `loop()`: the both-buttons hold gesture. -/
def loop.holdGesture (e : LoopIn) (app : App) : App :=
  if e.btn1Down && e.btn2Down then
    let app :=
      if app.bothButtonsStart == 0 then
        { app with
          bothButtonsStart := millis e.tHoldStart
          device := status_blink STATUS_ERROR 1 app.device }
      else app
    if sub32 (millis e.tHoldCheck) app.bothButtonsStart ≥ 3000 then
      { app with
        device := status_blink STATUS_ERROR 5 app.device
        wifi := wifi_resetCredentials app.wifi
        restarted := true }
    else app
  else { app with bothButtonsStartElse := 0 }

/-- The function `loop()`.  The status LED is one device: its colour is
handed to `wifi_maintain()` and taken back from it. -/
def loop (b : Build) (lib : JsonLibrary) (e : LoopIn) (app : App) : Option App :=
  let buttons := button_update e.buttonRead app.buttons
  let wifi := wifi_maintain e.wifiEnv { app.wifi with statusColor := app.device.statusColor }
  let device := { app.device with statusColor := wifi.statusColor }
  (mqtt_loop b lib e.mqttEnv device).map (fun device =>
    let r1 := button_getButton1Pressed buttons
    let device := if r1.1 then loop.fadeDemo b device else device
    let r2 := button_getButton2Pressed r1.2
    let app := { app with device := device, buttons := r2.2, wifi := wifi }
    let app := if r2.1 then loop.toggleAll b app else app
    loop.holdGesture e app)

/-- Consecutive iterations of `loop()`, first one first, up to a restart;
`none` when an iteration does not return. -/
def runApp (b : Build) (lib : JsonLibrary) : List LoopIn → App → Option App
  | [], app => some app
  | e :: es, app =>
    if app.restarted then some app else (loop b lib e app).bind (runApp b lib es)

/-- An iteration of `loop()` calls `wifi_resetCredentials()`. -/
def callsReset (b : Build) (lib : JsonLibrary) (e : LoopIn) (app : App) : Bool :=
  match loop b lib e app with
  | some app' => decide (app'.wifi.settingsResets > app.wifi.settingsResets)
  | none => false

/-- The 8-channel application after `setup()` with WiFi associated and no
broker configured: channel 0 restored to 200 from flash, buttons released. -/
def App.afterSetup : App :=
  { device := status_setColor STATUS_READY
      (mqtt_init build8 [0x24, 0x6f, 0x28, 0xa1, 0xb2, 0xc3]
        (pwm_init build8 (Device.boot build8 standaloneNvs))).2
    buttons := Buttons.boot
    wifi := { Wifi.boot with wifiConnected := true }
    allOn := false
    bothButtonsStart := 0
    bothButtonsStartElse := 0
    restarted := false }

/-- Readings of one iteration of `loop()` that starts at time `t` with WiFi
up and the broker unreachable: the pins read `pin1`, `pin2` in
`button_update()` (true is high) and the buttons are found down as `down1`,
`down2` at time `tHold`, where the blink of line 161, if any, ends 100 ms
later. -/
def iterationAt (t : Nat) (pin1 pin2 down1 down2 : Bool) (tHold : Nat) : LoopIn :=
  { buttonRead := readAt t pin1 pin2
    wifiEnv := { status := fun _ => true, tCheck := t, tStamp := t }
    mqttEnv := loopAt t
    btn1Down := down1
    btn2Down := down2
    tHoldStart := tHold
    tHoldCheck := tHold + 100 }

/-- Four iterations of `loop()`.  At 1000 ms both buttons go down and stay
down through the fade demo, so the hold starts at 5170 ms; at 5280 ms both
are found released; at 20000 ms button 2 alone is tapped; at 20030 ms,
inside the debounce window of that tap, both buttons are down. -/
def staleHoldTrace : List LoopIn :=
  [ iterationAt 1000 LOW LOW true true 5170,
    iterationAt 5280 HIGH HIGH false false 5290,
    iterationAt 20000 HIGH LOW false true 20010,
    iterationAt 20030 LOW LOW true true 20040 ]

/-! # Theorems -/

/-! ## Channel store: set, get, save, load -/

@[simp] theorem ledcWrite_channelValues (pin v : Nat) (s : Device) :
    (ledcWrite pin v s).channelValues = s.channelValues := rfl

@[simp] theorem ledcWrite_nvs (pin v : Nat) (s : Device) : (ledcWrite pin v s).nvs = s.nvs := rfl

theorem pwm_setChannel_channelValues (b : Build) (i v : Nat) (s : Device)
    (hi : i < b.NUM_CHANNELS) :
    (pwm_setChannel b i v s).channelValues = s.channelValues.set i v := by
  simp [pwm_setChannel, Nat.not_le.mpr hi]

theorem pwm_setChannel_ledcWrites (b : Build) (i v : Nat) (s : Device)
    (hi : i < b.NUM_CHANNELS) :
    (pwm_setChannel b i v s).ledcWrites = (PWM_PINS.getD i 0, v) :: s.ledcWrites := by
  simp [pwm_setChannel, Nat.not_le.mpr hi, ledcWrite]

@[simp] theorem pwm_setChannel_nvs (b : Build) (i v : Nat) (s : Device) :
    (pwm_setChannel b i v s).nvs = s.nvs := by
  unfold pwm_setChannel
  split <;> rfl

theorem pwm_setChannel_invalid (b : Build) (i v : Nat) (s : Device)
    (hi : i ≥ b.NUM_CHANNELS) : pwm_setChannel b i v s = s := by
  simp [pwm_setChannel, hi]

/-- The keys `ch0` .. `ch7` are pairwise different. -/
theorem channelKey_inj8 : ∀ i < 8, ∀ j < 8, channelKey i = channelKey j → i = j := by
  decide

theorem channelKey_ne (b : Build) (hb : b.Valid) {i j : Nat} (hi : i < b.NUM_CHANNELS)
    (hj : j < b.NUM_CHANNELS) (hij : i ≠ j) : channelKey i ≠ channelKey j := by
  have h8 : b.NUM_CHANNELS ≤ 8 := by
    rcases hb with h | h <;> omega
  exact fun h => hij (channelKey_inj8 i (by omega) j (by omega) h)

/-- The save loop after `n` iterations: memory untouched, keys `ch0` .. `ch(n-1)`
hold the channel values, every other key is as before. -/
theorem saveLoop_spec (s : Device) (n : Nat) (hn : n ≤ 8) :
    let r := (List.range n).foldl (fun s i => pwm_saveState.body i s) s
    r.channelValues = s.channelValues ∧ r.published = s.published ∧
    r.ledcWrites = s.ledcWrites ∧ r.connected = s.connected ∧
    (∀ i < n, r.nvs.lookup (channelKey i) = some (PrefValue.uchar (s.channelValues.getD i 0))) ∧
    (∀ k, (∀ i < n, channelKey i ≠ k) → r.nvs.lookup k = s.nvs.lookup k) := by
  induction n with
  | zero => simp
  | succ n ih =>
    obtain ⟨h1, h2, h3, h4, h5, h6⟩ := ih (by omega)
    simp only [List.range_succ, List.foldl_append, List.foldl_cons, List.foldl_nil]
    refine ⟨h1, h2, h3, h4, ?_, ?_⟩
    · intro i hi
      by_cases hin : i = n
      · subst hin
        simp [Nvs.putUChar, List.lookup, h1]
      · have hne : channelKey i ≠ channelKey n :=
          fun h => hin (channelKey_inj8 i (by omega) n (by omega) h)
        have hlt : i < n := by omega
        simp only [Nvs.putUChar, List.lookup]
        rw [show (channelKey i == channelKey n) = false from by simpa using hne]
        exact h5 i hlt
    · intro k hk
      have hne : channelKey n ≠ k := hk n (by omega)
      simp only [Nvs.putUChar, List.lookup]
      rw [show (k == channelKey n) = false from by simpa using fun h => hne h.symm]
      exact h6 k (fun i hi => hk i (by omega))

theorem pwm_saveState_spec (b : Build) (hb : b.Valid) (s : Device) :
    (pwm_saveState b s).channelValues = s.channelValues ∧
    (pwm_saveState b s).published = s.published ∧
    (pwm_saveState b s).ledcWrites = s.ledcWrites ∧
    (pwm_saveState b s).connected = s.connected ∧
    (∀ i < b.NUM_CHANNELS, (pwm_saveState b s).nvs.lookup (channelKey i) =
      some (PrefValue.uchar (s.channelValues.getD i 0))) := by
  have h8 : b.NUM_CHANNELS ≤ 8 := by
    rcases hb with h | h <;> omega
  obtain ⟨h1, h2, h3, h4, h5, _⟩ := saveLoop_spec s b.NUM_CHANNELS h8
  exact ⟨h1, h2, h3, h4, h5⟩

/-- The load loop after `n ≤ NUM_CHANNELS` iterations: the flash is untouched,
cells below `n` whose key is present hold the stored byte, all other cells
are as before. -/
theorem loadLoop_spec (b : Build) (s : Device) (n : Nat) (hn : n ≤ b.NUM_CHANNELS) :
    let r := (List.range n).foldl (fun s i => pwm_loadState.body b i s) s
    r.nvs = s.nvs ∧ r.channelValues.length = s.channelValues.length ∧
    ∀ i, r.channelValues.getD i 0 =
      if i < n ∧ i < s.channelValues.length ∧ s.nvs.isKey (channelKey i) = true then
        s.nvs.getUChar (channelKey i) 0
      else s.channelValues.getD i 0 := by
  induction n with
  | zero => simp
  | succ n ih =>
    obtain ⟨h1, h2, h3⟩ := ih (by omega)
    simp only [List.range_succ, List.foldl_append, List.foldl_cons, List.foldl_nil]
    generalize (List.range n).foldl (fun s i => pwm_loadState.body b i s) s = r at h1 h2 h3
    unfold pwm_loadState.body
    rw [h1]
    have hlt : ∀ i, i ≠ n → ((i < n + 1) = (i < n)) := by
      intro i hin
      apply propext
      omega
    by_cases hk : s.nvs.isKey (channelKey n) = true
    · rw [if_pos hk]
      rw [pwm_setChannel_channelValues b n _ _ (by omega)]
      refine ⟨by simp [h1], by simpa using h2, ?_⟩
      intro i
      by_cases hin : i = n
      · subst hin
        have h3i := h3 i
        simp only [List.getD_eq_getElem?_getD] at h3i ⊢
        rw [List.getElem?_set]
        by_cases hlen : i < s.channelValues.length
        · simp [h2, hlen, hk]
        · have hnone : s.channelValues[i]? = none := List.getElem?_eq_none (by omega)
          simp [h2, hlen, hnone]
      · have h3i := h3 i
        simp only [List.getD_eq_getElem?_getD] at h3i ⊢
        rw [List.getElem?_set_ne (fun h => hin h.symm), h3i]
        simp only [hlt i hin]
    · rw [if_neg hk]
      refine ⟨h1, h2, ?_⟩
      intro i
      rw [h3 i]
      by_cases hin : i = n
      · subst hin
        simp [hk]
      · simp only [hlt i hin]

theorem pwm_loadState_spec (b : Build) (s : Device) :
    (pwm_loadState b s).nvs = s.nvs ∧
    ∀ i, (pwm_loadState b s).channelValues.getD i 0 =
      if i < b.NUM_CHANNELS ∧ i < s.channelValues.length ∧ s.nvs.isKey (channelKey i) = true then
        s.nvs.getUChar (channelKey i) 0
      else s.channelValues.getD i 0 := by
  obtain ⟨h1, _, h3⟩ := loadLoop_spec b s b.NUM_CHANNELS (le_refl _)
  exact ⟨h1, h3⟩

/-- C1: for every valid channel index i (i < NUM_CHANNELS) and every value v,
pwm_getChannel(i) called after pwm_setChannel(i, v) returns v.  The channel
array has NUM_CHANNELS cells. -/
theorem C1_getChannel_after_setChannel (b : Build) (s : Device) (i v : Nat)
    (hlen : s.channelValues.length = b.NUM_CHANNELS) (hi : i < b.NUM_CHANNELS) :
    pwm_getChannel b i (pwm_setChannel b i v s) = v := by
  unfold pwm_getChannel
  rw [if_neg (by omega), pwm_setChannel_channelValues b i v s hi]
  simp [List.getD_eq_getElem?_getD, List.getElem?_set, hlen, hi]

/-- Witness of C1: channel 3 of the 8-channel build set to 77 at power-on. -/
theorem C1_getChannel_after_setChannel_witness :
    pwm_getChannel build8 3 (pwm_setChannel build8 3 77 (Device.boot build8 [])) = 77 :=
  C1_getChannel_after_setChannel build8 (Device.boot build8 []) 3 77 (by decide) (by decide)

/-- C2: for every channel index i >= NUM_CHANNELS and every value v,
pwm_setChannel(i, v) and pwm_setChannelSmooth(i, v) return with the whole
state as it was: every stored channel value is unchanged and no entry is
added to the log of physical output writes. -/
theorem C2_invalid_channel_rejected (b : Build) (s : Device) (i v : Nat)
    (hi : i ≥ b.NUM_CHANNELS) :
    pwm_setChannel b i v s = s ∧ pwm_setChannelSmooth b i v s = some s ∧
    (pwm_setChannel b i v s).channelValues = s.channelValues ∧
    (pwm_setChannel b i v s).ledcWrites = s.ledcWrites ∧
    (∀ s', pwm_setChannelSmooth b i v s = some s' →
      s'.channelValues = s.channelValues ∧ s'.ledcWrites = s.ledcWrites) := by
  have h1 : pwm_setChannel b i v s = s := pwm_setChannel_invalid b i v s hi
  have h2 : pwm_setChannelSmooth b i v s = some s := by
    simp [pwm_setChannelSmooth, hi]
  refine ⟨h1, h2, by rw [h1], by rw [h1], ?_⟩
  intro s' hs'
  rw [h2] at hs'
  cases hs'
  exact ⟨rfl, rfl⟩

/-- Witness of C2: channel index 8 on the 8-channel build. -/
theorem C2_invalid_channel_rejected_witness :
    pwm_setChannel build8 8 200 (Device.boot build8 []) = Device.boot build8 [] ∧
    pwm_setChannelSmooth build8 8 200 (Device.boot build8 []) = some (Device.boot build8 []) :=
  ⟨(C2_invalid_channel_rejected build8 (Device.boot build8 []) 8 200 (by decide)).1,
   (C2_invalid_channel_rejected build8 (Device.boot build8 []) 8 200 (by decide)).2.1⟩

/-- C3: pwm_saveState() followed by pwm_loadState() into fresh channel memory
(all channels 0, the flash as the save left it) restores every channel
i < NUM_CHANNELS to the value it had when saved; and pwm_loadState() on
fresh memory leaves at 0 every channel whose key ch<i> is absent from the
persistent store. -/
theorem C3_save_load_roundtrip (b : Build) (hb : b.Valid) :
    (∀ s fresh : Device, s.channelValues.length = b.NUM_CHANNELS →
      fresh.channelValues = List.replicate b.NUM_CHANNELS 0 →
      fresh.nvs = (pwm_saveState b s).nvs →
      ∀ i < b.NUM_CHANNELS,
        pwm_getChannel b i (pwm_loadState b fresh) = pwm_getChannel b i s) ∧
    (∀ fresh : Device, fresh.channelValues = List.replicate b.NUM_CHANNELS 0 →
      ∀ i < b.NUM_CHANNELS, fresh.nvs.isKey (channelKey i) = false →
        pwm_getChannel b i (pwm_loadState b fresh) = 0) := by
  constructor
  · intro s fresh hlen hfresh hnvs i hi
    obtain ⟨_, hload⟩ := pwm_loadState_spec b fresh
    obtain ⟨_, _, _, _, hsave⟩ := pwm_saveState_spec b hb s
    unfold pwm_getChannel
    rw [if_neg (by omega), if_neg (by omega), hload i, hnvs]
    have hk := hsave i hi
    have hflen : i < fresh.channelValues.length := by simp [hfresh, hi]
    simp [Nvs.isKey, Nvs.getUChar, hk, hi, hflen]
  · intro fresh hfresh i hi hkey
    obtain ⟨_, hload⟩ := pwm_loadState_spec b fresh
    unfold pwm_getChannel
    rw [if_neg (by omega), hload i]
    simp [hkey, hfresh, List.getD_eq_getElem?_getD, List.getElem?_replicate, hi]

/-- Witness of C3: the 4-channel build; values 10, 20, 30, 40 are saved and
restored after a restart, and a load from an empty flash leaves channel 2 at 0. -/
theorem C3_save_load_roundtrip_witness :
    pwm_getChannel build4 1 (pwm_loadState build4 (Device.restart build4
      (pwm_saveState build4 { Device.boot build4 [] with channelValues := [10, 20, 30, 40] })))
      = 20 ∧
    pwm_getChannel build4 2 (pwm_loadState build4 (Device.boot build4 [])) = 0 :=
  ⟨(C3_save_load_roundtrip build4 (by decide)).1
      { Device.boot build4 [] with channelValues := [10, 20, 30, 40] }
      (Device.restart build4
        (pwm_saveState build4 { Device.boot build4 [] with channelValues := [10, 20, 30, 40] }))
      (by decide) (by decide) rfl 1 (by decide),
   (C3_save_load_roundtrip build4 (by decide)).2 (Device.boot build4 []) (by decide) 2
      (by decide) (by decide)⟩

/-! ## Command gateway: the value of a per-channel command -/

theorem constrain_range (v : Int) : 0 ≤ constrain v 0 255 ∧ constrain v 0 255 ≤ 255 := by
  unfold constrain
  split
  · omega
  · split <;> omega

theorem constrain_of_range (v : Int) (h0 : 0 ≤ v) (h1 : v ≤ 255) : constrain v 0 255 = v := by
  unfold constrain
  rw [if_neg (by omega), if_neg (by omega)]

theorem mqttCallback_value_range (lib : JsonLibrary) (message : String) :
    0 ≤ mqttCallback.value lib message ∧ mqttCallback.value lib message ≤ 255 := by
  unfold mqttCallback.value
  exact constrain_range _

/-- Without a brightness member the command value is the clamped bare integer. -/
theorem mqttCallback_value_fallback (lib : JsonLibrary) (message : String)
    (h : ∀ doc, lib.deserializeJson message = some doc → doc.containsKey "brightness" = false) :
    mqttCallback.value lib message = constrain (String_toInt message) 0 255 := by
  unfold mqttCallback.value
  cases hd : lib.deserializeJson message with
  | none => rfl
  | some doc => simp [h doc hd]

theorem sampleJson_objectsOnly : sampleJson.ObjectsOnly := by
  intro message doc h key _
  simp only [sampleJson] at h
  split at h
  · next h1 =>
    have : message = "\x7b\"brightness\": 200\x7d" := by simpa using h1
    subst this
    decide
  · split at h
    · next h1 =>
      have : message = "\x7b\"brightness\": 999\x7d" := by simpa using h1
      subst this
      decide
    · split at h
      · next h1 =>
        have : message = "\x7b\"brightness\": 0\x7d" := by simpa using h1
        subst this
        decide
      · cases h

/-- C4: the value a per-channel command applies is the brightness member when
the payload parses as a document with a brightness member, otherwise the bare
integer read from the payload (0 when there is none), and it is then clamped
to [0,255].  With a JSON library that reports members only for object texts
and that parses the text of the first example as an object whose brightness
is 200: that example yields 200, "75" yields 75, "not json" yields 0, "999"
yields 255, "-5" yields 0; and for every payload the value lies in [0,255]. -/
theorem C4_command_value (lib : JsonLibrary) (hobj : lib.ObjectsOnly) (doc200 : JsonDocument)
    (hparse : lib.deserializeJson "\x7b\"brightness\": 200\x7d" = some doc200)
    (hkey : doc200.containsKey "brightness" = true) (hval : doc200.asInt "brightness" = 200) :
    (∀ message doc, lib.deserializeJson message = some doc →
      doc.containsKey "brightness" = true →
      mqttCallback.value lib message = constrain (doc.asInt "brightness") 0 255) ∧
    (∀ message,
      (∀ doc, lib.deserializeJson message = some doc → doc.containsKey "brightness" = false) →
      mqttCallback.value lib message = constrain (String_toInt message) 0 255) ∧
    mqttCallback.value lib "\x7b\"brightness\": 200\x7d" = 200 ∧
    mqttCallback.value lib "75" = 75 ∧
    mqttCallback.value lib "not json" = 0 ∧
    mqttCallback.value lib "999" = 255 ∧
    mqttCallback.value lib "-5" = 0 ∧
    (∀ payload, 0 ≤ mqttCallback.value lib (cString payload) ∧
      mqttCallback.value lib (cString payload) ≤ 255) := by
  have hno : ∀ message : String,
      (message.data.dropWhile isspace).head? ≠ some (Char.ofNat 123) →
      ∀ doc, lib.deserializeJson message = some doc → doc.containsKey "brightness" = false := by
    intro message hm doc hd
    cases hc : doc.containsKey "brightness" with
    | false => rfl
    | true => exact absurd (hobj message doc hd "brightness" hc) hm
  refine ⟨?_, fun message h => mqttCallback_value_fallback lib message h, ?_, ?_, ?_, ?_, ?_,
    fun payload => mqttCallback_value_range lib _⟩
  · intro message doc hd hk
    unfold mqttCallback.value
    simp [hd, hk]
  · unfold mqttCallback.value
    simp only [hparse, hkey, hval]
    decide
  · rw [mqttCallback_value_fallback lib _ (hno _ (by decide))]
    decide
  · rw [mqttCallback_value_fallback lib _ (hno _ (by decide))]
    decide
  · rw [mqttCallback_value_fallback lib _ (hno _ (by decide))]
    decide
  · rw [mqttCallback_value_fallback lib _ (hno _ (by decide))]
    decide

/-- Witness of C4: the five example payloads with the stand-in JSON library. -/
theorem C4_command_value_witness :
    mqttCallback.value sampleJson "\x7b\"brightness\": 200\x7d" = 200 ∧
    mqttCallback.value sampleJson "75" = 75 ∧
    mqttCallback.value sampleJson "not json" = 0 ∧
    mqttCallback.value sampleJson "999" = 255 ∧
    mqttCallback.value sampleJson "-5" = 0 :=
  have h := C4_command_value sampleJson sampleJson_objectsOnly
    { containsKey := fun k => k == "brightness", asInt := fun _ => 200 }
    (by simp [sampleJson]) (by decide) rfl
  ⟨h.2.2.1, h.2.2.2.1, h.2.2.2.2.1, h.2.2.2.2.2.1, h.2.2.2.2.2.2.1⟩

/-! ## Transition engine: the stepping loop reaches its target -/

theorem smoothLoop_done (channel targetValue : Nat) (step : Int) (fuel : Nat) (s : Device) :
    pwm_setChannelSmooth.loop channel targetValue step (fuel + 1) targetValue s = some s := by
  simp [pwm_setChannelSmooth.loop]

/-- Stepping upwards from `cur < target` the loop ends with the cell at `target`. -/
theorem smoothLoop_up (channel targetValue : Nat) (htarget : targetValue < 256) :
    ∀ (fuel cur : Nat) (s : Device), cur < targetValue → targetValue - cur < fuel →
      ∃ ws, pwm_setChannelSmooth.loop channel targetValue 1 fuel cur s =
        some { s with channelValues := s.channelValues.set channel targetValue
                      ledcWrites := ws ++ s.ledcWrites } := by
  intro fuel
  induction fuel with
  | zero => intro cur s _ h; omega
  | succ fuel ih =>
    intro cur s hlt hfuel
    have hne : (cur != targetValue) = true := by simpa using Nat.ne_of_lt hlt
    have hstep : (((cur : Int) + 1) % 256).toNat = cur + 1 := by omega
    rw [pwm_setChannelSmooth.loop, if_pos hne]
    simp only [hstep]
    by_cases heq : cur + 1 = targetValue
    · obtain ⟨f, rfl⟩ : ∃ f, fuel = f + 1 := ⟨fuel - 1, by omega⟩
      rw [heq, smoothLoop_done]
      exact ⟨[(PWM_PINS.getD channel 0, targetValue)], rfl⟩
    · obtain ⟨ws, hws⟩ := ih (cur + 1)
        { ledcWrite (PWM_PINS.getD channel 0) (cur + 1) s with
          channelValues := s.channelValues.set channel (cur + 1) } (by omega) (by omega)
      refine ⟨ws ++ [(PWM_PINS.getD channel 0, cur + 1)], ?_⟩
      rw [ledcWrite_channelValues, hws]
      simp [ledcWrite, List.set_set]

/-- Stepping downwards from `cur > target` the loop ends with the cell at `target`. -/
theorem smoothLoop_down (channel targetValue : Nat) :
    ∀ (fuel cur : Nat) (s : Device), targetValue < cur → cur < 256 → cur - targetValue < fuel →
      ∃ ws, pwm_setChannelSmooth.loop channel targetValue (-1) fuel cur s =
        some { s with channelValues := s.channelValues.set channel targetValue
                      ledcWrites := ws ++ s.ledcWrites } := by
  intro fuel
  induction fuel with
  | zero => intro cur s _ _ h; omega
  | succ fuel ih =>
    intro cur s hlt hcur hfuel
    have hne : (cur != targetValue) = true := by simpa using Nat.ne_of_gt hlt
    have hstep : (((cur : Int) + -1) % 256).toNat = cur - 1 := by omega
    rw [pwm_setChannelSmooth.loop, if_pos hne]
    simp only [hstep]
    by_cases heq : cur - 1 = targetValue
    · obtain ⟨f, rfl⟩ : ∃ f, fuel = f + 1 := ⟨fuel - 1, by omega⟩
      rw [heq, smoothLoop_done]
      exact ⟨[(PWM_PINS.getD channel 0, targetValue)], rfl⟩
    · obtain ⟨ws, hws⟩ := ih (cur - 1)
        { ledcWrite (PWM_PINS.getD channel 0) (cur - 1) s with
          channelValues := s.channelValues.set channel (cur - 1) } (by omega) (by omega) (by omega)
      refine ⟨ws ++ [(PWM_PINS.getD channel 0, cur - 1)], ?_⟩
      rw [ledcWrite_channelValues, hws]
      simp [ledcWrite, List.set_set]

theorem getD_set {α : Type} (l : List α) (d : α) (i : Nat) (v : α) (j : Nat)
    (hi : i < l.length) :
    (l.set i v).getD j d = if j = i then v else l.getD j d := by
  simp only [List.getD_eq_getElem?_getD, List.getElem?_set]
  by_cases h : i = j
  · subst h
    simp [hi]
  · rw [if_neg h, if_neg (fun h' => h h'.symm)]

theorem getD_set_ne {α : Type} (l : List α) (d : α) (i : Nat) (v : α) (j : Nat) (h : j ≠ i) :
    (l.set i v).getD j d = l.getD j d := by
  simp only [List.getD_eq_getElem?_getD]
  rw [List.getElem?_set_ne (fun h' => h h'.symm)]

/-- On a valid channel pwm_setChannelSmooth returns, whatever the build: the
cell of the channel holds the target, the other cells are as before, and
nothing but the channel array and the write log differs. -/
theorem pwm_setChannelSmooth_spec (b : Build) (s : Device) (i v : Nat) (hwf : s.WF b)
    (hi : i < b.NUM_CHANNELS) (hv : v < 256) :
    ∃ cv ws, pwm_setChannelSmooth b i v s =
        some { s with channelValues := cv, ledcWrites := ws ++ s.ledcWrites } ∧
      cv.length = s.channelValues.length ∧
      ∀ j, cv.getD j 0 = if j = i then v else s.channelValues.getD j 0 := by
  obtain ⟨hlen, hbytes, _, _⟩ := hwf
  have hil : i < s.channelValues.length := by omega
  have hset : ∀ j, (s.channelValues.set i v).getD j 0 =
      if j = i then v else s.channelValues.getD j 0 := fun j => getD_set _ 0 i v j hil
  unfold pwm_setChannelSmooth
  rw [if_neg (by omega)]
  cases ht : b.ENABLE_TRANSITIONS with
  | false =>
    refine ⟨s.channelValues.set i v, [(PWM_PINS.getD i 0, v)], ?_, by simp, hset⟩
    simp [pwm_setChannel, Nat.not_le.mpr hi, ledcWrite]
  | true =>
    have hcur : s.channelValues.getD i 0 < 256 := by
      rw [List.getD_eq_getElem?_getD, List.getElem?_eq_getElem hil]
      exact hbytes _ (List.getElem_mem hil)
    obtain ⟨c, hc⟩ : ∃ c, s.channelValues.getD i 0 = c := ⟨_, rfl⟩
    rw [hc] at hcur
    simp only [if_true]
    rw [hc]
    by_cases heq : c = v
    · refine ⟨s.channelValues, [], ?_, rfl, ?_⟩
      · rw [if_pos (by simpa using heq)]
        rfl
      · intro j
        by_cases hj : j = i
        · rw [if_pos hj, hj, hc, heq]
        · rw [if_neg hj]
    · rw [if_neg (by simpa using heq)]
      by_cases hup : c < v
      · have hstep : ((v : Int) - (c : Int) > 0) := by omega
        obtain ⟨ws, hws⟩ := smoothLoop_up i v hv 256 c s hup (by omega)
        refine ⟨s.channelValues.set i v, ws, ?_, by simp, hset⟩
        rw [if_pos hstep, hws]
      · have hstep : ¬ ((v : Int) - (c : Int) > 0) := by omega
        obtain ⟨ws, hws⟩ := smoothLoop_down i v 256 c s (by omega) hcur (by omega)
        refine ⟨s.channelValues.set i v, ws, ?_, by simp, hset⟩
        rw [if_neg hstep, hws]

/-! ## Topic set -/

theorem string_append_cancel_left (p x y : String) (h : p ++ x = p ++ y) : x = y := by
  have hd := congrArg String.data h
  simp only [String.data_append] at hd
  exact String.ext (List.append_cancel_left hd)

/-- The per-channel command suffixes of the first eight channels are pairwise different. -/
theorem cmdSuffix_inj8 : ∀ i < 8, ∀ j < 8,
    "/channel/" ++ toString i ++ "/set" = "/channel/" ++ toString j ++ "/set" → i = j := by
  decide

/-- No per-channel command suffix is the all-channels suffix. -/
theorem cmdSuffix_ne_all8 : ∀ i < 8, "/channel/" ++ toString i ++ "/set" ≠ "/all/set" := by
  decide

theorem cmdTopic_assoc (base : String) (i : Nat) :
    base ++ "/channel/" ++ toString i ++ "/set" = base ++ ("/channel/" ++ toString i ++ "/set") := by
  simp only [String.append_assoc]

/-- The loop of buildTopics after `n` iterations. -/
theorem buildLoop_spec (base : String) (s : Device) (n : Nat) :
    let r := (List.range n).foldl (fun s i => buildTopics.body base i s) s
    r.topicAllCmd = s.topicAllCmd ∧ r.deviceId = s.deviceId ∧
    r.topicChannelCmd.length = s.topicChannelCmd.length ∧
    r.topicChannelState.length = s.topicChannelState.length ∧
    (∀ j, j < n → j < s.topicChannelCmd.length →
      r.topicChannelCmd.getD j "" = base ++ "/channel/" ++ toString j ++ "/set") ∧
    (∀ j, j < n → j < s.topicChannelState.length →
      r.topicChannelState.getD j "" = base ++ "/channel/" ++ toString j ++ "/state") := by
  induction n with
  | zero => simp
  | succ n ih =>
    obtain ⟨h1, h2, h3, h4, h5, h6⟩ := ih
    simp only [List.range_succ, List.foldl_append, List.foldl_cons, List.foldl_nil]
    generalize (List.range n).foldl (fun s i => buildTopics.body base i s) s = r
      at h1 h2 h3 h4 h5 h6
    simp only [buildTopics.body]
    refine ⟨h1, h2, by simpa using h3, by simpa using h4, ?_, ?_⟩
    · intro j hj hlen
      by_cases hjn : j = n
      · rw [getD_set _ _ _ _ _ (by omega), if_pos hjn, hjn]
      · rw [getD_set_ne _ _ _ _ _ hjn]
        exact h5 j (by omega) hlen
    · intro j hj hlen
      by_cases hjn : j = n
      · rw [getD_set _ _ _ _ _ (by omega), if_pos hjn, hjn]
      · rw [getD_set_ne _ _ _ _ _ hjn]
        exact h6 j (by omega) hlen

/-- What a state with built topics holds in its command and state topic cells. -/
theorem topicsBuilt_spec (b : Build) (s : Device) (hwf : s.WF b) (htop : s.TopicsBuilt b) :
    s.topicAllCmd = MQTT_BASE_TOPIC ++ "/" ++ s.deviceId ++ "/all/set" ∧
    (∀ j < b.NUM_CHANNELS, s.topicChannelCmd.getD j "" =
      MQTT_BASE_TOPIC ++ "/" ++ s.deviceId ++ "/channel/" ++ toString j ++ "/set") ∧
    (∀ j < b.NUM_CHANNELS, s.topicChannelState.getD j "" =
      MQTT_BASE_TOPIC ++ "/" ++ s.deviceId ++ "/channel/" ++ toString j ++ "/state") := by
  obtain ⟨_, _, hc, hs⟩ := hwf
  unfold Device.TopicsBuilt buildTopics at htop
  obtain ⟨h1, _, _, _, h5, h6⟩ := buildLoop_spec (MQTT_BASE_TOPIC ++ "/" ++ s.deviceId)
    { s with
      topicStatus := MQTT_BASE_TOPIC ++ "/" ++ s.deviceId ++ "/status"
      topicConfig := MQTT_BASE_TOPIC ++ "/" ++ s.deviceId ++ "/config"
      topicHeartbeat := MQTT_BASE_TOPIC ++ "/" ++ s.deviceId ++ "/heartbeat"
      topicAllCmd := MQTT_BASE_TOPIC ++ "/" ++ s.deviceId ++ "/all/set" } b.NUM_CHANNELS
  simp only [htop] at h1 h5 h6
  exact ⟨h1, fun j hj => h5 j hj (by omega), fun j hj => h6 j hj (by omega)⟩

/-- With built topics on a valid build the command topics are pairwise
different and none is the all-channels topic. -/
theorem topicsBuilt_distinct (b : Build) (hb : b.Valid) (s : Device) (hwf : s.WF b)
    (htop : s.TopicsBuilt b) :
    (∀ i < b.NUM_CHANNELS, s.topicChannelCmd.getD i "" ≠ s.topicAllCmd) ∧
    (∀ i < b.NUM_CHANNELS, ∀ j < b.NUM_CHANNELS,
      s.topicChannelCmd.getD i "" = s.topicChannelCmd.getD j "" → i = j) := by
  have h8 : b.NUM_CHANNELS ≤ 8 := by
    rcases hb with h | h <;> omega
  obtain ⟨hall, hcmd, _⟩ := topicsBuilt_spec b s hwf htop
  constructor
  · intro i hi h
    rw [hcmd i hi, hall, cmdTopic_assoc] at h
    exact cmdSuffix_ne_all8 i (by omega) (string_append_cancel_left _ _ _ h)
  · intro i hi j hj h
    rw [hcmd i hi, hcmd j hj, cmdTopic_assoc, cmdTopic_assoc] at h
    exact cmdSuffix_inj8 i (by omega) j (by omega) (string_append_cancel_left _ _ _ h)

/-- The channel loop of mqttCallback runs the command body of the first
channel whose command topic equals the topic of the message. -/
theorem channels_hit (b : Build) (lib : JsonLibrary) (topicStr message : String) (i : Nat)
    (s : Device) (hi : topicStr = s.topicChannelCmd.getD i "") :
    ∀ n start, start ≤ i → i < start + n →
      (∀ j, start ≤ j → j < i → topicStr ≠ s.topicChannelCmd.getD j "") →
      mqttCallback.channels b lib topicStr message n start s =
        mqttCallback.command b lib message i s := by
  intro n
  induction n with
  | zero => intro start h1 h2; omega
  | succ n ih =>
    intro start h1 h2 hmiss
    rw [mqttCallback.channels]
    by_cases hs : start = i
    · subst hs
      rw [if_pos (by simpa using hi)]
    · rw [if_neg (by simpa using hmiss start (le_refl _) (by omega))]
      exact ih (start + 1) (by omega) (by omega) (fun j hj1 hj2 => hmiss j (by omega) hj2)

/-! ## Command gateway: per-channel and all-channels commands -/

theorem toUInt8_of_range (v : Int) (h0 : 0 ≤ v) (h1 : v ≤ 255) :
    toUInt8 v = v.toNat ∧ v.toNat < 256 := by
  unfold toUInt8
  omega

theorem command_applied (b : Build) (i v : Nat) (s : Device) :
    (if b.ENABLE_TRANSITIONS then pwm_setChannelSmooth b i v s
      else some (pwm_setChannel b i v s)) = pwm_setChannelSmooth b i v s := by
  cases ht : b.ENABLE_TRANSITIONS with
  | true => simp
  | false =>
    unfold pwm_setChannelSmooth
    by_cases hi : i ≥ b.NUM_CHANNELS
    · simp [hi, pwm_setChannel_invalid b i v s hi]
    · simp [hi, ht]

/-- The effect of the command body on a valid channel while connected. -/
theorem command_spec (b : Build) (hb : b.Valid) (lib : JsonLibrary) (s : Device) (hwf : s.WF b)
    (hconn : s.connected = true) (i : Nat) (hi : i < b.NUM_CHANNELS) (message : String) :
    ∃ s', mqttCallback.command b lib message i s = some s' ∧
      pwm_getChannel b i s' = (mqttCallback.value lib message).toNat ∧
      (∀ j < b.NUM_CHANNELS, j ≠ i → pwm_getChannel b j s' = pwm_getChannel b j s) ∧
      s'.published =
        { topic := s.topicChannelState.getD i ""
          payload := toString (mqttCallback.value lib message).toNat
          retained := MQTT_RETAIN } :: s.published ∧
      (∀ j < b.NUM_CHANNELS,
        s'.nvs.lookup (channelKey j) = some (PrefValue.uchar (pwm_getChannel b j s'))) := by
  obtain ⟨h0, h255⟩ := mqttCallback_value_range lib message
  obtain ⟨hv, hv256⟩ := toUInt8_of_range _ h0 h255
  obtain ⟨cv, ws, hsm, hlen, hcv⟩ := pwm_setChannelSmooth_spec b s i _ hwf hi hv256
  obtain ⟨s1, hs1⟩ : ∃ s1, s1 = { s with channelValues := cv, ledcWrites := ws ++ s.ledcWrites } :=
    ⟨_, rfl⟩
  rw [← hs1] at hsm
  have hc1 : s1.connected = true := by rw [hs1]; exact hconn
  have hp1 : s1.published = s.published := by rw [hs1]
  have ht1 : s1.topicChannelState = s.topicChannelState := by rw [hs1]
  have hv1 : s1.channelValues = cv := by rw [hs1]
  clear hs1
  unfold mqttCallback.command
  simp only [hv]
  rw [command_applied, hsm]
  simp only [Option.map_some']
  have hpub : mqtt_publishChannelState b i (mqttCallback.value lib message).toNat s1 =
      publish (s1.topicChannelState.getD i "") (toString (mqttCallback.value lib message).toNat)
        MQTT_RETAIN s1 := by
    simp [mqtt_publishChannelState, hc1, Nat.not_le.mpr hi]
  rw [hpub]
  obtain ⟨e1, e2, _, _, e5⟩ := pwm_saveState_spec b hb
    (publish (s1.topicChannelState.getD i "") (toString (mqttCallback.value lib message).toNat)
        MQTT_RETAIN s1)
  have hpv : ∀ t p r, (publish t p r s1).channelValues = cv := fun _ _ _ => hv1
  refine ⟨_, rfl, ?_, ?_, ?_, ?_⟩
  · unfold pwm_getChannel
    rw [if_neg (by omega), e1, hpv, hcv i, if_pos rfl]
  · intro j hj hji
    unfold pwm_getChannel
    rw [if_neg (by omega), if_neg (by omega), e1, hpv]
    simp only [hcv j, if_neg hji]
  · rw [e2]
    simp only [publish, hp1, ht1]
  · intro j hj
    unfold pwm_getChannel
    rw [if_neg (by omega), e1]
    exact e5 j hj

/-- C5: a message on channel i's command topic handled while connected, with
clamped value v: the callback returns, channel i's stored value is v, every
other channel's stored value is unchanged, exactly one publication is
added, on channel i's state topic (.../channel/i/state) with the decimal
string of v as retained payload, and the persistent store holds under key
ch<j> the current stored value of every channel j < NUM_CHANNELS. -/
theorem C5_channel_command (b : Build) (hb : b.Valid) (lib : JsonLibrary) (s : Device)
    (hwf : s.WF b) (htop : s.TopicsBuilt b) (hconn : s.connected = true)
    (i : Nat) (hi : i < b.NUM_CHANNELS) (payload : String) :
    ∃ s', mqttCallback b lib (s.topicChannelCmd.getD i "") payload s = some s' ∧
      pwm_getChannel b i s' = (mqttCallback.value lib (cString payload)).toNat ∧
      (∀ j < b.NUM_CHANNELS, j ≠ i → pwm_getChannel b j s' = pwm_getChannel b j s) ∧
      s'.published =
        { topic := MQTT_BASE_TOPIC ++ "/" ++ s.deviceId ++ "/channel/" ++ toString i ++ "/state"
          payload := toString (mqttCallback.value lib (cString payload)).toNat
          retained := MQTT_RETAIN } :: s.published ∧
      (∀ j < b.NUM_CHANNELS,
        s'.nvs.lookup (channelKey j) = some (PrefValue.uchar (pwm_getChannel b j s'))) := by
  obtain ⟨hall, hinj⟩ := topicsBuilt_distinct b hb s hwf htop
  obtain ⟨_, _, hstate⟩ := topicsBuilt_spec b s hwf htop
  have hcall : mqttCallback b lib (s.topicChannelCmd.getD i "") payload s =
      mqttCallback.command b lib (cString payload) i s := by
    unfold mqttCallback
    simp only []
    rw [if_neg (by simpa using hall i hi)]
    exact channels_hit b lib _ _ i s rfl b.NUM_CHANNELS 0 (Nat.zero_le _) (by omega)
      (fun j _ hj h => absurd (hinj i hi j (by omega) h) (by omega))
  rw [hcall, ← hstate i hi]
  exact command_spec b hb lib s hwf hconn i hi (cString payload)

/-- Witness of C5: the object payload with brightness 200 on channel 2 of the sample device. -/
theorem C5_channel_command_witness :
    ∃ s', mqttCallback build8 sampleJson (sampleDevice.topicChannelCmd.getD 2 "")
        "\x7b\"brightness\": 200\x7d" sampleDevice = some s' ∧
      pwm_getChannel build8 2 s' =
        (mqttCallback.value sampleJson (cString "\x7b\"brightness\": 200\x7d")).toNat ∧
      (∀ j < build8.NUM_CHANNELS, j ≠ 2 →
        pwm_getChannel build8 j s' = pwm_getChannel build8 j sampleDevice) ∧
      s'.published =
        { topic := MQTT_BASE_TOPIC ++ "/" ++ sampleDevice.deviceId ++ "/channel/" ++ toString 2
            ++ "/state"
          payload := toString
            (mqttCallback.value sampleJson (cString "\x7b\"brightness\": 200\x7d")).toNat
          retained := MQTT_RETAIN } :: sampleDevice.published ∧
      (∀ j < build8.NUM_CHANNELS,
        s'.nvs.lookup (channelKey j) = some (PrefValue.uchar (pwm_getChannel build8 j s'))) :=
  C5_channel_command build8 (by decide) sampleJson sampleDevice (by decide!) (by decide!)
    (by decide!) 2 (by decide) "\x7b\"brightness\": 200\x7d"

/-- The loop of pwm_setAllChannels after `n ≤ NUM_CHANNELS` iterations. -/
theorem setAllLoop_spec (b : Build) (value : Nat) (s : Device) (n : Nat)
    (hn : n ≤ b.NUM_CHANNELS) :
    let r := (List.range n).foldl (fun s i => pwm_setChannel b i value s) s
    r.connected = s.connected ∧ r.published = s.published ∧
    r.topicChannelState = s.topicChannelState ∧ r.nvs = s.nvs ∧
    r.channelValues.length = s.channelValues.length ∧
    ∀ j, r.channelValues.getD j 0 =
      if j < n ∧ j < s.channelValues.length then value else s.channelValues.getD j 0 := by
  induction n with
  | zero => simp
  | succ n ih =>
    obtain ⟨h1, h2, h3, h4, h5, h6⟩ := ih (by omega)
    simp only [List.range_succ, List.foldl_append, List.foldl_cons, List.foldl_nil]
    generalize (List.range n).foldl (fun s i => pwm_setChannel b i value s) s = r
      at h1 h2 h3 h4 h5 h6
    have hlt : n < b.NUM_CHANNELS := by omega
    refine ⟨?_, ?_, ?_, ?_, ?_, ?_⟩
    · simpa [pwm_setChannel, Nat.not_le.mpr hlt, ledcWrite] using h1
    · simpa [pwm_setChannel, Nat.not_le.mpr hlt, ledcWrite] using h2
    · simpa [pwm_setChannel, Nat.not_le.mpr hlt, ledcWrite] using h3
    · simpa using h4
    · rw [pwm_setChannel_channelValues b n value r hlt]
      simpa using h5
    · intro j
      rw [pwm_setChannel_channelValues b n value r hlt]
      by_cases hjn : j = n
      · subst hjn
        by_cases hlen : j < s.channelValues.length
        · rw [getD_set _ _ _ _ _ (by omega), if_pos rfl, if_pos ⟨by omega, hlen⟩]
        · rw [if_neg (by omega)]
          simp only [List.getD_eq_getElem?_getD]
          rw [List.getElem?_eq_none (by simp; omega), List.getElem?_eq_none (by omega)]
      · rw [getD_set_ne _ _ _ _ _ hjn, h6 j]
        have : (j < n + 1 ∧ j < s.channelValues.length) = (j < n ∧ j < s.channelValues.length) := by
          apply propext
          omega
        simp only [this]

/-- The loop of mqtt_publishAllStates after `n ≤ NUM_CHANNELS` iterations while
connected: one retained publication per channel, in channel order. -/
theorem publishAllLoop_spec (b : Build) (s : Device) (hconn : s.connected = true) (n : Nat)
    (hn : n ≤ b.NUM_CHANNELS) :
    let r := (List.range n).foldl
      (fun s i => mqtt_publishChannelState b i (pwm_getChannel b i s) s) s
    r.connected = true ∧ r.channelValues = s.channelValues ∧
    r.topicChannelState = s.topicChannelState ∧ r.nvs = s.nvs ∧
    r.published =
      ((List.range n).map (fun i =>
        ({ topic := s.topicChannelState.getD i ""
           payload := toString (pwm_getChannel b i s)
           retained := MQTT_RETAIN } : Publication))).reverse ++ s.published := by
  induction n with
  | zero => simp [hconn]
  | succ n ih =>
    obtain ⟨h1, h2, h3, h4, h5⟩ := ih (by omega)
    simp only [List.range_succ, List.foldl_append, List.foldl_cons, List.foldl_nil,
      List.map_append, List.map_cons, List.map_nil, List.reverse_append, List.reverse_cons,
      List.reverse_nil, List.nil_append, List.cons_append]
    generalize (List.range n).foldl
      (fun s i => mqtt_publishChannelState b i (pwm_getChannel b i s) s) s = r at h1 h2 h3 h4 h5
    have hlt : ¬ n ≥ b.NUM_CHANNELS := by omega
    have hg : pwm_getChannel b n r = pwm_getChannel b n s := by
      unfold pwm_getChannel
      rw [h2]
    simp only [mqtt_publishChannelState, h1, hlt, publish, hg, h3, h5]
    simp [h1, h2, h3, h4]

theorem mqtt_publishAllStates_spec (b : Build) (s : Device) (hconn : s.connected = true) :
    (mqtt_publishAllStates b s).channelValues = s.channelValues ∧
    (mqtt_publishAllStates b s).published =
      ((List.range b.NUM_CHANNELS).map (fun i =>
        ({ topic := s.topicChannelState.getD i ""
           payload := toString (pwm_getChannel b i s)
           retained := MQTT_RETAIN } : Publication))).reverse ++ s.published := by
  obtain ⟨_, h2, _, _, h5⟩ := publishAllLoop_spec b s hconn b.NUM_CHANNELS (le_refl _)
  exact ⟨h2, h5⟩

/-! ## Decimal payloads -/

/-- The decimal digit characters: digits, neither white space nor a sign nor NUL. -/
theorem digitChar_spec : ∀ d < 10, (Nat.digitChar d).isDigit = true ∧
    (Nat.digitChar d).toNat - 48 = d ∧ isspace (Nat.digitChar d) = false ∧
    Nat.digitChar d ≠ '-' ∧ Nat.digitChar d ≠ '+' ∧ Nat.digitChar d ≠ Char.ofNat 0 := by
  decide

/-- The decimal digits that `Nat.repr` produces read back as the number. -/
theorem toDigitsCore_spec : ∀ (fuel n : Nat) (ds : List Char), n < fuel →
    ∃ k c rest, Nat.toDigitsCore 10 fuel n ds = c :: rest ∧ c.isDigit = true ∧
      isspace c = false ∧ c ≠ '-' ∧ c ≠ '+' ∧
      (∀ x ∈ c :: rest, x ∈ ds ∨ (x.isDigit = true ∧ x ≠ Char.ofNat 0)) ∧
      ∀ acc, atol.digits (Nat.toDigitsCore 10 fuel n ds) acc = atol.digits ds (acc * 10 ^ k + n) := by
  intro fuel
  induction fuel with
  | zero => intro n ds h; omega
  | succ fuel ih =>
    intro n ds hn
    obtain ⟨d1, d2, d3, d4, d5, d6⟩ := digitChar_spec (n % 10) (Nat.mod_lt _ (by decide))
    rw [Nat.toDigitsCore]
    by_cases h0 : n / 10 = 0
    · simp only [h0, if_true]
      refine ⟨1, _, _, rfl, d1, d3, d4, d5, ?_, ?_⟩
      · intro x hx
        rcases List.mem_cons.mp hx with h | h
        · exact Or.inr (h ▸ ⟨d1, d6⟩)
        · exact Or.inl h
      · intro acc
        rw [atol.digits, if_pos d1, d2]
        congr 1
        omega
    · simp only [h0, if_false]
      obtain ⟨k, c, rest, e1, e2, e3, e4, e5, e6, e7⟩ :=
        ih (n / 10) (Nat.digitChar (n % 10) :: ds) (by omega)
      refine ⟨k + 1, c, rest, e1, e2, e3, e4, e5, ?_, ?_⟩
      · intro x hx
        rcases e6 x hx with h | h
        · rcases List.mem_cons.mp h with h | h
          · exact Or.inr (h ▸ ⟨d1, d6⟩)
          · exact Or.inl h
        · exact Or.inr h
      · intro acc
        rw [e7 acc, atol.digits, if_pos d1, d2]
        congr 1
        rw [pow_succ]
        have := Nat.div_add_mod n 10
        nlinarith [Nat.div_add_mod n 10]

/-- The text of a natural number starts with a digit and reads back as the number. -/
theorem natRepr_spec (m : Nat) :
    ∃ c rest, (toString m).data = c :: rest ∧ isspace c = false ∧ c ≠ '-' ∧ c ≠ '+' ∧
      (∀ x ∈ c :: rest, x ≠ Char.ofNat 0) ∧ atol.digits (c :: rest) 0 = m := by
  obtain ⟨k, c, rest, e1, _, e3, e4, e5, e6, e7⟩ := toDigitsCore_spec (m + 1) m [] (by omega)
  have hd : (toString m).data = Nat.toDigitsCore 10 (m + 1) m [] := rfl
  refine ⟨c, rest, hd.trans e1, e3, e4, e5, ?_, ?_⟩
  · intro x hx
    rcases e6 x hx with h | h
    · simp at h
    · exact h.2
  · have := e7 0
    rw [e1] at this
    rw [this]
    simp [atol.digits]

theorem takeWhile_all {α : Type} (p : α → Bool) (l : List α) (h : ∀ x ∈ l, p x = true) :
    l.takeWhile p = l := by
  induction l with
  | nil => rfl
  | cons a rest ih =>
    rw [List.takeWhile_cons, h a (List.mem_cons_self _ _)]
    simp only [if_true]
    rw [ih (fun x hx => h x (List.mem_cons_of_mem _ hx))]

/-- The decimal text of an integer, as a payload, reads back as that integer
saturated to the range of a 32-bit `long`. -/
theorem String_toInt_decimal (n : Int) :
    String_toInt (cString (toString n)) =
      if n > LONG_MAX then LONG_MAX else if n < LONG_MIN then LONG_MIN else n := by
  cases n with
  | ofNat m =>
    obtain ⟨c, rest, e1, e2, e3, e4, e5, e6⟩ := natRepr_spec m
    have hs : toString (Int.ofNat m) = toString m := rfl
    have hc : cString (toString m) = toString m := by
      unfold cString
      rw [takeWhile_all _ _ (by rw [e1]; intro x hx; simpa using e5 x hx)]
    rw [hs, hc]
    unfold String_toInt atol
    rw [e1, List.dropWhile_cons, e2]
    simp only [Bool.false_eq_true, if_false]
    have hsg : atol.signed (c :: rest) = (m : Int) := by
      unfold atol.signed
      split
      · next h => exact absurd (List.cons.inj h).1 e3
      · next h => exact absurd (List.cons.inj h).1 e4
      · rw [e6]
    rw [hsg]
    rfl
  | negSucc m =>
    obtain ⟨c, rest, e1, e2, e3, e4, e5, e6⟩ := natRepr_spec (m + 1)
    have hs : (toString (Int.negSucc m)).data = '-' :: (toString (m + 1)).data := rfl
    have hc : cString (toString (Int.negSucc m)) = toString (Int.negSucc m) := by
      unfold cString
      rw [takeWhile_all _ _ (by
        rw [hs, e1]
        intro x hx
        rcases List.mem_cons.mp hx with h | h
        · rw [h]; decide
        · simpa using e5 x h)]
    rw [hc]
    unfold String_toInt atol
    rw [hs, List.dropWhile_cons]
    have : isspace '-' = false := by decide
    simp only [this, Bool.false_eq_true, if_false]
    have hsg : atol.signed ('-' :: (toString (m + 1)).data) = Int.negSucc m := by
      rw [atol.signed, e1, e6]
      rfl
    rw [hsg]

theorem constrain_decimal (n : Int) :
    constrain (String_toInt (cString (toString n))) 0 255 = constrain n 0 255 := by
  rw [String_toInt_decimal]
  unfold constrain LONG_MAX LONG_MIN
  split_ifs <;> omega

theorem pwm_setAllChannels_spec (b : Build) (value : Nat) (s : Device)
    (hlen : s.channelValues.length = b.NUM_CHANNELS) :
    (pwm_setAllChannels b value s).connected = s.connected ∧
    (pwm_setAllChannels b value s).published = s.published ∧
    (pwm_setAllChannels b value s).topicChannelState = s.topicChannelState ∧
    (pwm_setAllChannels b value s).nvs = s.nvs ∧
    ∀ i < b.NUM_CHANNELS, pwm_getChannel b i (pwm_setAllChannels b value s) = value := by
  obtain ⟨h1, h2, h3, h4, _, h6⟩ := setAllLoop_spec b value s b.NUM_CHANNELS (le_refl _)
  refine ⟨h1, h2, h3, h4, ?_⟩
  intro i hi
  unfold pwm_getChannel
  rw [if_neg (by omega)]
  exact (h6 i).trans (if_pos ⟨hi, by omega⟩)

/-- The effect of the all-channels branch of mqttCallback. -/
theorem allCommand_spec (b : Build) (lib : JsonLibrary) (s : Device)
    (hlen : s.channelValues.length = b.NUM_CHANNELS) (payload : String) :
    ∃ s', mqttCallback b lib s.topicAllCmd payload s = some s' ∧
      (∀ i < b.NUM_CHANNELS, pwm_getChannel b i s' =
        (constrain (String_toInt (cString payload)) 0 255).toNat) ∧
      (s.connected = true → s'.published =
        ((List.range b.NUM_CHANNELS).map (fun i =>
          ({ topic := s.topicChannelState.getD i ""
             payload := toString (constrain (String_toInt (cString payload)) 0 255).toNat
             retained := MQTT_RETAIN } : Publication))).reverse ++ s.published) ∧
      (s.connected = false → s'.published = s.published) := by
  obtain ⟨h0, h255⟩ := constrain_range (String_toInt (cString payload))
  obtain ⟨hv, _⟩ := toUInt8_of_range _ h0 h255
  obtain ⟨a1, a2, a3, _, a5⟩ :=
    pwm_setAllChannels_spec b (constrain (String_toInt (cString payload)) 0 255).toNat s hlen
  unfold mqttCallback
  simp only [beq_self_eq_true, if_true, hv]
  generalize pwm_setAllChannels b (constrain (String_toInt (cString payload)) 0 255).toNat s = s1
    at a1 a2 a3 a5
  refine ⟨_, rfl, ?_, ?_, ?_⟩
  · intro i hi
    cases hc : s1.connected with
    | true =>
      obtain ⟨p1, _⟩ := mqtt_publishAllStates_spec b s1 hc
      unfold pwm_getChannel at a5 ⊢
      rw [p1]
      exact a5 i hi
    | false =>
      have hid : mqtt_publishAllStates b s1 = s1 := by
        unfold mqtt_publishAllStates
        induction b.NUM_CHANNELS with
        | zero => rfl
        | succ n ih =>
          rw [List.range_succ, List.foldl_append, ih]
          simp [mqtt_publishChannelState, hc]
      rw [hid]
      exact a5 i hi
  · intro hconn
    obtain ⟨_, p2⟩ := mqtt_publishAllStates_spec b s1 (a1.trans hconn)
    rw [p2, a2, a3]
    congr 2
    apply List.map_congr_left
    intro i hi
    rw [a5 i (List.mem_range.mp hi)]
  · intro hconn
    have hc : s1.connected = false := a1.trans hconn
    have hid : mqtt_publishAllStates b s1 = s1 := by
      unfold mqtt_publishAllStates
      induction b.NUM_CHANNELS with
      | zero => rfl
      | succ n ih =>
        rw [List.range_succ, List.foldl_append, ih]
        simp [mqtt_publishChannelState, hc]
    rw [hid, a2]

/-- C6: a message on the all-channels command topic whose payload is the
decimal text of an integer n (more generally, any payload that
`String::toInt` reads as n) sets every channel i < NUM_CHANNELS to n clamped
to [0,255] and, when connected, publishes on each of the NUM_CHANNELS
per-channel state topics, in channel order, the decimal string of that
value (retained); payload "128" sets every channel to 128. -/
theorem C6_all_channels_command (b : Build) (lib : JsonLibrary) (s : Device)
    (hlen : s.channelValues.length = b.NUM_CHANNELS) :
    (∀ n : Int,
      ∃ s', mqttCallback b lib s.topicAllCmd (toString n) s = some s' ∧
        (∀ i < b.NUM_CHANNELS, pwm_getChannel b i s' = (constrain n 0 255).toNat) ∧
        (s.connected = true → s'.published =
          ((List.range b.NUM_CHANNELS).map (fun i =>
            ({ topic := s.topicChannelState.getD i ""
               payload := toString (constrain n 0 255).toNat
               retained := MQTT_RETAIN } : Publication))).reverse ++ s.published)) ∧
    (∀ (payload : String) (n : Int), String_toInt (cString payload) = n →
      ∃ s', mqttCallback b lib s.topicAllCmd payload s = some s' ∧
        (∀ i < b.NUM_CHANNELS, pwm_getChannel b i s' = (constrain n 0 255).toNat) ∧
        (s.connected = true → s'.published =
          ((List.range b.NUM_CHANNELS).map (fun i =>
            ({ topic := s.topicChannelState.getD i ""
               payload := toString (constrain n 0 255).toNat
               retained := MQTT_RETAIN } : Publication))).reverse ++ s.published)) ∧
    (∃ s', mqttCallback b lib s.topicAllCmd "128" s = some s' ∧
      ∀ i < b.NUM_CHANNELS, pwm_getChannel b i s' = 128) := by
  refine ⟨?_, ?_, ?_⟩
  · intro n
    obtain ⟨s', h1, h2, h3, _⟩ := allCommand_spec b lib s hlen (toString n)
    rw [constrain_decimal] at h2 h3
    exact ⟨s', h1, h2, h3⟩
  · intro payload n hn
    obtain ⟨s', h1, h2, h3, _⟩ := allCommand_spec b lib s hlen payload
    rw [hn] at h2 h3
    exact ⟨s', h1, h2, h3⟩
  · obtain ⟨s', h1, h2, _, _⟩ := allCommand_spec b lib s hlen "128"
    exact ⟨s', h1, h2⟩

/-- Witness of C6: payload "128" on the all-channels topic of the sample device. -/
theorem C6_all_channels_command_witness :
    ∃ s', mqttCallback build8 sampleJson sampleDevice.topicAllCmd "128" sampleDevice = some s' ∧
      ∀ i < build8.NUM_CHANNELS, pwm_getChannel build8 i s' = 128 :=
  (C6_all_channels_command build8 sampleJson sampleDevice (by decide!)).2.2

/-! ## Input debouncer -/

theorem sub32_millis_le (t l : Nat) (h : l ≤ t) : sub32 (millis t) (millis l) ≤ t - l := by
  unfold sub32 millis UINT32
  omega

theorem sub32_millis_eq (t l : Nat) (h : l ≤ t) (h2 : t < l + UINT32) :
    sub32 (millis t) (millis l) = t - l := by
  unfold sub32 millis UINT32 at *
  omega

/-- The guard, the sampled levels and the flags: what one call does. -/
theorem button_update_skip (e : ButtonRead) (s : Buttons) (h : sampled e s = false) :
    button_update e s = s := by
  unfold sampled at h
  unfold button_update
  rw [if_pos (by simpa using h)]

theorem raisesBtn1_iff (e : ButtonRead) (s : Buttons) :
    raisesBtn1 e s = true ↔ sampled e s = true ∧ s.lastBtn1State = HIGH ∧ e.pin1 = LOW := by
  unfold raisesBtn1 sampled button_update HIGH LOW
  by_cases hg : sub32 (millis e.tCheck) s.lastDebounceTime < DEBOUNCE_MS
  · simp [hg]
  · cases h1 : s.lastBtn1State <;> cases h2 : e.pin1 <;> cases h3 : s.lastBtn2State <;>
      cases h4 : e.pin2 <;> simp [hg, h1, h2, h3, h4]

theorem raisesBtn2_iff (e : ButtonRead) (s : Buttons) :
    raisesBtn2 e s = true ↔ sampled e s = true ∧ s.lastBtn2State = HIGH ∧ e.pin2 = LOW := by
  unfold raisesBtn2 sampled button_update HIGH LOW
  by_cases hg : sub32 (millis e.tCheck) s.lastDebounceTime < DEBOUNCE_MS
  · simp [hg]
  · cases h1 : s.lastBtn1State <;> cases h2 : e.pin1 <;> cases h3 : s.lastBtn2State <;>
      cases h4 : e.pin2 <;> simp [hg, h1, h2, h3, h4]

theorem button_update_stamp (e : ButtonRead) (s : Buttons) :
    ((button_update e s).lastDebounceTime = s.lastDebounceTime ∨
      (button_update e s).lastDebounceTime = millis e.tBtn1 ∨
      (button_update e s).lastDebounceTime = millis e.tBtn2) ∧
    (raisesBtn1 e s = true →
      (button_update e s).lastDebounceTime = millis e.tBtn1 ∨
      (button_update e s).lastDebounceTime = millis e.tBtn2) ∧
    (raisesBtn2 e s = true → (button_update e s).lastDebounceTime = millis e.tBtn2) := by
  rw [raisesBtn1_iff, raisesBtn2_iff]
  unfold sampled button_update HIGH LOW
  by_cases hg : sub32 (millis e.tCheck) s.lastDebounceTime < DEBOUNCE_MS
  · simp [hg]
  · cases h1 : s.lastBtn1State <;> cases h2 : e.pin1 <;> cases h3 : s.lastBtn2State <;>
      cases h4 : e.pin2 <;> simp [hg, h1, h2, h3, h4]

theorem stamped_of_raise1 (e : ButtonRead) (s : Buttons) (h : raisesBtn1 e s = true)
    (hm : e.tBtn1 ≤ e.tBtn2) : Stamped (button_update e s) e.tBtn1 e.tBtn2 := by
  rcases (button_update_stamp e s).2.1 h with h1 | h2
  · exact ⟨e.tBtn1, le_refl _, hm, h1⟩
  · exact ⟨e.tBtn2, hm, le_refl _, h2⟩

theorem stamped_of_raise2 (e : ButtonRead) (s : Buttons) (h : raisesBtn2 e s = true) :
    Stamped (button_update e s) e.tBtn2 e.tBtn2 :=
  ⟨e.tBtn2, le_refl _, le_refl _, (button_update_stamp e s).2.2 h⟩

theorem stamped_step (e : ButtonRead) (s : Buttons) (lo hi : Nat) (h : Stamped s lo hi)
    (h1 : lo ≤ e.tBtn1) (h2 : e.tBtn1 ≤ e.tBtn2) (h3 : e.tBtn2 ≤ hi) :
    Stamped (button_update e s) lo hi := by
  obtain ⟨l, hl1, hl2, hl3⟩ := h
  rcases (button_update_stamp e s).1 with h | h | h
  · exact ⟨l, hl1, hl2, h.trans hl3⟩
  · exact ⟨e.tBtn1, h1, by omega, h⟩
  · exact ⟨e.tBtn2, by omega, h3, h⟩

theorem stamped_run (trace : List ButtonRead) (lo hi : Nat) :
    ∀ s, Stamped s lo hi →
      (∀ e ∈ trace, lo ≤ e.tBtn1 ∧ e.tBtn1 ≤ e.tBtn2 ∧ e.tBtn2 ≤ hi) →
      Stamped (runUpdates trace s) lo hi := by
  induction trace with
  | nil => intro s h _; exact h
  | cons e rest ih =>
    intro s h hall
    obtain ⟨a1, a2, a3⟩ := hall e (List.mem_cons_self _ _)
    exact ih (button_update e s) (stamped_step e s lo hi h a1 a2 a3)
      (fun e' he' => hall e' (List.mem_cons_of_mem _ he'))

/-- A call that passes the guard is made at least DEBOUNCE_MS after the stamp. -/
theorem sampled_after_stamp (e : ButtonRead) (s : Buttons) (lo hi : Nat) (h : Stamped s lo hi)
    (hhi : hi ≤ e.tCheck) (hs : sampled e s = true) : lo + DEBOUNCE_MS ≤ e.tCheck := by
  obtain ⟨l, hl1, hl2, hl3⟩ := h
  unfold sampled at hs
  rw [hl3] at hs
  have hle := sub32_millis_le e.tCheck l (by omega)
  have : ¬ sub32 (millis e.tCheck) (millis l) < DEBOUNCE_MS := by simpa using hs
  omega

theorem runUpdates_append (t1 t2 : List ButtonRead) (s : Buttons) :
    runUpdates (t1 ++ t2) s = runUpdates t2 (runUpdates t1 s) := by
  simp [runUpdates, List.foldl_append]

/-- What a monotonic clock gives for two calls `ea`, `eb` of a trace and the
calls between them. -/
theorem clockMonotonic_split (pre mid post : List ButtonRead) (ea eb : ButtonRead)
    (h : ClockMonotonic (pre ++ ea :: (mid ++ eb :: post))) :
    ea.tBtn1 ≤ ea.tBtn2 ∧ ea.tBtn2 ≤ eb.tCheck ∧
    ∀ e ∈ mid, ea.tBtn1 ≤ e.tBtn1 ∧ e.tBtn1 ≤ e.tBtn2 ∧ e.tBtn2 ≤ eb.tCheck := by
  obtain ⟨hin, hpw⟩ := h
  have h1 := (List.pairwise_append.mp hpw).2.1
  obtain ⟨ha, hrest⟩ := List.pairwise_cons.mp h1
  have hcross := (List.pairwise_append.mp hrest).2.2
  have hea := hin ea (by simp)
  refine ⟨hea.2, ha eb (by simp), ?_⟩
  intro e he
  have h2 := hin e (by simp [he])
  have h3 := ha e (by simp [he])
  have h4 := hcross e he eb (by simp)
  omega

/-- C7: debounce, same button within the window.  In every sequence of
button_update() calls on a monotonic clock, if a call `ea` and a later call
`eb` both raise the pressed flag of the same button, then `eb` passed its
guard at least DEBOUNCE_MS (50 ms) after the time stamp `ea` took for the
press; hence two falling edges of one button less than 50 ms apart raise
its flag at most once.  Stated for button 1 and for button 2. -/
theorem C7_debounce_window (s : Buttons) (pre mid post : List ButtonRead) (ea eb : ButtonRead)
    (hclock : ClockMonotonic (pre ++ ea :: (mid ++ eb :: post))) :
    (raisesBtn1 ea (runUpdates pre s) = true →
      raisesBtn1 eb (runUpdates (pre ++ ea :: mid) s) = true →
      ea.tBtn1 + DEBOUNCE_MS ≤ eb.tCheck) ∧
    (raisesBtn2 ea (runUpdates pre s) = true →
      raisesBtn2 eb (runUpdates (pre ++ ea :: mid) s) = true →
      ea.tBtn2 + DEBOUNCE_MS ≤ eb.tCheck) := by
  obtain ⟨h1, h2, hmid⟩ := clockMonotonic_split pre mid post ea eb hclock
  have hrun : runUpdates (pre ++ ea :: mid) s =
      runUpdates mid (button_update ea (runUpdates pre s)) := by
    rw [runUpdates_append]
    rfl
  rw [hrun]
  constructor
  · intro ha hb
    have hst : Stamped (button_update ea (runUpdates pre s)) ea.tBtn1 eb.tCheck := by
      obtain ⟨l, a1, a2, a3⟩ := stamped_of_raise1 ea _ ha h1
      exact ⟨l, a1, by omega, a3⟩
    have hst2 := stamped_run mid ea.tBtn1 eb.tCheck _ hst hmid
    exact sampled_after_stamp eb _ _ _ hst2 (le_refl _) ((raisesBtn1_iff eb _).mp hb).1
  · intro ha hb
    have hst : Stamped (button_update ea (runUpdates pre s)) ea.tBtn2 eb.tCheck := by
      obtain ⟨l, a1, a2, a3⟩ := stamped_of_raise2 ea _ ha
      exact ⟨l, a1, by omega, a3⟩
    have hst2 := stamped_run mid ea.tBtn2 eb.tCheck _ hst
      (fun e he => by
        have h3 := hmid e he
        have h4 := (List.pairwise_append.mp hclock.2).2.1
        have h5 := (List.pairwise_cons.mp h4).1 e (by simp [he])
        have h6 := hclock.1 e (by simp [he])
        omega)
    exact sampled_after_stamp eb _ _ _ hst2 (le_refl _) ((raisesBtn2_iff eb _).mp hb).1

/-- Witness of C7: button 1 pressed at 200 ms and, after a release seen at
250 ms, again at 260 ms; both presses raise the flag and are 60 ms apart. -/
theorem C7_debounce_window_witness :
    ClockMonotonic ([readAt 100 true true] ++ readAt 200 false true ::
      ([readAt 250 true true] ++ readAt 260 false true :: [])) ∧
    raisesBtn1 (readAt 200 false true) (runUpdates [readAt 100 true true] Buttons.boot) = true ∧
    raisesBtn1 (readAt 260 false true)
      (runUpdates ([readAt 100 true true] ++ readAt 200 false true :: [readAt 250 true true])
        Buttons.boot) = true ∧
    (readAt 200 false true).tBtn1 + DEBOUNCE_MS ≤ (readAt 260 false true).tCheck :=
  ⟨by decide, by decide, by decide,
   (C7_debounce_window Buttons.boot [readAt 100 true true] [readAt 250 true true] []
      (readAt 200 false true) (readAt 260 false true) (by decide)).1 (by decide) (by decide)⟩

/-- C8 as stated fails: button 1 falls at 200 ms (registered), is released at
230 ms inside the debounce window, where the call is skipped and the high
level is never sampled, and falls again at 260 ms, 60 ms after the first
edge.  The call at 260 ms passes the guard but compares low with the stale
low level, so the second edge does not raise the flag.  Second run: button
2 is pressed at 1000 ms; the only press of button 1, down at 1010 ms and up
at 1040 ms, falls inside the shared window and is never registered. -/
theorem C8_edge_beyond_window_missed :
    ClockMonotonic [readAt 100 true true, readAt 200 false true, readAt 230 true true,
      readAt 260 false true] ∧
    raisesBtn1 (readAt 200 false true) (runUpdates [readAt 100 true true] Buttons.boot) = true ∧
    (readAt 230 true true).pin1 = HIGH ∧ (readAt 260 false true).pin1 = LOW ∧
    (readAt 200 false true).tBtn2 + DEBOUNCE_MS < (readAt 260 false true).tCheck ∧
    raisesBtn1 (readAt 260 false true)
      (runUpdates [readAt 100 true true, readAt 200 false true, readAt 230 true true]
        Buttons.boot) = false ∧
    (button_getButton1Pressed
      (runUpdates [readAt 230 true true, readAt 260 false true]
        (button_getButton1Pressed
          (runUpdates [readAt 100 true true, readAt 200 false true] Buttons.boot)).2)).1
      = false ∧
    ClockMonotonic [readAt 100 true true, readAt 1000 true false, readAt 1010 false false,
      readAt 1040 true false, readAt 1060 true true] ∧
    raisesBtn2 (readAt 1000 true false) (runUpdates [readAt 100 true true] Buttons.boot) = true ∧
    raisesBtn1 (readAt 1010 false false)
      (runUpdates [readAt 100 true true, readAt 1000 true false] Buttons.boot) = false ∧
    (runUpdates [readAt 100 true true, readAt 1000 true false, readAt 1010 false false,
      readAt 1040 true false, readAt 1060 true true] Buttons.boot).btn1Pressed = false := by
  decide

theorem runUpdates_skipped (mid : List ButtonRead) (s : Buttons)
    (h : ∀ e ∈ mid, sampled e s = false) : runUpdates mid s = s := by
  induction mid with
  | nil => rfl
  | cons e rest ih =>
    have he : button_update e s = s := button_update_skip e s (h e (List.mem_cons_self _ _))
    show runUpdates rest (button_update e s) = s
    rw [he]
    exact ih (fun e' he' => h e' (List.mem_cons_of_mem _ he'))

theorem button_update_levels (e : ButtonRead) (s : Buttons) (h : sampled e s = true) :
    (button_update e s).lastBtn1State = e.pin1 ∧ (button_update e s).lastBtn2State = e.pin2 := by
  unfold sampled at h
  unfold button_update
  rw [if_neg (by simpa using h)]
  exact ⟨rfl, rfl⟩

theorem button_update_flags (e : ButtonRead) (s : Buttons) :
    (button_update e s).btn1Pressed = (s.btn1Pressed || raisesBtn1 e s) ∧
    (button_update e s).btn2Pressed = (s.btn2Pressed || raisesBtn2 e s) := by
  unfold raisesBtn1 raisesBtn2 button_update HIGH LOW
  by_cases hg : sub32 (millis e.tCheck) s.lastDebounceTime < DEBOUNCE_MS
  · simp [hg]
  · cases h1 : s.lastBtn1State <;> cases h2 : e.pin1 <;> cases h3 : s.lastBtn2State <;>
      cases h4 : e.pin2 <;> simp [hg, h1, h2, h3, h4]

/-- A call made at least DEBOUNCE_MS and less than 2^32 ms after the real
time of the debounce stamp passes the guard. -/
theorem sampled_of_elapsed (e : ButtonRead) (s : Buttons) (l : Nat)
    (hl : s.lastDebounceTime = millis l) (h1 : l + DEBOUNCE_MS ≤ e.tCheck)
    (h2 : e.tCheck < l + UINT32) : sampled e s = true := by
  unfold sampled
  rw [hl, sub32_millis_eq e.tCheck l (by omega) h2]
  unfold DEBOUNCE_MS at *
  simp
  omega

/-- C8, amended: a falling edge of a button raises that button's pressed flag
when the call `el` that reads the low level passes the debounce guard and
the last call before it that passed the guard, `eh`, read the button high
(the calls `mid` in between are all skipped by the guard).  The guard
passes when at least DEBOUNCE_MS and less than 2^32 ms have elapsed since
the stamp of the last accepted press of either button.  Stated for both
buttons, from any state `s`. -/
theorem C8_edge_registers (s : Buttons) (eh el : ButtonRead) (mid : List ButtonRead)
    (hh : sampled eh s = true) (hmid : ∀ e ∈ mid, sampled e (button_update eh s) = false)
    (hl : sampled el (button_update eh s) = true) :
    (eh.pin1 = HIGH → el.pin1 = LOW →
      raisesBtn1 el (runUpdates (eh :: mid) s) = true ∧
      (runUpdates (eh :: mid ++ [el]) s).btn1Pressed = true) ∧
    (eh.pin2 = HIGH → el.pin2 = LOW →
      raisesBtn2 el (runUpdates (eh :: mid) s) = true ∧
      (runUpdates (eh :: mid ++ [el]) s).btn2Pressed = true) ∧
    (∀ l, (button_update eh s).lastDebounceTime = millis l → l + DEBOUNCE_MS ≤ el.tCheck →
      el.tCheck < l + UINT32 → sampled el (button_update eh s) = true) := by
  have hrun : runUpdates (eh :: mid) s = button_update eh s :=
    runUpdates_skipped mid (button_update eh s) hmid
  have hrun2 : runUpdates (eh :: mid ++ [el]) s = button_update el (button_update eh s) := by
    have : eh :: mid ++ [el] = (eh :: mid) ++ [el] := rfl
    rw [this, runUpdates_append, hrun]
    rfl
  obtain ⟨hl1, hl2⟩ := button_update_levels eh s hh
  refine ⟨?_, ?_, fun l a1 a2 a3 => sampled_of_elapsed el _ l a1 a2 a3⟩
  · intro h1 h2
    have hr : raisesBtn1 el (button_update eh s) = true :=
      (raisesBtn1_iff el _).mpr ⟨hl, hl1.trans h1, h2⟩
    rw [hrun, hrun2, (button_update_flags el _).1, hr]
    simp
  · intro h1 h2
    have hr : raisesBtn2 el (button_update eh s) = true :=
      (raisesBtn2_iff el _).mpr ⟨hl, hl2.trans h1, h2⟩
    rw [hrun, hrun2, (button_update_flags el _).2, hr]
    simp

/-- Witness of C8 (amended): button 1 read high at 100 ms and low at 200 ms from power-on. -/
theorem C8_edge_registers_witness :
    raisesBtn1 (readAt 200 false true) (runUpdates (readAt 100 true true :: []) Buttons.boot)
      = true ∧
    (runUpdates (readAt 100 true true :: [] ++ [readAt 200 false true]) Buttons.boot).btn1Pressed
      = true :=
  (C8_edge_registers Buttons.boot (readAt 100 true true) (readAt 200 false true) []
    (by decide) (by decide) (by decide)).1 (by decide) (by decide)

theorem runOps_cons (op : ButtonOp) (ops : List ButtonOp) (s : Buttons) :
    runOps (op :: ops) s = runOps ops (op.run s) := rfl

/-- Between two reads of flag 1 the flag is set exactly when it was set
before or some button_update() call raised it. -/
theorem flag1_after_ops (ops : List ButtonOp) :
    ∀ s, (∀ op ∈ ops, op ≠ ButtonOp.get1) →
      ((runOps ops s).btn1Pressed = true ↔
        s.btn1Pressed = true ∨ ∃ pre e post, ops = pre ++ ButtonOp.update e :: post ∧
          raisesBtn1 e (runOps pre s) = true) := by
  induction ops with
  | nil =>
    intro s _
    simp [runOps]
  | cons op rest ih =>
    intro s hno
    have hrest : ∀ op' ∈ rest, op' ≠ ButtonOp.get1 :=
      fun op' h => hno op' (List.mem_cons_of_mem _ h)
    rw [runOps_cons, ih (op.run s) hrest]
    have hflag : (op.run s).btn1Pressed = true ↔
        s.btn1Pressed = true ∨ ∃ e, op = ButtonOp.update e ∧ raisesBtn1 e s = true := by
      cases op with
      | update e =>
        simp [ButtonOp.run, (button_update_flags e s).1]
      | get1 => exact absurd rfl (hno _ (List.mem_cons_self _ _))
      | get2 =>
        simp only [ButtonOp.run, button_getButton2Pressed]
        split <;> simp
    constructor
    · rintro (h | ⟨pre, e, post, h1, h2⟩)
      · rcases hflag.mp h with h | ⟨e, h1, h2⟩
        · exact Or.inl h
        · exact Or.inr ⟨[], e, rest, by rw [h1]; rfl, h2⟩
      · exact Or.inr ⟨op :: pre, e, post, by rw [h1]; rfl, h2⟩
    · rintro (h | ⟨pre, e, post, h1, h2⟩)
      · exact Or.inl (hflag.mpr (Or.inl h))
      · cases pre with
        | nil =>
          simp only [List.nil_append, List.cons.injEq] at h1
          exact Or.inl (hflag.mpr (Or.inr ⟨e, h1.1, h2⟩))
        | cons p pre' =>
          simp only [List.cons_append, List.cons.injEq] at h1
          obtain ⟨rfl, h1⟩ := h1
          exact Or.inr ⟨pre', e, post, h1, h2⟩

/-- Between two reads of flag 2 the flag is set exactly when it was set
before or some button_update() call raised it. -/
theorem flag2_after_ops (ops : List ButtonOp) :
    ∀ s, (∀ op ∈ ops, op ≠ ButtonOp.get2) →
      ((runOps ops s).btn2Pressed = true ↔
        s.btn2Pressed = true ∨ ∃ pre e post, ops = pre ++ ButtonOp.update e :: post ∧
          raisesBtn2 e (runOps pre s) = true) := by
  induction ops with
  | nil =>
    intro s _
    simp [runOps]
  | cons op rest ih =>
    intro s hno
    have hrest : ∀ op' ∈ rest, op' ≠ ButtonOp.get2 :=
      fun op' h => hno op' (List.mem_cons_of_mem _ h)
    rw [runOps_cons, ih (op.run s) hrest]
    have hflag : (op.run s).btn2Pressed = true ↔
        s.btn2Pressed = true ∨ ∃ e, op = ButtonOp.update e ∧ raisesBtn2 e s = true := by
      cases op with
      | update e =>
        simp [ButtonOp.run, (button_update_flags e s).2]
      | get2 => exact absurd rfl (hno _ (List.mem_cons_self _ _))
      | get1 =>
        simp only [ButtonOp.run, button_getButton1Pressed]
        split <;> simp
    constructor
    · rintro (h | ⟨pre, e, post, h1, h2⟩)
      · rcases hflag.mp h with h | ⟨e, h1, h2⟩
        · exact Or.inl h
        · exact Or.inr ⟨[], e, rest, by rw [h1]; rfl, h2⟩
      · exact Or.inr ⟨op :: pre, e, post, by rw [h1]; rfl, h2⟩
    · rintro (h | ⟨pre, e, post, h1, h2⟩)
      · exact Or.inl (hflag.mpr (Or.inl h))
      · cases pre with
        | nil =>
          simp only [List.nil_append, List.cons.injEq] at h1
          exact Or.inl (hflag.mpr (Or.inr ⟨e, h1.1, h2⟩))
        | cons p pre' =>
          simp only [List.cons_append, List.cons.injEq] at h1
          obtain ⟨rfl, h1⟩ := h1
          exact Or.inr ⟨pre', e, post, h1, h2⟩

theorem button_getButton1Pressed_spec (s : Buttons) :
    (button_getButton1Pressed s).1 = s.btn1Pressed ∧
    (button_getButton1Pressed s).2 = { s with btn1Pressed := false } := by
  unfold button_getButton1Pressed
  cases h : s.btn1Pressed with
  | true => simp
  | false =>
    simp only [Bool.false_eq_true, if_false, true_and]
    cases s
    simp_all

theorem button_getButton2Pressed_spec (s : Buttons) :
    (button_getButton2Pressed s).1 = s.btn2Pressed ∧
    (button_getButton2Pressed s).2 = { s with btn2Pressed := false } := by
  unfold button_getButton2Pressed
  cases h : s.btn2Pressed with
  | true => simp
  | false =>
    simp only [Bool.false_eq_true, if_false, true_and]
    cases s
    simp_all

/-- C9: button_getButton1Pressed() returns the current value of button 1's
one-shot flag and clears it, leaving the rest of the state (the other
button's flag included) as it was; a second call right after returns false;
and after any sequence of button_update() and button_getButton2Pressed()
calls that follows a call, the next call returns true iff one of those
button_update() calls raised the flag.  Likewise for button 2. -/
theorem C9_pressed_flag_one_shot (s : Buttons) :
    ((button_getButton1Pressed s).1 = s.btn1Pressed ∧
      (button_getButton1Pressed s).2 = { s with btn1Pressed := false } ∧
      (button_getButton1Pressed s).2.btn2Pressed = s.btn2Pressed ∧
      (button_getButton1Pressed (button_getButton1Pressed s).2).1 = false ∧
      ∀ ops, (∀ op ∈ ops, op ≠ ButtonOp.get1) →
        ((button_getButton1Pressed (runOps ops (button_getButton1Pressed s).2)).1 = true ↔
          ∃ pre e post, ops = pre ++ ButtonOp.update e :: post ∧
            raisesBtn1 e (runOps pre (button_getButton1Pressed s).2) = true)) ∧
    ((button_getButton2Pressed s).1 = s.btn2Pressed ∧
      (button_getButton2Pressed s).2 = { s with btn2Pressed := false } ∧
      (button_getButton2Pressed s).2.btn1Pressed = s.btn1Pressed ∧
      (button_getButton2Pressed (button_getButton2Pressed s).2).1 = false ∧
      ∀ ops, (∀ op ∈ ops, op ≠ ButtonOp.get2) →
        ((button_getButton2Pressed (runOps ops (button_getButton2Pressed s).2)).1 = true ↔
          ∃ pre e post, ops = pre ++ ButtonOp.update e :: post ∧
            raisesBtn2 e (runOps pre (button_getButton2Pressed s).2) = true)) := by
  obtain ⟨a1, a2⟩ := button_getButton1Pressed_spec s
  obtain ⟨b1, b2⟩ := button_getButton2Pressed_spec s
  refine ⟨⟨a1, a2, by rw [a2], ?_, ?_⟩, ⟨b1, b2, by rw [b2], ?_, ?_⟩⟩
  · rw [(button_getButton1Pressed_spec _).1, a2]
  · intro ops hno
    rw [(button_getButton1Pressed_spec _).1, flag1_after_ops ops _ hno, a2]
    simp
  · rw [(button_getButton2Pressed_spec _).1, b2]
  · intro ops hno
    rw [(button_getButton2Pressed_spec _).1, flag2_after_ops ops _ hno, b2]
    simp

/-- Witness of C9: after a read, a press of button 1 at 200 ms is reported by
the next read. -/
theorem C9_pressed_flag_one_shot_witness :
    (button_getButton1Pressed
      (runOps [ButtonOp.update (readAt 100 true true), ButtonOp.update (readAt 200 false true)]
        (button_getButton1Pressed Buttons.boot).2)).1 = true :=
  ((C9_pressed_flag_one_shot Buttons.boot).1.2.2.2.2
    [ButtonOp.update (readAt 100 true true), ButtonOp.update (readAt 200 false true)]
    (by decide)).mpr
    ⟨[ButtonOp.update (readAt 100 true true)], readAt 200 false true, [], rfl, by decide⟩

/-! ## Reconnect backoff -/

theorem CallbackFrame.refl (s : Device) : CallbackFrame s s := ⟨rfl, rfl, rfl, rfl⟩

theorem CallbackFrame.trans {s1 s2 s3 : Device} (h1 : CallbackFrame s1 s2)
    (h2 : CallbackFrame s2 s3) : CallbackFrame s1 s3 :=
  ⟨h2.1.trans h1.1, h2.2.1.trans h1.2.1, h2.2.2.1.trans h1.2.2.1, h2.2.2.2.trans h1.2.2.2⟩

theorem frame_foldl {α : Type} (f : Device → α → Device) (hf : ∀ s a, CallbackFrame s (f s a))
    (l : List α) : ∀ s, CallbackFrame s (l.foldl f s) := by
  induction l with
  | nil => exact fun s => CallbackFrame.refl s
  | cons a rest ih => exact fun s => (hf s a).trans (ih (f s a))

theorem frame_pwm_setChannel (b : Build) (i v : Nat) (s : Device) :
    CallbackFrame s (pwm_setChannel b i v s) := by
  unfold pwm_setChannel
  split
  · exact CallbackFrame.refl s
  · exact ⟨rfl, rfl, rfl, rfl⟩

theorem frame_pwm_setAllChannels (b : Build) (v : Nat) (s : Device) :
    CallbackFrame s (pwm_setAllChannels b v s) :=
  frame_foldl _ (fun s i => frame_pwm_setChannel b i v s) _ s

theorem frame_smoothLoop (channel targetValue : Nat) (step : Int) :
    ∀ (fuel cur : Nat) (s s' : Device),
      pwm_setChannelSmooth.loop channel targetValue step fuel cur s = some s' →
      CallbackFrame s s' := by
  intro fuel
  induction fuel with
  | zero =>
    intro cur s s' h
    simp [pwm_setChannelSmooth.loop] at h
  | succ fuel ih =>
    intro cur s s' h
    rw [pwm_setChannelSmooth.loop] at h
    split at h
    · have h2 := ih _ _ _ h
      exact ⟨h2.1, h2.2.1, h2.2.2.1, h2.2.2.2⟩
    · cases h
      exact CallbackFrame.refl s

theorem frame_pwm_setChannelSmooth (b : Build) (i v : Nat) (s s' : Device)
    (h : pwm_setChannelSmooth b i v s = some s') : CallbackFrame s s' := by
  unfold pwm_setChannelSmooth at h
  split at h
  · cases h
    exact CallbackFrame.refl s
  · split at h
    · simp only at h
      split at h
      · cases h
        exact CallbackFrame.refl s
      · exact frame_smoothLoop _ _ _ _ _ _ _ h
    · cases h
      exact frame_pwm_setChannel b i v s

theorem frame_publish (t p : String) (r : Bool) (s : Device) :
    CallbackFrame s (publish t p r s) := ⟨rfl, rfl, rfl, rfl⟩

theorem frame_mqtt_publishChannelState (b : Build) (i v : Nat) (s : Device) :
    CallbackFrame s (mqtt_publishChannelState b i v s) := by
  unfold mqtt_publishChannelState
  split
  · exact CallbackFrame.refl s
  · exact frame_publish _ _ _ s

theorem frame_mqtt_publishAllStates (b : Build) (s : Device) :
    CallbackFrame s (mqtt_publishAllStates b s) :=
  frame_foldl _ (fun s i => frame_mqtt_publishChannelState b i _ s) _ s

theorem frame_pwm_saveState (b : Build) (s : Device) : CallbackFrame s (pwm_saveState b s) :=
  frame_foldl (fun s i => pwm_saveState.body i s) (fun _ _ => ⟨rfl, rfl, rfl, rfl⟩) _ s

theorem frame_command (b : Build) (lib : JsonLibrary) (message : String) (i : Nat)
    (s s' : Device) (h : mqttCallback.command b lib message i s = some s') :
    CallbackFrame s s' := by
  unfold mqttCallback.command at h
  simp only [command_applied] at h
  cases hsm : pwm_setChannelSmooth b i (toUInt8 (mqttCallback.value lib message)) s with
  | none => simp [hsm] at h
  | some s1 =>
    simp only [hsm, Option.map_some', Option.some.injEq] at h
    rw [← h]
    exact (frame_pwm_setChannelSmooth b i _ s s1 hsm).trans
      ((frame_mqtt_publishChannelState b i _ s1).trans (frame_pwm_saveState b _))

theorem frame_channels (b : Build) (lib : JsonLibrary) (topicStr message : String) :
    ∀ (n i : Nat) (s s' : Device),
      mqttCallback.channels b lib topicStr message n i s = some s' → CallbackFrame s s' := by
  intro n
  induction n with
  | zero =>
    intro i s s' h
    simp only [mqttCallback.channels, Option.some.injEq] at h
    rw [← h]
    exact CallbackFrame.refl s
  | succ n ih =>
    intro i s s' h
    rw [mqttCallback.channels] at h
    split at h
    · exact frame_command b lib message i s s' h
    · exact ih _ _ _ h

theorem frame_mqttCallback (b : Build) (lib : JsonLibrary) (topic payload : String)
    (s s' : Device) (h : mqttCallback b lib topic payload s = some s') : CallbackFrame s s' := by
  unfold mqttCallback at h
  simp only at h
  split at h
  · simp only [Option.some.injEq] at h
    rw [← h]
    exact (frame_pwm_setAllChannels b _ s).trans (frame_mqtt_publishAllStates b _)
  · exact frame_channels b lib _ _ _ _ _ _ h

theorem frame_deliver (b : Build) (lib : JsonLibrary) (ms : List (String × String)) :
    ∀ (s s' : Device), mqttClient_loop.deliver b lib ms s = some s' → CallbackFrame s s' := by
  induction ms with
  | nil =>
    intro s s' h
    simp only [mqttClient_loop.deliver, Option.some.injEq] at h
    rw [← h]
    exact CallbackFrame.refl s
  | cons m rest ih =>
    intro s s' h
    rw [mqttClient_loop.deliver] at h
    cases hc : mqttCallback b lib m.1 m.2 s with
    | none => simp [hc] at h
    | some s1 =>
      rw [hc, Option.some_bind] at h
      exact (frame_mqttCallback b lib _ _ s s1 hc).trans (ih s1 s' h)

theorem foldl_inv {α : Type} (P : Device → Prop) (f : Device → α → Device)
    (hf : ∀ s a, P s → P (f s a)) (l : List α) : ∀ s, P s → P (l.foldl f s) := by
  induction l with
  | nil => exact fun s h => h
  | cons a rest ih => exact fun s h => ih (f s a) (hf s a h)

/-- Every call of `reconnect()` issues exactly one connection attempt and
leaves the backoff stamp alone. -/
theorem reconnect_effect (b : Build) (lib : JsonLibrary) (r : Bool) (s : Device) :
    (reconnect b lib r s).2.lastReconnectAttempt = s.lastReconnectAttempt ∧
    (reconnect b lib r s).2.connectCalls.length = s.connectCalls.length + 1 := by
  unfold reconnect
  cases r with
  | false => exact ⟨rfl, by simp [status_setColor]⟩
  | true =>
    simp only [if_true]
    have key : ∀ s0 : Device,
        (fun s' : Device => s'.lastReconnectAttempt = s0.lastReconnectAttempt ∧
          s'.connectCalls = s0.connectCalls)
        (mqtt_publishAllStates b (subscribe
          ((List.range b.NUM_CHANNELS).foldl
            (fun s i => subscribe (s.topicChannelCmd.getD i "") s)
            (mqtt_publishConfig b lib (mqtt_publishStatus true s0))).topicAllCmd
          ((List.range b.NUM_CHANNELS).foldl
            (fun s i => subscribe (s.topicChannelCmd.getD i "") s)
            (mqtt_publishConfig b lib (mqtt_publishStatus true s0))))) := by
      intro s0
      have h1 : (mqtt_publishStatus true s0).lastReconnectAttempt = s0.lastReconnectAttempt ∧
          (mqtt_publishStatus true s0).connectCalls = s0.connectCalls := by
        unfold mqtt_publishStatus
        split <;> exact ⟨rfl, rfl⟩
      have h2 : (mqtt_publishConfig b lib (mqtt_publishStatus true s0)).lastReconnectAttempt =
            s0.lastReconnectAttempt ∧
          (mqtt_publishConfig b lib (mqtt_publishStatus true s0)).connectCalls =
            s0.connectCalls := by
        unfold mqtt_publishConfig
        split
        · exact h1
        · exact h1
      have h3 := foldl_inv
        (fun s' : Device => s'.lastReconnectAttempt = s0.lastReconnectAttempt ∧
          s'.connectCalls = s0.connectCalls)
        (fun s i => subscribe (s.topicChannelCmd.getD i "") s)
        (fun s a h => h) (List.range b.NUM_CHANNELS) _ h2
      have h4 := frame_mqtt_publishAllStates b (subscribe
          ((List.range b.NUM_CHANNELS).foldl
            (fun s i => subscribe (s.topicChannelCmd.getD i "") s)
            (mqtt_publishConfig b lib (mqtt_publishStatus true s0))).topicAllCmd
          ((List.range b.NUM_CHANNELS).foldl
            (fun s i => subscribe (s.topicChannelCmd.getD i "") s)
            (mqtt_publishConfig b lib (mqtt_publishStatus true s0))))
      exact ⟨h4.1.trans h3.1, h4.2.1.trans h3.2⟩
    obtain ⟨k1, k2⟩ := key (status_setColor STATUS_READY
      { status_setColor STATUS_MQTT_CONN s with
        connectCalls :=
          { clientId := (status_setColor STATUS_MQTT_CONN s).deviceId
            credentials :=
              if (status_setColor STATUS_MQTT_CONN s).mqttUser.isEmpty then none
              else some ((status_setColor STATUS_MQTT_CONN s).mqttUser,
                (status_setColor STATUS_MQTT_CONN s).mqttPass)
            willTopic := (status_setColor STATUS_MQTT_CONN s).topicStatus
            willMessage := "offline" } :: (status_setColor STATUS_MQTT_CONN s).connectCalls
        connected := true })
    refine ⟨k1, ?_⟩
    simp only at k2 ⊢
    rw [k2]
    simp [status_setColor]

/-- What `mqtt_loop()` does to the backoff stamp and to the connection log:
an attempt is issued exactly when the link is down and the guard of line 241
passes, and only then is the stamp renewed. -/
theorem mqtt_loop_effect (b : Build) (lib : JsonLibrary) (e : LoopEnv) (s s' : Device)
    (h : mqtt_loop b lib e s = some s') :
    (s.connected = false ∧ MQTT_RECONNECT_MS ≤ sub32 (millis e.tCheck) s.lastReconnectAttempt ∧
      s'.lastReconnectAttempt = millis e.tStamp ∧
      s'.connectCalls.length = s.connectCalls.length + 1) ∨
    (¬ (s.connected = false ∧
        MQTT_RECONNECT_MS ≤ sub32 (millis e.tCheck) s.lastReconnectAttempt) ∧
      s'.lastReconnectAttempt = s.lastReconnectAttempt ∧ s'.connectCalls = s.connectCalls) := by
  unfold mqtt_loop at h
  by_cases hc : s.connected = true
  · rw [if_neg (by simp [hc])] at h
    right
    refine ⟨fun hh => by simp [hc] at hh, ?_⟩
    cases hd : mqttClient_loop.deliver b lib e.inbound s with
    | none => simp [mqttClient_loop, hd] at h
    | some s1 =>
      have f1 := frame_deliver b lib e.inbound s s1 hd
      simp only [mqttClient_loop, hd, Option.map_some', Option.some.injEq] at h
      rw [← h]
      split
      · split
        · have f2 := frame_mqtt_publishAllStates b
            { s1 with connected := s1.connected && e.linkUp,
                      lastStatePublish := millis e.tStateStamp }
          unfold mqtt_publishHeartbeat
          split
          · exact ⟨f2.1.trans f1.1, f2.2.1.trans f1.2.1⟩
          · exact ⟨f2.1.trans f1.1, f2.2.1.trans f1.2.1⟩
        · have f2 := frame_mqtt_publishAllStates b
            { s1 with connected := s1.connected && e.linkUp,
                      lastStatePublish := millis e.tStateStamp }
          exact ⟨f2.1.trans f1.1, f2.2.1.trans f1.2.1⟩
      · split
        · unfold mqtt_publishHeartbeat
          split
          · exact ⟨f1.1, f1.2.1⟩
          · exact ⟨f1.1, f1.2.1⟩
        · exact ⟨f1.1, f1.2.1⟩
  · have hc' : s.connected = false := by simpa using hc
    rw [if_pos (by simp [hc'])] at h
    by_cases hg : sub32 (millis e.tCheck) s.lastReconnectAttempt ≥ MQTT_RECONNECT_MS
    · rw [if_pos hg] at h
      simp only [Option.some.injEq] at h
      obtain ⟨r1, r2⟩ := reconnect_effect b lib e.connectResult
        { s with lastReconnectAttempt := millis e.tStamp }
      rw [h] at r1 r2
      exact Or.inl ⟨hc', hg, r1, r2⟩
    · rw [if_neg hg] at h
      simp only [Option.some.injEq] at h
      rw [← h]
      exact Or.inr ⟨fun hh => hg hh.2, rfl, rfl⟩

theorem issuesAttempt_loop (b : Build) (lib : JsonLibrary) (e : LoopEnv) (s : Device)
    (h : issuesAttempt b lib (GatewayOp.loop e) s = true) :
    ∃ s', mqtt_loop b lib e s = some s' ∧ s.connected = false ∧
      MQTT_RECONNECT_MS ≤ sub32 (millis e.tCheck) s.lastReconnectAttempt ∧
      s'.lastReconnectAttempt = millis e.tStamp := by
  unfold issuesAttempt GatewayOp.run at h
  simp only at h
  cases hl : mqtt_loop b lib e s with
  | none => simp [hl] at h
  | some s' =>
    simp only [hl, decide_eq_true_eq] at h
    rcases mqtt_loop_effect b lib e s s' hl with ⟨h1, h2, h3, _⟩ | ⟨_, _, h3⟩
    · exact ⟨s', rfl, h1, h2, h3⟩
    · rw [h3] at h
      omega

theorem op_stamp (b : Build) (lib : JsonLibrary) (op : GatewayOp) (s s' : Device)
    (h : op.run b lib s = some s') :
    s'.lastReconnectAttempt = s.lastReconnectAttempt ∨
    s'.lastReconnectAttempt = millis op.tAttempt := by
  cases op with
  | connect t r =>
    simp only [GatewayOp.run, mqtt_connect, Option.some.injEq] at h
    rw [← h]
    exact Or.inl (reconnect_effect b lib r s).1
  | loop e =>
    rcases mqtt_loop_effect b lib e s s' h with ⟨_, _, h3, _⟩ | ⟨_, h3, _⟩
    · exact Or.inr h3
    · exact Or.inl h3
  | linkDown t =>
    simp only [GatewayOp.run, Option.some.injEq] at h
    rw [← h]
    exact Or.inl rfl

theorem attemptStamped_run (b : Build) (lib : JsonLibrary) (lo hi : Nat)
    (ops : List GatewayOp) :
    ∀ s s', AttemptStamped s lo hi → runGateway b lib ops s = some s' →
      (∀ op ∈ ops, lo ≤ op.tAttempt ∧ op.tAttempt ≤ hi) → AttemptStamped s' lo hi := by
  induction ops with
  | nil =>
    intro s s' hst hrun _
    simp only [runGateway, Option.some.injEq] at hrun
    rw [← hrun]
    exact hst
  | cons op rest ih =>
    intro s s' hst hrun hall
    rw [runGateway] at hrun
    cases hop : op.run b lib s with
    | none => simp [hop] at hrun
    | some s1 =>
      rw [hop, Option.some_bind] at hrun
      obtain ⟨l, a1, a2, a3⟩ := hst
      have hst1 : AttemptStamped s1 lo hi := by
        rcases op_stamp b lib op s s1 hop with h | h
        · exact ⟨l, a1, a2, h.trans a3⟩
        · exact ⟨op.tAttempt, (hall op (List.mem_cons_self _ _)).1,
            (hall op (List.mem_cons_self _ _)).2, h⟩
      exact ih s1 s' hst1 hrun (fun op' h' => hall op' (List.mem_cons_of_mem _ h'))

theorem runGateway_append (b : Build) (lib : JsonLibrary) (l1 l2 : List GatewayOp) :
    ∀ s, runGateway b lib (l1 ++ l2) s = (runGateway b lib l1 s).bind (runGateway b lib l2) := by
  induction l1 with
  | nil => intro s; rfl
  | cons op rest ih =>
    intro s
    simp only [List.cons_append, runGateway]
    cases op.run b lib s with
    | none => rfl
    | some s1 => simp [ih s1]

/-- C10 as stated fails: `mqtt_connect()` does not record the time of its
attempt.  On the configured device, `setup()` calls `mqtt_connect()` at
6000 ms (the attempt fails), and the first `mqtt_loop()` at 6010 ms, finding
`lastReconnectAttempt` still 0, issues a second attempt 10 ms later. -/
theorem C10_attempt_right_after_connect :
    GatewayClock [GatewayOp.connect 6000 false, GatewayOp.loop (loopAt 6010)] ∧
    issuesAttempt build8 sampleJson (GatewayOp.connect 6000 false) configuredDevice = true ∧
    (runGateway build8 sampleJson [GatewayOp.connect 6000 false] configuredDevice).map
      (fun s1 => (s1.connected, s1.lastReconnectAttempt,
        issuesAttempt build8 sampleJson (GatewayOp.loop (loopAt 6010)) s1)) =
      some (false, 0, true) ∧
    (GatewayOp.loop (loopAt 6010)).tBegin <
      (GatewayOp.connect 6000 false).tAttempt + MQTT_RECONNECT_MS := by
  decide!

/-- C10, amended: on a monotonic clock, `mqtt_loop()` issues a connection
attempt only while disconnected and only when at least MQTT_RECONNECT_MS
(5000 ms) have elapsed since the last attempt made by `mqtt_loop()`: if the
calls `ea` and, later, `eb` of a sequence of gateway steps both issue an
attempt, the guard reading of `eb` is at least 5000 ms after the stamp `ea`
took right before its attempt, whatever steps (`mqtt_connect()` calls
included) lie in between.  Attempts of `mqtt_connect()` are not delayed and
do not renew the stamp. -/
theorem C10_loop_backoff (b : Build) (lib : JsonLibrary) (s sa sb : Device)
    (pre mid post : List GatewayOp) (ea eb : LoopEnv)
    (hclock : GatewayClock (pre ++ GatewayOp.loop ea :: (mid ++ GatewayOp.loop eb :: post)))
    (hsa : runGateway b lib pre s = some sa)
    (ha : issuesAttempt b lib (GatewayOp.loop ea) sa = true)
    (hsb : runGateway b lib (pre ++ GatewayOp.loop ea :: mid) s = some sb)
    (hb : issuesAttempt b lib (GatewayOp.loop eb) sb = true) :
    sa.connected = false ∧ sb.connected = false ∧
    ea.tStamp + MQTT_RECONNECT_MS ≤ eb.tCheck := by
  obtain ⟨sa', ha1, ha2, _, ha4⟩ := issuesAttempt_loop b lib ea sa ha
  obtain ⟨_, _, hb2, hb3, _⟩ := issuesAttempt_loop b lib eb sb hb
  refine ⟨ha2, hb2, ?_⟩
  -- the clock
  obtain ⟨hin, hpw⟩ := hclock
  have h1 := (List.pairwise_append.mp hpw).2.1
  obtain ⟨hafter, hrest⟩ := List.pairwise_cons.mp h1
  have hcross := (List.pairwise_append.mp hrest).2.2
  have hab : ea.tStamp ≤ eb.tCheck := hafter (GatewayOp.loop eb) (by simp)
  have hmid : ∀ op ∈ mid, ea.tStamp ≤ op.tAttempt ∧ op.tAttempt ≤ eb.tCheck := by
    intro op hop
    have a1 := hin op (by simp [hop])
    have a2 : ea.tStamp ≤ op.tBegin := hafter op (by simp [hop])
    have a3 : op.tAttempt ≤ eb.tCheck := hcross op hop (GatewayOp.loop eb) (by simp)
    omega
  -- the state before `eb` is the state after `ea` followed by the steps in between
  have hrun : runGateway b lib mid sa' = some sb := by
    have := runGateway_append b lib pre (GatewayOp.loop ea :: mid) s
    rw [hsb, hsa, Option.some_bind, runGateway] at this
    simp only [GatewayOp.run, ha1, Option.some_bind] at this
    exact this.symm
  have hst : AttemptStamped sb ea.tStamp eb.tCheck :=
    attemptStamped_run b lib ea.tStamp eb.tCheck mid sa' sb
      ⟨ea.tStamp, le_refl _, hab, ha4⟩ hrun hmid
  obtain ⟨l, l1, l2, l3⟩ := hst
  rw [l3] at hb3
  have := sub32_millis_le eb.tCheck l l2
  omega

/-- Witness of C10 (amended): on the configured device `mqtt_loop()` attempts
at 6000 ms, `mqtt_connect()` is called at 7000 ms, and `mqtt_loop()` attempts
again at 11000 ms. -/
theorem C10_loop_backoff_witness :
    issuesAttempt build8 sampleJson (GatewayOp.loop (loopAt 6000)) configuredDevice = true ∧
    configuredDevice.connected = false ∧
    (loopAt 6000).tStamp + MQTT_RECONNECT_MS ≤ (loopAt 11000).tCheck :=
  ⟨by decide!,
   (C10_loop_backoff build8 sampleJson configuredDevice configuredDevice
      (mqtt_connect build8 sampleJson false
        (reconnect build8 sampleJson false
          { configuredDevice with lastReconnectAttempt := millis 6000 }).2).2
      [] [GatewayOp.connect 7000 false] [] (loopAt 6000) (loopAt 11000)
      (by decide) rfl (by decide!) (by decide!) (by decide!)).1,
   (C10_loop_backoff build8 sampleJson configuredDevice configuredDevice
      (mqtt_connect build8 sampleJson false
        (reconnect build8 sampleJson false
          { configuredDevice with lastReconnectAttempt := millis 6000 }).2).2
      [] [GatewayOp.connect 7000 false] [] (loopAt 6000) (loopAt 11000)
      (by decide) rfl (by decide!) (by decide!) (by decide!)).2.2⟩

/-! ## Standalone mode and disconnected publication -/

theorem mqtt_publishAllStates_disconnected (b : Build) (s : Device) (h : s.connected = false) :
    mqtt_publishAllStates b s = s := by
  unfold mqtt_publishAllStates
  induction b.NUM_CHANNELS with
  | zero => rfl
  | succ n ih =>
    rw [List.range_succ, List.foldl_append, ih]
    simp [mqtt_publishChannelState, h]

/-- C12: every publish operation is a no-op when disconnected: if the
transport reports not connected, each of mqtt_publishChannelState,
mqtt_publishAllStates, mqtt_publishStatus, mqtt_publishConfig and
mqtt_publishHeartbeat returns with the whole state as it was, so it issues
no publish call and changes no gateway or channel state. -/
theorem C12_publish_noop_when_disconnected (b : Build) (lib : JsonLibrary) (s : Device)
    (hdis : s.connected = false) :
    (∀ channel value, mqtt_publishChannelState b channel value s = s) ∧
    mqtt_publishAllStates b s = s ∧
    (∀ online, mqtt_publishStatus online s = s) ∧
    mqtt_publishConfig b lib s = s ∧
    (∀ now freeHeap rssi, mqtt_publishHeartbeat lib now freeHeap rssi s = s) := by
  refine ⟨?_, mqtt_publishAllStates_disconnected b s hdis, ?_, ?_, ?_⟩
  · intro channel value
    simp [mqtt_publishChannelState, hdis]
  · intro online
    simp [mqtt_publishStatus, hdis]
  · simp [mqtt_publishConfig, hdis]
  · intro now freeHeap rssi
    simp [mqtt_publishHeartbeat, hdis]

/-- Witness of C12: the configured device before any connection. -/
theorem C12_publish_noop_when_disconnected_witness :
    mqtt_publishAllStates build8 configuredDevice = configuredDevice ∧
    mqtt_publishStatus true configuredDevice = configuredDevice :=
  ⟨(C12_publish_noop_when_disconnected build8 sampleJson configuredDevice (by decide!)).2.1,
   (C12_publish_noop_when_disconnected build8 sampleJson configuredDevice (by decide!)).2.2.1
     true⟩

theorem getString_putString_self (p : Nvs) (k v d : String) :
    Nvs.getString (p.putString k v) k d = v := by
  simp [Nvs.getString, Nvs.putString, List.lookup]

/-- The identifier that mqtt_init derives from the hardware address. -/
theorem generatedId_ne_empty (a c d : String) : ("leddimmer-" ++ a ++ c ++ d).isEmpty = false := by
  cases h : ("leddimmer-" ++ a ++ c ++ d).isEmpty with
  | false => rfl
  | true =>
    have h0 := (String.isEmpty_iff _).mp h
    have h1 := congrArg String.data h0
    simp only [String.data_append] at h1
    have h2 := congrArg List.length h1
    simp at h2

theorem buildTopics_frame (b : Build) (s : Device) :
    (buildTopics b s).deviceId = s.deviceId ∧ (buildTopics b s).nvs = s.nvs := by
  unfold buildTopics
  exact foldl_inv (fun s' : Device => s'.deviceId = s.deviceId ∧ s'.nvs = s.nvs)
    (fun s' i => buildTopics.body (MQTT_BASE_TOPIC ++ "/" ++ s.deviceId) i s')
    (fun _ _ h => h) (List.range b.NUM_CHANNELS) _ ⟨rfl, rfl⟩

/-- After `mqtt_init()` the identifier in memory is the stored one and is not
empty; it is the identifier found in flash when there was one, and the one
derived from the hardware address otherwise. -/
theorem mqtt_init_deviceId (b : Build) (mac : List Nat) (s : Device) :
    (mqtt_init b mac s).2.nvs.getString PREFS_DEVICE_ID "" = (mqtt_init b mac s).2.deviceId ∧
    (mqtt_init b mac s).2.deviceId.isEmpty = false ∧
    ((s.nvs.getString PREFS_DEVICE_ID "").isEmpty = false →
      (mqtt_init b mac s).2.deviceId = s.nvs.getString PREFS_DEVICE_ID "") ∧
    ((s.nvs.getString PREFS_DEVICE_ID "").isEmpty = true →
      (mqtt_init b mac s).2.deviceId =
        "leddimmer-" ++ hexString (mac.getD 3 0) ++ hexString (mac.getD 4 0)
          ++ hexString (mac.getD 5 0)) := by
  unfold mqtt_init
  simp only []
  cases hid : (s.nvs.getString PREFS_DEVICE_ID "").isEmpty with
  | true =>
    simp only [if_true]
    split
    · refine ⟨getString_putString_self _ _ _ _, generatedId_ne_empty _ _ _, ?_, fun _ => rfl⟩
      intro h
      cases h
    · rw [(buildTopics_frame b _).1, (buildTopics_frame b _).2]
      refine ⟨getString_putString_self _ _ _ _, generatedId_ne_empty _ _ _, ?_, fun _ => rfl⟩
      intro h
      cases h
  | false =>
    simp only [Bool.false_eq_true, if_false]
    split
    · exact ⟨rfl, hid, fun _ => rfl, fun h => by cases h⟩
    · rw [(buildTopics_frame b _).1, (buildTopics_frame b _).2]
      exact ⟨rfl, hid, fun _ => rfl, fun h => by cases h⟩

/-- C13: device identifier stability.  Once `mqtt_init()` has run (taking the
stored identifier, or generating it from the hardware address `mac1` when
none is stored and persisting it), every later `mqtt_init()` on a store that
still holds that entry, whatever hardware address `mac2` is reported then,
yields the same identifier and leaves the same identifier stored, so the
same holds for every restart after it. -/
theorem C13_device_id_stable (b : Build) (mac1 mac2 : List Nat) (s0 s2 : Device)
    (hstore : s2.nvs.getString PREFS_DEVICE_ID "" =
      (mqtt_init b mac1 s0).2.nvs.getString PREFS_DEVICE_ID "") :
    (mqtt_init b mac2 s2).2.deviceId = (mqtt_init b mac1 s0).2.deviceId ∧
    (mqtt_init b mac2 s2).2.nvs.getString PREFS_DEVICE_ID "" =
      (mqtt_init b mac1 s0).2.nvs.getString PREFS_DEVICE_ID "" ∧
    (mqtt_init b mac1 s0).2.deviceId ≠ "" ∧
    ((s0.nvs.getString PREFS_DEVICE_ID "").isEmpty = true →
      (mqtt_init b mac1 s0).2.deviceId =
        "leddimmer-" ++ hexString (mac1.getD 3 0) ++ hexString (mac1.getD 4 0)
          ++ hexString (mac1.getD 5 0)) := by
  obtain ⟨a1, a2, _, a4⟩ := mqtt_init_deviceId b mac1 s0
  obtain ⟨c1, _, c3, _⟩ := mqtt_init_deviceId b mac2 s2
  have hne : (s2.nvs.getString PREFS_DEVICE_ID "").isEmpty = false := by
    rw [hstore, a1]
    exact a2
  have hid : (mqtt_init b mac2 s2).2.deviceId = (mqtt_init b mac1 s0).2.deviceId := by
    rw [c3 hne, hstore, a1]
  refine ⟨hid, ?_, ?_, a4⟩
  · rw [c1, hid, a1]
  · intro h
    rw [h] at a2
    exact absurd a2 (by decide)

/-- Witness of C13: first boot with an empty flash and address ..a1:b2:c3
gives "leddimmer-a1b2c3"; after a save and a restart, with another address
reported, the identifier is the same. -/
theorem C13_device_id_stable_witness :
    (mqtt_init build8 [1, 2, 3, 4, 5, 6]
      (Device.boot build8 (pwm_saveState build8
        (mqtt_init build8 [0x24, 0x6f, 0x28, 0xa1, 0xb2, 0xc3]
          (Device.boot build8 [])).2).nvs)).2.deviceId =
    (mqtt_init build8 [0x24, 0x6f, 0x28, 0xa1, 0xb2, 0xc3] (Device.boot build8 [])).2.deviceId :=
  (C13_device_id_stable build8 [0x24, 0x6f, 0x28, 0xa1, 0xb2, 0xc3] [1, 2, 3, 4, 5, 6]
    (Device.boot build8 [])
    (Device.boot build8 (pwm_saveState build8
      (mqtt_init build8 [0x24, 0x6f, 0x28, 0xa1, 0xb2, 0xc3] (Device.boot build8 [])).2).nvs)
    (by decide!)).1

/-! ## Transition engine: the exact walk -/

theorem transitionStep_length (channel target : Nat) (s : Device) :
    (transitionStep channel target s).channelValues.length = s.channelValues.length := by
  simp [transitionStep]

theorem transitionStep_iterate_length (channel target : Nat) (s : Device) (k : Nat) :
    ((transitionStep channel target)^[k] s).channelValues.length = s.channelValues.length := by
  induction k with
  | zero => rfl
  | succ k ih => rw [Function.iterate_succ_apply', transitionStep_length, ih]

/-- The stored value after `k` steps towards a larger target. -/
theorem transitionStep_iterate_up (channel target : Nat) (s : Device)
    (hi : channel < s.channelValues.length) :
    ∀ k, s.channelValues.getD channel 0 + k ≤ target →
      ((transitionStep channel target)^[k] s).channelValues.getD channel 0 =
        s.channelValues.getD channel 0 + k := by
  intro k
  induction k with
  | zero => intro _; rfl
  | succ k ih =>
    intro hk
    have h1 := ih (by omega)
    rw [Function.iterate_succ_apply']
    have hlen := transitionStep_iterate_length channel target s k
    generalize (transitionStep channel target)^[k] s = r at h1 hlen
    unfold transitionStep
    simp only []
    rw [getD_set _ _ _ _ _ (by omega), if_pos rfl, h1, if_pos (by omega)]
    omega

/-- The stored value after `k` steps towards a smaller target. -/
theorem transitionStep_iterate_down (channel target : Nat) (s : Device)
    (hi : channel < s.channelValues.length) :
    ∀ k, target + k ≤ s.channelValues.getD channel 0 →
      ((transitionStep channel target)^[k] s).channelValues.getD channel 0 =
        s.channelValues.getD channel 0 - k := by
  intro k
  induction k with
  | zero => intro _; rfl
  | succ k ih =>
    intro hk
    have h1 := ih (by omega)
    rw [Function.iterate_succ_apply']
    have hlen := transitionStep_iterate_length channel target s k
    generalize (transitionStep channel target)^[k] s = r at h1 hlen
    unfold transitionStep
    simp only []
    rw [getD_set _ _ _ _ _ (by omega), if_pos rfl, h1, if_neg (by omega)]
    omega

/-- The loop, stepping upwards, is the iterated specification step. -/
theorem smoothLoop_up_walk (channel targetValue : Nat) (htarget : targetValue < 256) :
    ∀ (fuel cur : Nat) (s : Device), s.channelValues.getD channel 0 = cur →
      channel < s.channelValues.length → cur < targetValue → targetValue - cur < fuel →
      pwm_setChannelSmooth.loop channel targetValue 1 fuel cur s =
        some ((transitionStep channel targetValue)^[targetValue - cur] s) := by
  intro fuel
  induction fuel with
  | zero => intro cur s _ _ _ h; omega
  | succ fuel ih =>
    intro cur s hcur hi hlt hfuel
    have hne : (cur != targetValue) = true := by simpa using Nat.ne_of_lt hlt
    have hstep : (((cur : Int) + 1) % 256).toNat = cur + 1 := by omega
    have hone : { ledcWrite (PWM_PINS.getD channel 0) (cur + 1) s with
        channelValues := s.channelValues.set channel (cur + 1) } =
        transitionStep channel targetValue s := by
      unfold transitionStep
      simp only [hcur, if_pos hlt]
      rfl
    rw [pwm_setChannelSmooth.loop, if_pos hne]
    simp only [hstep, ledcWrite_channelValues]
    rw [hone]
    obtain ⟨m, hm⟩ : ∃ m, targetValue - cur = m + 1 := ⟨targetValue - cur - 1, by omega⟩
    rw [hm, Function.iterate_succ_apply]
    by_cases heq : cur + 1 = targetValue
    · obtain ⟨f, rfl⟩ : ∃ f, fuel = f + 1 := ⟨fuel - 1, by omega⟩
      have hm0 : m = 0 := by omega
      rw [heq, smoothLoop_done, hm0]
      rfl
    · have hm' : targetValue - (cur + 1) = m := by omega
      rw [← hm']
      refine ih (cur + 1) _ ?_ ?_ (by omega) (by omega)
      · rw [← hone]
        simp only []
        rw [getD_set _ _ _ _ _ (by simpa using hi), if_pos rfl]
      · rw [transitionStep_length]
        exact hi

/-- The loop, stepping downwards, is the iterated specification step. -/
theorem smoothLoop_down_walk (channel targetValue : Nat) :
    ∀ (fuel cur : Nat) (s : Device), s.channelValues.getD channel 0 = cur →
      channel < s.channelValues.length → targetValue < cur → cur < 256 →
      cur - targetValue < fuel →
      pwm_setChannelSmooth.loop channel targetValue (-1) fuel cur s =
        some ((transitionStep channel targetValue)^[cur - targetValue] s) := by
  intro fuel
  induction fuel with
  | zero => intro cur s _ _ _ _ h; omega
  | succ fuel ih =>
    intro cur s hcur hi hlt h256 hfuel
    have hne : (cur != targetValue) = true := by simpa using Nat.ne_of_gt hlt
    have hstep : (((cur : Int) + -1) % 256).toNat = cur - 1 := by omega
    have hone : { ledcWrite (PWM_PINS.getD channel 0) (cur - 1) s with
        channelValues := s.channelValues.set channel (cur - 1) } =
        transitionStep channel targetValue s := by
      unfold transitionStep
      simp only [hcur, if_neg (Nat.not_lt.mpr (Nat.le_of_lt hlt))]
      rfl
    rw [pwm_setChannelSmooth.loop, if_pos hne]
    simp only [hstep, ledcWrite_channelValues]
    rw [hone]
    obtain ⟨m, hm⟩ : ∃ m, cur - targetValue = m + 1 := ⟨cur - targetValue - 1, by omega⟩
    rw [hm, Function.iterate_succ_apply]
    by_cases heq : cur - 1 = targetValue
    · obtain ⟨f, rfl⟩ : ∃ f, fuel = f + 1 := ⟨fuel - 1, by omega⟩
      have hm0 : m = 0 := by omega
      rw [heq, smoothLoop_done, hm0]
      rfl
    · have hm' : (cur - 1) - targetValue = m := by omega
      rw [← hm']
      refine ih (cur - 1) _ ?_ ?_ (by omega) (by omega) (by omega)
      · rw [← hone]
        simp only []
        rw [getD_set _ _ _ _ _ (by simpa using hi), if_pos rfl]
      · rw [transitionStep_length]
        exact hi

/-- Each specification step writes to the output the value it stores. -/
theorem transitionStep_writes (channel target : Nat) (s : Device)
    (hi : channel < s.channelValues.length) (k : Nat) :
    ((transitionStep channel target)^[k + 1] s).ledcWrites =
      (PWM_PINS.getD channel 0,
        ((transitionStep channel target)^[k + 1] s).channelValues.getD channel 0) ::
        ((transitionStep channel target)^[k] s).ledcWrites := by
  rw [Function.iterate_succ_apply']
  have hlen := transitionStep_iterate_length channel target s k
  generalize (transitionStep channel target)^[k] s = r at hlen
  unfold transitionStep
  simp only []
  rw [getD_set _ _ _ _ _ (by omega), if_pos rfl]

/-- C14: with transitions enabled, for every valid channel with current value
c and every target t, pwm_setChannelSmooth returns; its result is the state
after exactly |t - c| steps, each of which moves the stored value by one unit
towards t and writes that value to the physical output and to memory.  After
k steps the stored value is c + k (target above) or c - k (target below), so
it never passes t and never wraps; after the last step it is t.  When t = c
the state is returned as it was: no write. -/
theorem C14_smooth_walk (b : Build) (s : Device) (i t : Nat) (hwf : s.WF b)
    (hi : i < b.NUM_CHANNELS) (ht : t < 256) (htr : b.ENABLE_TRANSITIONS = true) :
    pwm_setChannelSmooth b i t s =
      some ((transitionStep i t)^[distance (pwm_getChannel b i s) t] s) ∧
    pwm_getChannel b i ((transitionStep i t)^[distance (pwm_getChannel b i s) t] s) = t ∧
    (∀ k ≤ distance (pwm_getChannel b i s) t,
      pwm_getChannel b i ((transitionStep i t)^[k] s) =
        if pwm_getChannel b i s < t then pwm_getChannel b i s + k
        else pwm_getChannel b i s - k) ∧
    (∀ k, ((transitionStep i t)^[k + 1] s).ledcWrites =
      (PWM_PINS.getD i 0, pwm_getChannel b i ((transitionStep i t)^[k + 1] s)) ::
        ((transitionStep i t)^[k] s).ledcWrites) ∧
    (pwm_getChannel b i s = t → pwm_setChannelSmooth b i t s = some s) := by
  obtain ⟨hlen, hbytes, _, _⟩ := hwf
  have hil : i < s.channelValues.length := by omega
  have hget : ∀ r : Device, pwm_getChannel b i r = r.channelValues.getD i 0 := by
    intro r
    unfold pwm_getChannel
    rw [if_neg (by omega)]
  have hcur : s.channelValues.getD i 0 < 256 := by
    rw [List.getD_eq_getElem?_getD, List.getElem?_eq_getElem hil]
    exact hbytes _ (List.getElem_mem hil)
  simp only [hget]
  obtain ⟨c, hc⟩ : ∃ c, s.channelValues.getD i 0 = c := ⟨_, rfl⟩
  have hsteps : ∀ k ≤ distance c t,
      ((transitionStep i t)^[k] s).channelValues.getD i 0 = if c < t then c + k else c - k := by
    intro k hk
    unfold distance at hk
    by_cases hlt : c < t
    · rw [if_pos hlt] at hk ⊢
      rw [transitionStep_iterate_up i t s hil k (by omega), hc]
    · rw [if_neg hlt] at hk ⊢
      rw [transitionStep_iterate_down i t s hil k (by omega), hc]
  rw [hc] at hcur ⊢
  have hrun : pwm_setChannelSmooth b i t s = some ((transitionStep i t)^[distance c t] s) := by
    unfold pwm_setChannelSmooth distance
    rw [if_neg (by omega), if_pos htr]
    simp only []
    rw [hc]
    by_cases heq : c = t
    · rw [if_pos (by simpa using heq), if_neg (by omega)]
      have : c - t = 0 := by omega
      rw [this]
      rfl
    · rw [if_neg (by simpa using heq)]
      by_cases hlt : c < t
      · rw [if_pos (show ((t : Int) - (c : Int) > 0) by omega), if_pos hlt]
        exact smoothLoop_up_walk i t ht 256 c s hc hil hlt (by omega)
      · rw [if_neg (show ¬ ((t : Int) - (c : Int) > 0) by omega), if_neg hlt]
        exact smoothLoop_down_walk i t 256 c s hc hil (by omega) hcur (by omega)
  refine ⟨hrun, ?_, hsteps, fun k => transitionStep_writes i t s hil k, ?_⟩
  · rw [hsteps _ (le_refl _)]
    unfold distance
    split <;> omega
  · intro heq
    rw [hrun]
    unfold distance
    rw [if_neg (by omega)]
    have : c - t = 0 := by omega
    rw [this]
    rfl

/-- Witness of C14: channel 1 of the 8-channel build walks from 3 up to 6 in
three steps. -/
theorem C14_smooth_walk_witness :
    pwm_setChannelSmooth build8 1 6
      { Device.boot build8 [] with channelValues := [0, 3, 0, 0, 0, 0, 0, 0] } =
      some ((transitionStep 1 6)^[distance (pwm_getChannel build8 1
          { Device.boot build8 [] with channelValues := [0, 3, 0, 0, 0, 0, 0, 0] }) 6]
        { Device.boot build8 [] with channelValues := [0, 3, 0, 0, 0, 0, 0, 0] }) :=
  (C14_smooth_walk build8
    { Device.boot build8 [] with channelValues := [0, 3, 0, 0, 0, 0, 0, 0] } 1 6
    (by decide) (by decide) (by decide) rfl).1

/-! ## Store and outputs agree -/

/-- The PWM pins of the eight channels are pairwise different. -/
theorem PWM_PINS_inj8 : ∀ i < 8, ∀ j < 8, PWM_PINS.getD i 0 = PWM_PINS.getD j 0 → i = j := by
  decide

theorem Build.Valid.le8 {b : Build} (hb : b.Valid) : b.NUM_CHANNELS ≤ 8 := by
  rcases hb with h | h <;> omega

/-- Writing a value to the output of channel `i` and storing it in cell `i`
keeps store and outputs in agreement. -/
theorem agree_write (b : Build) (hb : b.Valid) (s s' : Device) (i v : Nat)
    (hi : i < b.NUM_CHANNELS) (h : OutputsAgree b s)
    (hcv : s'.channelValues = s.channelValues.set i v)
    (hws : s'.ledcWrites = (PWM_PINS.getD i 0, v) :: s.ledcWrites) : OutputsAgree b s' := by
  obtain ⟨hlen, hag⟩ := h
  have h8 := hb.le8
  refine ⟨by rw [hcv]; simpa using hlen, ?_⟩
  intro j hj
  unfold lastWritten at hag ⊢
  rw [hws, hcv]
  by_cases hji : j = i
  · subst hji
    rw [getD_set _ _ _ _ _ (by omega), if_pos rfl]
    simp [List.lookup]
  · rw [getD_set_ne _ _ _ _ _ hji]
    have hpin : PWM_PINS.getD j 0 ≠ PWM_PINS.getD i 0 :=
      fun h => hji (PWM_PINS_inj8 j (by omega) i (by omega) h)
    simp only [List.lookup]
    rw [show (PWM_PINS.getD j 0 == PWM_PINS.getD i 0) = false from by simpa using hpin]
    exact hag j hj

theorem agree_of_same (b : Build) (s s' : Device) (h : OutputsAgree b s)
    (hcv : s'.channelValues = s.channelValues) (hws : s'.ledcWrites = s.ledcWrites) :
    OutputsAgree b s' := by
  unfold OutputsAgree lastWritten at *
  rw [hcv, hws]
  exact h

theorem agree_pwm_setChannel (b : Build) (hb : b.Valid) (i v : Nat) (s : Device)
    (h : OutputsAgree b s) : OutputsAgree b (pwm_setChannel b i v s) := by
  by_cases hi : i < b.NUM_CHANNELS
  · exact agree_write b hb s _ i v hi h (pwm_setChannel_channelValues b i v s hi)
      (pwm_setChannel_ledcWrites b i v s hi)
  · rw [pwm_setChannel_invalid b i v s (by omega)]
    exact h

theorem agree_pwm_setAllChannels (b : Build) (hb : b.Valid) (v : Nat) (s : Device)
    (h : OutputsAgree b s) : OutputsAgree b (pwm_setAllChannels b v s) :=
  foldl_inv (OutputsAgree b) _ (fun s i hs => agree_pwm_setChannel b hb i v s hs) _ s h

theorem agree_pwm_loadState (b : Build) (hb : b.Valid) (s : Device) (h : OutputsAgree b s) :
    OutputsAgree b (pwm_loadState b s) := by
  refine foldl_inv (OutputsAgree b) (fun s i => pwm_loadState.body b i s) ?_ _ s h
  intro s i hs
  show OutputsAgree b (pwm_loadState.body b i s)
  unfold pwm_loadState.body
  split
  · exact agree_pwm_setChannel b hb i _ s hs
  · exact hs

theorem agree_pwm_saveState (b : Build) (hb : b.Valid) (s : Device) (h : OutputsAgree b s) :
    OutputsAgree b (pwm_saveState b s) := by
  obtain ⟨h1, _, h3, _, _⟩ := pwm_saveState_spec b hb s
  exact agree_of_same b s _ h h1 h3

theorem agree_smoothLoop (b : Build) (hb : b.Valid) (channel targetValue : Nat) (step : Int)
    (hi : channel < b.NUM_CHANNELS) :
    ∀ (fuel cur : Nat) (s s' : Device),
      pwm_setChannelSmooth.loop channel targetValue step fuel cur s = some s' →
      OutputsAgree b s → OutputsAgree b s' := by
  intro fuel
  induction fuel with
  | zero =>
    intro cur s s' h
    simp [pwm_setChannelSmooth.loop] at h
  | succ fuel ih =>
    intro cur s s' h hs
    rw [pwm_setChannelSmooth.loop] at h
    split at h
    · exact ih _ _ _ h (agree_write b hb s _ channel _ hi hs rfl rfl)
    · cases h
      exact hs

theorem agree_pwm_setChannelSmooth (b : Build) (hb : b.Valid) (i v : Nat) (s s' : Device)
    (h : pwm_setChannelSmooth b i v s = some s') (hs : OutputsAgree b s) :
    OutputsAgree b s' := by
  unfold pwm_setChannelSmooth at h
  split at h
  · cases h
    exact hs
  · next hi =>
    split at h
    · simp only at h
      split at h
      · cases h
        exact hs
      · exact agree_smoothLoop b hb i v _ (by omega) _ _ _ _ h hs
    · cases h
      exact agree_pwm_setChannel b hb i v s hs

theorem agree_runPwm (b : Build) (hb : b.Valid) (ops : List PwmOp) :
    ∀ s s', runPwm b ops s = some s' → OutputsAgree b s → OutputsAgree b s' := by
  induction ops with
  | nil =>
    intro s s' h hs
    simp only [runPwm, Option.some.injEq] at h
    rw [← h]
    exact hs
  | cons op rest ih =>
    intro s s' h hs
    rw [runPwm] at h
    cases hop : op.run b s with
    | none => simp [hop] at h
    | some s1 =>
      rw [hop, Option.some_bind] at h
      refine ih s1 s' h ?_
      cases op with
      | setChannel c v =>
        simp only [PwmOp.run, Option.some.injEq] at hop
        rw [← hop]
        exact agree_pwm_setChannel b hb c v s hs
      | setAllChannels v =>
        simp only [PwmOp.run, Option.some.injEq] at hop
        rw [← hop]
        exact agree_pwm_setAllChannels b hb v s hs
      | setChannelSmooth c v => exact agree_pwm_setChannelSmooth b hb c v s s1 hop hs
      | loadState =>
        simp only [PwmOp.run, Option.some.injEq] at hop
        rw [← hop]
        exact agree_pwm_loadState b hb s hs
      | saveState =>
        simp only [PwmOp.run, Option.some.injEq] at hop
        rw [← hop]
        exact agree_pwm_saveState b hb s hs

/-- The first loop of `pwm_init()` after `n ≤ NUM_CHANNELS` iterations: memory
untouched, the outputs of channels below `n` driven to 0. -/
theorem initLoop_spec (b : Build) (hb : b.Valid) (s : Device) (n : Nat)
    (hn : n ≤ b.NUM_CHANNELS) :
    let r := (List.range n).foldl (fun s i => ledcWrite (PWM_PINS.getD i 0) 0 s) s
    r.channelValues = s.channelValues ∧ r.nvs = s.nvs ∧
    r.topicChannelCmd = s.topicChannelCmd ∧ r.topicChannelState = s.topicChannelState ∧
    ∀ i < n, lastWritten i r = some 0 := by
  have h8 := hb.le8
  induction n with
  | zero => simp
  | succ n ih =>
    obtain ⟨h1, h2, h3, h4, h5⟩ := ih (by omega)
    simp only [List.range_succ, List.foldl_append, List.foldl_cons, List.foldl_nil]
    generalize (List.range n).foldl (fun s i => ledcWrite (PWM_PINS.getD i 0) 0 s) s = r
      at h1 h2 h3 h4 h5
    refine ⟨h1, h2, h3, h4, ?_⟩
    intro i hi
    unfold lastWritten ledcWrite at *
    by_cases hin : i = n
    · subst hin
      simp [List.lookup]
    · have hpin : PWM_PINS.getD i 0 ≠ PWM_PINS.getD n 0 :=
        fun h => hin (PWM_PINS_inj8 i (by omega) n (by omega) h)
      simp only [List.lookup]
      rw [show (PWM_PINS.getD i 0 == PWM_PINS.getD n 0) = false from by simpa using hpin]
      exact h5 i (by omega)

theorem agree_pwm_init (b : Build) (hb : b.Valid) (nvs : Nvs) :
    OutputsAgree b (pwm_init b (Device.boot b nvs)) := by
  unfold pwm_init
  apply agree_pwm_loadState b hb
  obtain ⟨h1, _, _, _, h5⟩ := initLoop_spec b hb (Device.boot b nvs) b.NUM_CHANNELS (le_refl _)
  refine ⟨by rw [h1]; simp [Device.boot], ?_⟩
  intro i hi
  rw [h5 i hi, h1]
  simp [Device.boot, List.getD_eq_getElem?_getD, List.getElem?_replicate, hi]

theorem lookup_mem (p : Nvs) (k : String) (v : PrefValue) (h : p.lookup k = some v) :
    (k, v) ∈ p := by
  induction p with
  | nil => simp [List.lookup] at h
  | cons e rest ih =>
    obtain ⟨k', v'⟩ := e
    simp only [List.lookup] at h
    by_cases hk : k = k'
    · subst hk
      simp only [beq_self_eq_true, Option.some.injEq] at h
      rw [h]
      exact List.mem_cons_self _ _
    · rw [show (k == k') = false from by simpa using hk] at h
      exact List.mem_cons_of_mem _ (ih h)

theorem getUChar_byte (p : Nvs) (hp : p.Bytes) (k : String) : p.getUChar k 0 < 256 := by
  unfold Nvs.getUChar
  split
  · next v hv =>
    have := hp _ (lookup_mem p k _ hv)
    simpa [PrefValue.isByte] using this
  · omega

theorem getD_byte (l : List Nat) (hl : ∀ v ∈ l, v < 256) (i : Nat) : l.getD i 0 < 256 := by
  rw [List.getD_eq_getElem?_getD]
  by_cases hi : i < l.length
  · rw [List.getElem?_eq_getElem hi]
    exact hl _ (List.getElem_mem hi)
  · rw [List.getElem?_eq_none (by omega)]
    simp

theorem byteStore_of (b : Build) (s s' : Device) (h : ByteStore b s)
    (hlen : s'.channelValues.length = s.channelValues.length)
    (hbytes : ∀ v ∈ s'.channelValues, v < 256)
    (hc : s'.topicChannelCmd = s.topicChannelCmd)
    (hst : s'.topicChannelState = s.topicChannelState) (hn : s'.nvs.Bytes) :
    ByteStore b s' := by
  obtain ⟨⟨h1, _, h3, h4⟩, _⟩ := h
  exact ⟨⟨hlen.trans h1, hbytes, by rw [hc]; exact h3, by rw [hst]; exact h4⟩, hn⟩

theorem byteStore_pwm_setChannel (b : Build) (i v : Nat) (hv : v < 256) (s : Device)
    (h : ByteStore b s) : ByteStore b (pwm_setChannel b i v s) := by
  by_cases hi : i < b.NUM_CHANNELS
  · refine byteStore_of b s _ h ?_ ?_ ?_ ?_ ?_
    · rw [pwm_setChannel_channelValues b i v s hi]
      simp
    · rw [pwm_setChannel_channelValues b i v s hi]
      intro x hx
      rcases List.mem_or_eq_of_mem_set hx with hx | hx
      · exact h.1.2.1 x hx
      · omega
    · simp [pwm_setChannel, Nat.not_le.mpr hi, ledcWrite]
    · simp [pwm_setChannel, Nat.not_le.mpr hi, ledcWrite]
    · rw [pwm_setChannel_nvs]
      exact h.2
  · rw [pwm_setChannel_invalid b i v s (by omega)]
    exact h

theorem byteStore_pwm_setAllChannels (b : Build) (v : Nat) (hv : v < 256) (s : Device)
    (h : ByteStore b s) : ByteStore b (pwm_setAllChannels b v s) :=
  foldl_inv (ByteStore b) _ (fun s i hs => byteStore_pwm_setChannel b i v hv s hs) _ s h

theorem byteStore_pwm_loadState (b : Build) (s : Device) (h : ByteStore b s) :
    ByteStore b (pwm_loadState b s) := by
  refine foldl_inv (ByteStore b) (fun s i => pwm_loadState.body b i s) ?_ _ s h
  intro s i hs
  show ByteStore b (pwm_loadState.body b i s)
  unfold pwm_loadState.body
  split
  · exact byteStore_pwm_setChannel b i _ (getUChar_byte _ hs.2 _) s hs
  · exact hs

theorem byteStore_pwm_saveState (b : Build) (s : Device) (h : ByteStore b s) :
    ByteStore b (pwm_saveState b s) := by
  refine foldl_inv (ByteStore b) (fun s i => pwm_saveState.body i s) ?_ _ s h
  intro s i hs
  refine byteStore_of b s _ hs rfl hs.1.2.1 rfl rfl ?_
  intro e he
  rcases List.mem_cons.mp he with he | he
  · rw [he]
    simpa [PrefValue.isByte] using getD_byte _ hs.1.2.1 i
  · exact hs.2 e he

theorem byteStore_pwm_setChannelSmooth (b : Build) (i v : Nat) (hv : v < 256) (s : Device)
    (h : ByteStore b s) :
    ∃ s', pwm_setChannelSmooth b i v s = some s' ∧ ByteStore b s' := by
  by_cases hi : i < b.NUM_CHANNELS
  · obtain ⟨cv, ws, h1, h2, h3⟩ := pwm_setChannelSmooth_spec b s i v h.1 hi hv
    refine ⟨_, h1, byteStore_of b s _ h h2 ?_ rfl rfl h.2⟩
    intro x hx
    obtain ⟨j, hj, rfl⟩ := List.mem_iff_getElem.mp hx
    have h3j := h3 j
    rw [List.getD_eq_getElem?_getD, List.getElem?_eq_getElem hj, Option.getD_some] at h3j
    rw [h3j]
    split
    · exact hv
    · exact getD_byte _ h.1.2.1 j
  · exact ⟨s, by simp [pwm_setChannelSmooth, Nat.le_of_not_lt hi], h⟩

theorem byteStore_runPwm (b : Build) (ops : List PwmOp) :
    ∀ s, ByteStore b s → (∀ op ∈ ops, op.Bytes) →
      ∃ s', runPwm b ops s = some s' ∧ ByteStore b s' := by
  induction ops with
  | nil => exact fun s h _ => ⟨s, rfl, h⟩
  | cons op rest ih =>
    intro s hs hops
    have hop := hops op (List.mem_cons_self _ _)
    have hstep : ∃ s1, op.run b s = some s1 ∧ ByteStore b s1 := by
      cases op with
      | setChannel c v => exact ⟨_, rfl, byteStore_pwm_setChannel b c v hop s hs⟩
      | setAllChannels v => exact ⟨_, rfl, byteStore_pwm_setAllChannels b v hop s hs⟩
      | setChannelSmooth c v => exact byteStore_pwm_setChannelSmooth b c v hop s hs
      | loadState => exact ⟨_, rfl, byteStore_pwm_loadState b s hs⟩
      | saveState => exact ⟨_, rfl, byteStore_pwm_saveState b s hs⟩
    obtain ⟨s1, h1, h2⟩ := hstep
    obtain ⟨s', k1, k2⟩ := ih s1 h2 (fun op' h' => hops op' (List.mem_cons_of_mem _ h'))
    exact ⟨s', by rw [runPwm, h1, Option.some_bind, k1], k2⟩

theorem byteStore_pwm_init (b : Build) (hb : b.Valid) (nvs : Nvs) (hn : nvs.Bytes) :
    ByteStore b (pwm_init b (Device.boot b nvs)) := by
  unfold pwm_init
  apply byteStore_pwm_loadState
  obtain ⟨h1, h2, h3, h4, _⟩ := initLoop_spec b hb (Device.boot b nvs) b.NUM_CHANNELS (le_refl _)
  refine ⟨⟨?_, ?_, ?_, ?_⟩, ?_⟩
  · rw [h1]
    simp [Device.boot]
  · rw [h1]
    intro v hv
    simp only [Device.boot] at hv
    rw [List.eq_of_mem_replicate hv]
    omega
  · rw [h3]
    simp [Device.boot]
  · rw [h4]
    simp [Device.boot]
  · rw [h2]
    exact hn

/-- C17: store/output agreement.  From power-on, after `pwm_init()` and any
sequence of pwm_setChannel, pwm_setAllChannels, pwm_setChannelSmooth,
pwm_loadState and pwm_saveState calls with any arguments, for every channel
i < NUM_CHANNELS the stored value is the value last written to the physical
output of channel i; and when the flash and the arguments hold bytes, as
`uint8_t` makes them, every call of the sequence returns. -/
theorem C17_store_output_agreement (b : Build) (hb : b.Valid) (nvs : Nvs) (ops : List PwmOp) :
    (∀ s', runPwm b ops (pwm_init b (Device.boot b nvs)) = some s' →
      ∀ i < b.NUM_CHANNELS, lastWritten i s' = some (pwm_getChannel b i s')) ∧
    (nvs.Bytes → (∀ op ∈ ops, op.Bytes) →
      ∃ s', runPwm b ops (pwm_init b (Device.boot b nvs)) = some s') := by
  constructor
  · intro s' hrun i hi
    obtain ⟨_, hag⟩ := agree_runPwm b hb ops _ s' hrun (agree_pwm_init b hb nvs)
    unfold pwm_getChannel
    rw [if_neg (by omega)]
    exact hag i hi
  · intro hn hops
    obtain ⟨s', h1, _⟩ := byteStore_runPwm b ops _ (byteStore_pwm_init b hb nvs hn) hops
    exact ⟨s', h1⟩

/-- Witness of C17: the 4-channel build with channel 0 saved as 200; after
pwm_init, the sequence of a smooth transition of channel 1 to 3, a save, a
direct set of channel 0 and a load returns. -/
theorem C17_store_output_agreement_witness :
    ∃ s', runPwm build4
        [PwmOp.setChannelSmooth 1 3, PwmOp.saveState, PwmOp.setChannel 0 7, PwmOp.loadState]
        (pwm_init build4 (Device.boot build4 standaloneNvs)) = some s' :=
  (C17_store_output_agreement build4 (by decide) standaloneNvs
    [PwmOp.setChannelSmooth 1 3, PwmOp.saveState, PwmOp.setChannel 0 7, PwmOp.loadState]).2
    (by decide) (by decide)

/-! ## Topic dispatch -/

/-- The command topics that buildTopics writes, for any device identifier. -/
theorem buildTopics_spec (b : Build) (s : Device)
    (hc : s.topicChannelCmd.length = b.NUM_CHANNELS) :
    (buildTopics b s).topicAllCmd = MQTT_BASE_TOPIC ++ "/" ++ s.deviceId ++ "/all/set" ∧
    ∀ j < b.NUM_CHANNELS, (buildTopics b s).topicChannelCmd.getD j "" =
      MQTT_BASE_TOPIC ++ "/" ++ s.deviceId ++ "/channel/" ++ toString j ++ "/set" := by
  unfold buildTopics
  obtain ⟨h1, _, _, _, h5, _⟩ := buildLoop_spec (MQTT_BASE_TOPIC ++ "/" ++ s.deviceId)
    { s with
      topicStatus := MQTT_BASE_TOPIC ++ "/" ++ s.deviceId ++ "/status"
      topicConfig := MQTT_BASE_TOPIC ++ "/" ++ s.deviceId ++ "/config"
      topicHeartbeat := MQTT_BASE_TOPIC ++ "/" ++ s.deviceId ++ "/heartbeat"
      topicAllCmd := MQTT_BASE_TOPIC ++ "/" ++ s.deviceId ++ "/all/set" } b.NUM_CHANNELS
  exact ⟨h1, fun j hj => h5 j hj (by simpa using (by omega : j < s.topicChannelCmd.length))⟩

/-- The channel loop of mqttCallback leaves the state alone when no command
topic equals the topic of the message. -/
theorem channels_miss (b : Build) (lib : JsonLibrary) (topicStr message : String)
    (s : Device) :
    ∀ n start, (∀ j, start ≤ j → j < start + n → topicStr ≠ s.topicChannelCmd.getD j "") →
      mqttCallback.channels b lib topicStr message n start s = some s := by
  intro n
  induction n with
  | zero => intro start _; rfl
  | succ n ih =>
    intro start hmiss
    rw [mqttCallback.channels, if_neg (by simpa using hmiss start (le_refl _) (by omega))]
    exact ih (start + 1) (fun j h1 h2 => hmiss j (by omega) (by omega))

theorem mqtt_publishChannelState_channelValues (b : Build) (i v : Nat) (s : Device) :
    (mqtt_publishChannelState b i v s).channelValues = s.channelValues := by
  unfold mqtt_publishChannelState
  split <;> rfl

/-- The command body of channel `i` returns and leaves every other channel as it was,
connected or not. -/
theorem command_others (b : Build) (hb : b.Valid) (lib : JsonLibrary) (s : Device)
    (hwf : s.WF b) (i : Nat) (hi : i < b.NUM_CHANNELS) (message : String) :
    ∃ s', mqttCallback.command b lib message i s = some s' ∧
      ∀ j < b.NUM_CHANNELS, j ≠ i → pwm_getChannel b j s' = pwm_getChannel b j s := by
  obtain ⟨h0, h255⟩ := mqttCallback_value_range lib message
  obtain ⟨hv, hv256⟩ := toUInt8_of_range _ h0 h255
  obtain ⟨cv, ws, hsm, _, hcv⟩ := pwm_setChannelSmooth_spec b s i _ hwf hi hv256
  unfold mqttCallback.command
  simp only [hv]
  rw [command_applied, hsm]
  simp only [Option.map_some']
  refine ⟨_, rfl, ?_⟩
  intro j hj hji
  unfold pwm_getChannel
  rw [if_neg (by omega), if_neg (by omega), (pwm_saveState_spec b hb _).1,
    mqtt_publishChannelState_channelValues]
  simp only [hcv j, if_neg hji]

/-- C18: topic dispatch is unambiguous.  For every device identifier, the
NUM_CHANNELS per-channel command topics and the all-channels command topic
that buildTopics writes are pairwise distinct, so the topic of an inbound
message matches at most one handler; on a state with built topics, a message
on channel i's command topic is handled (the callback returns) and changes
no channel other than i, and a message on a topic outside the set leaves the
whole state as it was: no channel changes and nothing is published. -/
theorem C18_topic_dispatch (b : Build) (hb : b.Valid) (lib : JsonLibrary) :
    (∀ s0 : Device, s0.topicChannelCmd.length = b.NUM_CHANNELS →
      (∀ i < b.NUM_CHANNELS, ∀ j < b.NUM_CHANNELS,
        (buildTopics b s0).topicChannelCmd.getD i "" =
          (buildTopics b s0).topicChannelCmd.getD j "" → i = j) ∧
      (∀ i < b.NUM_CHANNELS,
        (buildTopics b s0).topicChannelCmd.getD i "" ≠ (buildTopics b s0).topicAllCmd)) ∧
    (∀ s : Device, s.WF b → s.TopicsBuilt b → ∀ payload : String,
      (∀ i < b.NUM_CHANNELS,
        ∃ s', mqttCallback b lib (s.topicChannelCmd.getD i "") payload s = some s' ∧
          ∀ j < b.NUM_CHANNELS, j ≠ i → pwm_getChannel b j s' = pwm_getChannel b j s) ∧
      (∀ topic : String, topic ≠ s.topicAllCmd →
        (∀ i < b.NUM_CHANNELS, topic ≠ s.topicChannelCmd.getD i "") →
        mqttCallback b lib topic payload s = some s)) := by
  have h8 := hb.le8
  constructor
  · intro s0 hc
    obtain ⟨hall, hcmd⟩ := buildTopics_spec b s0 hc
    constructor
    · intro i hi j hj h
      rw [hcmd i hi, hcmd j hj, cmdTopic_assoc, cmdTopic_assoc] at h
      exact cmdSuffix_inj8 i (by omega) j (by omega) (string_append_cancel_left _ _ _ h)
    · intro i hi h
      rw [hcmd i hi, hall, cmdTopic_assoc] at h
      exact cmdSuffix_ne_all8 i (by omega) (string_append_cancel_left _ _ _ h)
  · intro s hwf htop payload
    obtain ⟨hall, hinj⟩ := topicsBuilt_distinct b hb s hwf htop
    constructor
    · intro i hi
      have hcall : mqttCallback b lib (s.topicChannelCmd.getD i "") payload s =
          mqttCallback.command b lib (cString payload) i s := by
        unfold mqttCallback
        simp only []
        rw [if_neg (by simpa using hall i hi)]
        exact channels_hit b lib _ _ i s rfl b.NUM_CHANNELS 0 (Nat.zero_le _) (by omega)
          (fun j _ hj h => absurd (hinj i hi j (by omega) h) (by omega))
      rw [hcall]
      exact command_others b hb lib s hwf i hi (cString payload)
    · intro topic hna hnc
      unfold mqttCallback
      simp only []
      rw [if_neg (by simpa using hna)]
      exact channels_miss b lib _ _ s b.NUM_CHANNELS 0 (fun j _ hj => hnc j (by omega))

/-- Witness of C18: on the sample device a message on the status topic is
ignored. -/
theorem C18_topic_dispatch_witness :
    mqttCallback build8 sampleJson "vandaemon/leddimmer/leddimmer-a1b2c3/status" "255"
      sampleDevice = some sampleDevice :=
  ((C18_topic_dispatch build8 (by decide) sampleJson).2 sampleDevice (by decide!) (by decide!)
    "255").2 "vandaemon/leddimmer/leddimmer-a1b2c3/status" (by decide!) (by decide!)

/-! ## Connectivity maintainer -/

/-- The wait loop of wifi_maintain with `n` iterations left: it makes at most
`n` polls and at most `n` waits of 500 ms, and no reconnect. -/
theorem wifiWait_spec (e : WifiEnv) :
    ∀ (n i : Nat) (w : Wifi),
      ∃ k, k ≤ n ∧
        (wifi_maintain.wait e n i w).delays = List.replicate k 500 ++ w.delays ∧
        (wifi_maintain.wait e n i w).statusPolls ≤ w.statusPolls + n ∧
        (wifi_maintain.wait e n i w).statusPolls ≤ w.statusPolls + k + 1 ∧
        (wifi_maintain.wait e n i w).reconnectCalls = w.reconnectCalls ∧
        (wifi_maintain.wait e n i w).lastReconnectAttempt = w.lastReconnectAttempt := by
  intro n
  induction n with
  | zero =>
    intro i w
    exact ⟨0, le_refl _, rfl, le_refl _, by simp [wifi_maintain.wait], rfl, rfl⟩
  | succ n ih =>
    intro i w
    rw [wifi_maintain.wait]
    cases hs : e.status (i + 1) with
    | true =>
      refine ⟨0, Nat.zero_le _, ?_, ?_, ?_, ?_, ?_⟩ <;> simp [wifi_isConnected]
    | false =>
      simp only [wifi_isConnected, Bool.false_eq_true, if_false]
      obtain ⟨k, h1, h2, h3, h4, h5, h6⟩ := ih (i + 1)
        { w with wifiConnected := false, statusPolls := w.statusPolls + 1,
                 delays := 500 :: w.delays }
      refine ⟨k + 1, by omega, ?_, ?_, ?_, h5, h6⟩
      · rw [h2, List.replicate_succ']
        simp
      · simp only at h3
        omega
      · simp only at h4
        omega

/-- C15: `wifi_maintain()` never blocks indefinitely.  Whatever sequence of
association statuses the network layer reports, one call returns having
issued at most one reconnect, and that only if the association was reported
down at entry and the guard of line 112 passed, that is, at least 30000 ms
have elapsed since the stamp of the last attempt; after the reconnect it
makes at most 20 status polls (21 with the one at entry) and at most 20
waits, each of 500 ms.  When the association is up at entry it issues no
reconnect and no wait. -/
theorem C15_wifi_maintain_bounded (e : WifiEnv) (w : Wifi) :
    (wifi_maintain e w).reconnectCalls ≤ w.reconnectCalls + 1 ∧
    ((wifi_maintain e w).reconnectCalls = w.reconnectCalls + 1 →
      e.status 0 = false ∧
      RECONNECT_INTERVAL ≤ sub32 (millis e.tCheck) w.lastReconnectAttempt ∧
      (∀ l, w.lastReconnectAttempt = millis l → l ≤ e.tCheck →
        l + RECONNECT_INTERVAL ≤ e.tCheck)) ∧
    (∃ k, k ≤ 20 ∧ (wifi_maintain e w).delays = List.replicate k 500 ++ w.delays ∧
      (wifi_maintain e w).statusPolls ≤ w.statusPolls + 1 + 20 ∧
      (wifi_maintain e w).statusPolls ≤ w.statusPolls + 1 + k + 1 ∧
      (k ≠ 0 → (wifi_maintain e w).reconnectCalls = w.reconnectCalls + 1)) ∧
    (e.status 0 = true →
      wifi_maintain e w = { w with wifiConnected := true, statusPolls := w.statusPolls + 1 }) := by
  unfold wifi_maintain
  cases hs : e.status 0 with
  | true =>
    simp only [wifi_isConnected, Bool.not_true, Bool.false_eq_true, if_false]
    refine ⟨by omega, fun h => by omega, ⟨0, by omega, rfl, by omega, by omega, fun h => ?_⟩,
      fun _ => trivial⟩
    exact absurd rfl h
  | false =>
    simp only [wifi_isConnected, Bool.not_false, if_true]
    by_cases hg : sub32 (millis e.tCheck) w.lastReconnectAttempt ≥ RECONNECT_INTERVAL
    · rw [if_pos hg]
      obtain ⟨k, h1, h2, h3, h4, h5, _⟩ := wifiWait_spec e 20 0
        { w with wifiConnected := false, statusPolls := w.statusPolls + 1,
                 statusColor := STATUS_WIFI_SETUP, reconnectCalls := w.reconnectCalls + 1,
                 lastReconnectAttempt := millis e.tStamp }
      simp only at h2 h3 h4 h5
      refine ⟨by omega, fun _ => ⟨trivial, hg, ?_⟩,
        ⟨k, h1, h2, by omega, by omega, fun _ => h5⟩, by first | trivial | exact fun h => by cases h⟩
      intro l hl hle
      rw [hl] at hg
      have := sub32_millis_le e.tCheck l hle
      omega
    · rw [if_neg hg]
      refine ⟨by simp, fun h => ?_, ⟨0, by omega, rfl, by simp, by simp, fun h => ?_⟩,
        by first | trivial | exact fun h => by cases h⟩
      · simp at h
      · exact absurd rfl h

/-- Witness of C15: down at entry, 40 s after power-on, up at the third poll
of the wait loop: one reconnect, two waits of 500 ms. -/
theorem C15_wifi_maintain_bounded_witness :
    (wifi_maintain { status := fun k => decide (3 ≤ k), tCheck := 40000, tStamp := 40000 }
      Wifi.boot).reconnectCalls = Wifi.boot.reconnectCalls + 1 ∧
    (wifi_maintain { status := fun k => decide (3 ≤ k), tCheck := 40000, tStamp := 40000 }
      Wifi.boot).delays = [500, 500] ∧
    RECONNECT_INTERVAL ≤ sub32 (millis 40000) Wifi.boot.lastReconnectAttempt :=
  ⟨by decide, by decide,
   ((C15_wifi_maintain_bounded
      { status := fun k => decide (3 ≤ k), tCheck := 40000, tStamp := 40000 } Wifi.boot).2.1
      (by decide)).2.1⟩

/-! ## The fade demo -/

theorem mqtt_publishChannelState_pwm (b : Build) (i v : Nat) (s : Device) :
    (mqtt_publishChannelState b i v s).channelValues = s.channelValues ∧
    (mqtt_publishChannelState b i v s).ledcWrites = s.ledcWrites ∧
    (mqtt_publishChannelState b i v s).nvs = s.nvs := by
  unfold mqtt_publishChannelState
  split
  · exact ⟨rfl, rfl, rfl⟩
  · exact ⟨rfl, rfl, rfl⟩

/-- Publishing the channel states touches neither the channel array nor the
outputs nor the flash. -/
theorem mqtt_publishAllStates_pwm (b : Build) (s : Device) :
    (mqtt_publishAllStates b s).channelValues = s.channelValues ∧
    (mqtt_publishAllStates b s).ledcWrites = s.ledcWrites ∧
    (mqtt_publishAllStates b s).nvs = s.nvs := by
  refine foldl_inv
    (fun s' => s'.channelValues = s.channelValues ∧ s'.ledcWrites = s.ledcWrites ∧ s'.nvs = s.nvs)
    (fun s i => mqtt_publishChannelState b i (pwm_getChannel b i s) s) ?_ _ s ⟨rfl, rfl, rfl⟩
  intro s' i h
  obtain ⟨h1, h2, h3⟩ := mqtt_publishChannelState_pwm b i (pwm_getChannel b i s') s'
  exact ⟨h1.trans h.1, h2.trans h.2.1, h3.trans h.2.2⟩

/-- One pwm_setChannel on a valid channel: the channel's output was last
written with the value, the other outputs were not written. -/
theorem pwm_setChannel_lastWritten (b : Build) (hb : b.Valid) (ch v : Nat) (s : Device)
    (hch : ch < b.NUM_CHANNELS) :
    lastWritten ch (pwm_setChannel b ch v s) = some v ∧
    ∀ j < b.NUM_CHANNELS, j ≠ ch →
      lastWritten j (pwm_setChannel b ch v s) = lastWritten j s := by
  have h8 := hb.le8
  unfold lastWritten
  rw [pwm_setChannel_ledcWrites b ch v s hch]
  refine ⟨by simp [List.lookup], ?_⟩
  intro j hj hne
  have hpin : PWM_PINS.getD j 0 ≠ PWM_PINS.getD ch 0 :=
    fun h => hne (PWM_PINS_inj8 j (by omega) ch (by omega) h)
  simp only [List.lookup]
  rw [show (PWM_PINS.getD j 0 == PWM_PINS.getD ch 0) = false from by simpa using hpin]

/-- A run of pwm_setChannel calls on one valid channel with the values
`f 0`, .., `f m`: the cell and the output of the channel end at `f m`, the
other cells and outputs and the flash are as before. -/
theorem setSeq_spec (b : Build) (hb : b.Valid) (ch : Nat) (hch : ch < b.NUM_CHANNELS)
    (f : Nat → Nat) : ∀ (m : Nat) (s : Device),
    ((List.range (m + 1)).foldl (fun s k => pwm_setChannel b ch (f k) s) s).nvs = s.nvs ∧
    ((List.range (m + 1)).foldl (fun s k => pwm_setChannel b ch (f k) s) s).channelValues
      = s.channelValues.set ch (f m) ∧
    lastWritten ch ((List.range (m + 1)).foldl (fun s k => pwm_setChannel b ch (f k) s) s)
      = some (f m) ∧
    ∀ j < b.NUM_CHANNELS, j ≠ ch →
      lastWritten j ((List.range (m + 1)).foldl (fun s k => pwm_setChannel b ch (f k) s) s)
        = lastWritten j s := by
  intro m
  induction m with
  | zero =>
    intro s
    simp only [List.range_succ, List.range_zero, List.nil_append, List.foldl_cons,
      List.foldl_nil, Nat.zero_add]
    obtain ⟨h1, h2⟩ := pwm_setChannel_lastWritten b hb ch (f 0) s hch
    exact ⟨pwm_setChannel_nvs b ch (f 0) s, pwm_setChannel_channelValues b ch (f 0) s hch, h1, h2⟩
  | succ m ih =>
    intro s
    rw [List.range_succ, List.foldl_append]
    obtain ⟨i1, i2, _, i4⟩ := ih s
    generalize (List.range (m + 1)).foldl (fun s k => pwm_setChannel b ch (f k) s) s = r at *
    simp only [List.foldl_cons, List.foldl_nil]
    obtain ⟨h1, h2⟩ := pwm_setChannel_lastWritten b hb ch (f (m + 1)) r hch
    refine ⟨(pwm_setChannel_nvs b ch _ r).trans i1, ?_, h1, ?_⟩
    · rw [pwm_setChannel_channelValues b ch _ r hch, i2, List.set_set]
    · intro j hj hne
      rw [h2 j hj hne]
      exact i4 j hj hne

/-- The fade of one channel, up and down: the cell and the output of the
channel end at 0, the other cells and outputs and the flash are as before. -/
theorem fadeChannel_spec (b : Build) (hb : b.Valid) (ch : Nat) (hch : ch < b.NUM_CHANNELS)
    (s : Device) :
    (loop.fadeDown b ch (loop.fadeUp b ch s)).nvs = s.nvs ∧
    (loop.fadeDown b ch (loop.fadeUp b ch s)).channelValues = s.channelValues.set ch 0 ∧
    lastWritten ch (loop.fadeDown b ch (loop.fadeUp b ch s)) = some 0 ∧
    ∀ j < b.NUM_CHANNELS, j ≠ ch →
      lastWritten j (loop.fadeDown b ch (loop.fadeUp b ch s)) = lastWritten j s := by
  obtain ⟨u1, u2, _, u4⟩ := setSeq_spec b hb ch hch (fun k => 5 * k) 51 s
  obtain ⟨d1, d2, d3, d4⟩ := setSeq_spec b hb ch hch (fun k => 255 - 5 * k) 51 (loop.fadeUp b ch s)
  refine ⟨d1.trans u1, ?_, d3, ?_⟩
  · show (loop.fadeDown b ch (loop.fadeUp b ch s)).channelValues = _
    unfold loop.fadeDown
    rw [d2]
    unfold loop.fadeUp
    rw [u2, List.set_set]
  · intro j hj hne
    exact (d4 j hj hne).trans (u4 j hj hne)

/-- The channel loop of the fade demo after `n` channels: the first `n`
cells and outputs are at 0 and the flash is as before. -/
theorem fadeLoop_spec (b : Build) (hb : b.Valid) (s : Device)
    (hlen : s.channelValues.length = b.NUM_CHANNELS) : ∀ n ≤ b.NUM_CHANNELS,
    ((List.range n).foldl (fun s ch => loop.fadeDown b ch (loop.fadeUp b ch s)) s).nvs = s.nvs ∧
    ((List.range n).foldl (fun s ch => loop.fadeDown b ch (loop.fadeUp b ch s)) s
      ).channelValues.length = b.NUM_CHANNELS ∧
    ∀ i < n,
      ((List.range n).foldl (fun s ch => loop.fadeDown b ch (loop.fadeUp b ch s)) s
        ).channelValues.getD i 0 = 0 ∧
      lastWritten i ((List.range n).foldl (fun s ch => loop.fadeDown b ch (loop.fadeUp b ch s)) s)
        = some 0 := by
  intro n
  induction n with
  | zero => intro _; exact ⟨rfl, hlen, fun i hi => absurd hi (Nat.not_lt_zero i)⟩
  | succ n ih =>
    intro hn
    obtain ⟨i1, i2, i3⟩ := ih (by omega)
    rw [List.range_succ, List.foldl_append]
    generalize (List.range n).foldl (fun s ch => loop.fadeDown b ch (loop.fadeUp b ch s)) s = r at *
    simp only [List.foldl_cons, List.foldl_nil]
    obtain ⟨h1, h2, h3, h4⟩ := fadeChannel_spec b hb n (by omega) r
    refine ⟨h1.trans i1, by rw [h2]; simpa using i2, ?_⟩
    intro i hi
    by_cases hin : i = n
    · subst hin
      rw [h2, getD_set _ _ _ _ _ (by omega), if_pos rfl]
      exact ⟨rfl, h3⟩
    · rw [h2, getD_set_ne _ _ _ _ _ hin, h4 i (by omega) hin]
      exact i3 i (by omega)

/-- C19: the button-1 fade demo discards the brightness state.  From any
state whose channel array has `NUM_CHANNELS` cells, when the demo block of
`loop()` completes every channel's stored value is 0 and the last value
written to its output is 0, and the flash is as it was before the demo; so
the memory and the flash may differ afterwards: on the 8-channel build whose
flash holds 200 for channel 0, channel 0 is 200 like the flash before the
demo and 0 after it while the flash still holds 200. -/
theorem C19_fade_demo_discards_state (b : Build) (hb : b.Valid) (s : Device)
    (hlen : s.channelValues.length = b.NUM_CHANNELS) :
    (∀ i < b.NUM_CHANNELS,
      pwm_getChannel b i (loop.fadeDemo b s) = 0 ∧
      lastWritten i (loop.fadeDemo b s) = some 0) ∧
    (loop.fadeDemo b s).nvs = s.nvs ∧
    (pwm_getChannel build8 0 (pwm_init build8 (Device.boot build8 standaloneNvs)) = 200 ∧
      (pwm_init build8 (Device.boot build8 standaloneNvs)).nvs.getUChar (channelKey 0) 0 = 200 ∧
      pwm_getChannel build8 0
        (loop.fadeDemo build8 (pwm_init build8 (Device.boot build8 standaloneNvs))) = 0 ∧
      (loop.fadeDemo build8 (pwm_init build8 (Device.boot build8 standaloneNvs))
        ).nvs.getUChar (channelKey 0) 0 = 200) := by
  obtain ⟨f1, _, f3⟩ := fadeLoop_spec b hb (status_setColor STATUS_ACTIVE s) hlen
    b.NUM_CHANNELS (le_refl _)
  have key : (loop.fadeDemo b s).channelValues
        = ((List.range b.NUM_CHANNELS).foldl
            (fun s ch => loop.fadeDown b ch (loop.fadeUp b ch s))
            (status_setColor STATUS_ACTIVE s)).channelValues ∧
      (loop.fadeDemo b s).ledcWrites
        = ((List.range b.NUM_CHANNELS).foldl
            (fun s ch => loop.fadeDown b ch (loop.fadeUp b ch s))
            (status_setColor STATUS_ACTIVE s)).ledcWrites ∧
      (loop.fadeDemo b s).nvs
        = ((List.range b.NUM_CHANNELS).foldl
            (fun s ch => loop.fadeDown b ch (loop.fadeUp b ch s))
            (status_setColor STATUS_ACTIVE s)).nvs := by
    have hdemo : ∀ r : Device,
        (status_setColor STATUS_READY
          (if mqtt_isConnected r then mqtt_publishAllStates b r else r)).channelValues
          = r.channelValues ∧
        (status_setColor STATUS_READY
          (if mqtt_isConnected r then mqtt_publishAllStates b r else r)).ledcWrites
          = r.ledcWrites ∧
        (status_setColor STATUS_READY
          (if mqtt_isConnected r then mqtt_publishAllStates b r else r)).nvs = r.nvs := by
      intro r
      by_cases hc : mqtt_isConnected r = true
      · rw [if_pos hc]
        exact mqtt_publishAllStates_pwm b r
      · rw [if_neg hc]
        exact ⟨rfl, rfl, rfl⟩
    exact hdemo _
  obtain ⟨k1, k2, k3⟩ := key
  refine ⟨?_, k3.trans f1, by decide!⟩
  intro i hi
  obtain ⟨g1, g2⟩ := f3 i hi
  constructor
  · unfold pwm_getChannel
    rw [if_neg (by omega), k1]
    exact g1
  · unfold lastWritten at g2 ⊢
    rw [k2]
    exact g2

theorem C19_fade_demo_discards_state_witness :
    (pwm_init build8 (Device.boot build8 standaloneNvs)).channelValues.length
        = build8.NUM_CHANNELS ∧
      ((∀ i < build8.NUM_CHANNELS,
        pwm_getChannel build8 i
          (loop.fadeDemo build8 (pwm_init build8 (Device.boot build8 standaloneNvs))) = 0 ∧
        lastWritten i
          (loop.fadeDemo build8 (pwm_init build8 (Device.boot build8 standaloneNvs))) = some 0) ∧
      (loop.fadeDemo build8 (pwm_init build8 (Device.boot build8 standaloneNvs))).nvs
        = (pwm_init build8 (Device.boot build8 standaloneNvs)).nvs) :=
  ⟨by decide!,
    (C19_fade_demo_discards_state build8 (Or.inr rfl)
      (pwm_init build8 (Device.boot build8 standaloneNvs)) (by decide!)).1,
    (C19_fade_demo_discards_state build8 (Or.inr rfl)
      (pwm_init build8 (Device.boot build8 standaloneNvs)) (by decide!)).2.1⟩


/-! ## The hold gesture -/

/-- C16 (defect of the code): releasing a button does not reset the hold
timer.  The `else` branch of the hold gesture writes a second variable of
the same name, so an iteration of `loop()` that finds a button released
leaves the timer `bothButtonsStart` and the WiFi module as they were; and on
`staleHoldTrace` the timer still holds 5170 after the release, and the
iteration at 20030 ms calls `wifi_resetCredentials()` although the iteration
30 ms before it found button 1 released. -/
theorem C16_release_keeps_hold_timer :
    (∀ (e : LoopIn) (app : App),
      (loop.holdGesture { e with btn1Down := false } app).bothButtonsStart
        = app.bothButtonsStart ∧
      (loop.holdGesture { e with btn2Down := false } app).bothButtonsStart
        = app.bothButtonsStart ∧
      (loop.holdGesture { e with btn1Down := false } app).wifi = app.wifi ∧
      (loop.holdGesture { e with btn2Down := false } app).wifi = app.wifi) ∧
    staleHoldTrace.map (fun e => (e.btn1Down, e.btn2Down, e.tHoldCheck))
      = [(true, true, 5270), (false, false, 5390), (false, true, 20110), (true, true, 20140)] ∧
    (runApp build8 sampleJson (staleHoldTrace.take 3) App.afterSetup).map
      (fun a => (a.restarted, a.wifi.settingsResets, a.bothButtonsStart,
        callsReset build8 sampleJson (iterationAt 20030 LOW LOW true true 20040) a))
      = some (false, 0, 5170, true) ∧
    (runApp build8 sampleJson staleHoldTrace App.afterSetup).map
      (fun a => (a.restarted, a.wifi.settingsResets)) = some (true, 1) := by
  refine ⟨?_, by decide, by decide!, by decide!⟩
  intro e app
  refine ⟨?_, ?_, ?_, ?_⟩
  · simp [loop.holdGesture]
  · simp [loop.holdGesture]
  · simp [loop.holdGesture]
  · simp [loop.holdGesture]

end VanDaemon
